import Mathlib

/-!
# VIA PadLock RNG engine (`viapadlock_engine.c`)

A shallow embedding of the PadLock entropy-source driver of rng-tools:
`decode_cpu_revision`, `detect_via_padlock_rng`, `viapadlock_rng_init`,
`viapadlock_rng_free`, `viapadlock_rng_generate_config`, `viapadlock_rng_enable`
and `viapadlock_rng_read`.

Conventions of the embedding.

* C `unsigned int` / `uint32_t` values are natural numbers; where a shift can
  leave 32 bits the result is reduced `% 2^32` explicitly.
* The file-scope statics `viapadlock_engines_detected` and `viapadlock_state`
  are the two fields of `Engine`, passed in and returned by every operation.
* The operating system and the hardware are a `Machine`: the answers of
  `open`, of the `lseek`+`read` pair on a cpuid device, of the `lseek`+`write`
  pair on an msr device and of the `xstore` instruction.
* Every system call and every `xstore` an operation performs is appended to a
  trace of `Event`s, so that "no hardware write" is "no `wrmsr` event".
* `errno` is returned next to the C return value.
-/

namespace ViaPadlock

/-! ## Constants -/

/-- Capacity of the per-core handle array `msr_fd`. -/
def MAX_CPUS : Nat := 32

/-- Linux value of `ENOENT` from `<errno.h>`. -/
def ENOENT : Nat := 2
/-- Linux value of the input/output error code from `<errno.h>`. -/
def EIO : Nat := 5
/-- Linux value of `ENXIO` from `<errno.h>`. -/
def ENXIO : Nat := 6
/-- Linux value of `EAGAIN` from `<errno.h>`. -/
def EAGAIN : Nat := 11
/-- Linux value of `EINVAL` from `<errno.h>`. -/
def EINVAL : Nat := 22

def CENTAUR_EXFF_LEVEL : Nat := 0xc0000000
def CENTAUR_EXFF_RNG : Nat := 0xc0000001
def CENTAUR_EXFF_RNG_MASK : Nat := 1 <<< 2

def MSR_VIA_RNG1 : Nat := 0x110b
def VIA1_STRFILT_CNT_SHIFT : Nat := 16
def VIA1_STRFILT_FAIL : Nat := 1 <<< 15
def VIA1_STRFILT_ENABLE : Nat := 1 <<< 14
def VIA1_STRFILT_MIN : Nat := 8
def VIA1_STRFILT_MAX : Nat := 63
def VIA1_STRFILT_MASK : Nat := VIA1_STRFILT_MAX <<< VIA1_STRFILT_CNT_SHIFT
def VIA1_RAWBITS_ENABLE : Nat := 1 <<< 13
def VIA1_NOISE_SRC_SHIFT : Nat := 8
def VIA1_NOISE_SRC_MASK : Nat := 3 <<< VIA1_NOISE_SRC_SHIFT
def VIA1_RNG_ENABLE : Nat := 1 <<< 6
def VIA1_DCBIAS_SHIFT : Nat := 10
def VIA1_DCBIAS_MAX : Nat := 7
def VIA1_DCBIAS_MASK : Nat := VIA1_DCBIAS_MAX <<< VIA1_DCBIAS_SHIFT
def VIA1_XSTORE_CNT_MASK : Nat := 0x0f

/-- The enumerators of `viapadlock_noise_source_t`, as the integers the code
shifts into the register value. -/
def VIAPADLOCK_RNG1_SOURCE_A : Nat := 0
def VIAPADLOCK_RNG1_SOURCE_B : Nat := 1
def VIAPADLOCK_RNG1_SOURCE_AB : Nat := 2

/-! ## Data model -/

inductive via_rng_type_t where
  | VIA_RNG_NONE
  | VIA_RNG_TYPE1_ONESRC
  | VIA_RNG_TYPE1_TWOSRC
deriving DecidableEq, Repr

structure viapadlock_rng_config_t where
  dc_bias : Nat
  string_filter : Nat
  noise_source : Nat
  whitener : Nat
  divisor : Nat
deriving DecidableEq, Repr

/-- The struct `viapadlock_rng_t`; the array `msr_fd[MAX_CPUS]` is the function
from index to stored descriptor. -/
structure viapadlock_rng_t where
  MSR_LSW : Nat
  MSR_LSW_MASK : Nat
  rng_type : via_rng_type_t
  msr_fd : Nat → Int
  divisor : Nat

/-- The two file-scope statics of the driver. -/
structure Engine where
  viapadlock_engines_detected : Nat
  viapadlock_state : viapadlock_rng_t

/-- The zero-initialised statics at program start. -/
def Engine.zero : Engine :=
  { viapadlock_engines_detected := 0
    viapadlock_state :=
      { MSR_LSW := 0, MSR_LSW_MASK := 0, rng_type := via_rng_type_t.VIA_RNG_NONE,
        msr_fd := fun _ => 0, divisor := 0 } }

/-- The register handles the capability holds: the first
`viapadlock_engines_detected` entries of `msr_fd`, in index order. -/
def Engine.handles (eng : Engine) : List Int :=
  (List.range eng.viapadlock_engines_detected).map eng.viapadlock_state.msr_fd

/-- What `via_xstore` leaves behind: the status word in `eax` and the bytes of
`xstore_buffer` (byte `k` of the buffer is `buffer k`). -/
structure Xstore where
  flags : Nat
  buffer : Nat → Nat

/-- The simulated operating system and hardware.

* `open_msr i`, `open_cpuid i`: `open` of the msr / cpuid device of core `i`;
  `Except.ok fd` is a descriptor, `Except.error e` is `-1` with `errno = e`
  (a failing system call sets a non-zero `errno`, hence the type `ℕ+`).
* `readcpuid fd level`: the `READCPUID` pair `lseek(fd, level)` + `read` of 32
  bytes; `Except.ok buf` is the eight words of `cpuid_buf`, `Except.error e`
  is a failure of either call with `errno = e`.
* `wrmsr fd lo hi`: the pair `lseek(fd, MSR_VIA_RNG1)` + `write` of the two
  words; `0` is success, any other value is the `errno` of the failing call.
* `via_xstore k edx`: the `k`-th execution of `xstore` inside one call of
  `viapadlock_rng_read`, with `edx` as its divisor word. -/
structure Machine where
  open_msr : Nat → Except ℕ+ Int
  open_cpuid : Nat → Except ℕ+ Int
  readcpuid : Int → Nat → Except ℕ+ (Nat → Nat)
  wrmsr : Int → Nat → Nat → Nat
  via_xstore : Nat → Nat → Xstore

/-- The observable actions of the driver. -/
inductive Event where
  | open_msr (cpu : Nat) (fd : Int)
  | open_cpuid (cpu : Nat) (fd : Int)
  | close (fd : Int)
  | wrmsr (fd : Int) (lo : Nat) (hi : Nat)
  | xstore (edx : Nat)
deriving DecidableEq, Repr

/-! ## Configuration generator -/

/-- The function `viapadlock_rng_generate_config`: the returned `double` (the
binary fraction 0.75, exact) and the five fields it stores through `cfg`. -/
def viapadlock_rng_generate_config (quality : Nat) : ℚ × viapadlock_rng_config_t :=
  let dc_bias := 0
  let whitener := 1
  let string_filter := 0
  let noise_source := VIAPADLOCK_RNG1_SOURCE_AB
  let divisor := if quality ≥ 3 ∨ quality = 0 then 3 else quality
  (0.75, { dc_bias := dc_bias, string_filter := string_filter,
           noise_source := noise_source, whitener := whitener, divisor := divisor })

/-! ## Feature detector -/

/-- The function `decode_cpu_revision`, on a 32-bit word `tfms`. -/
def decode_cpu_revision (tfms : Nat) : Nat :=
  let family := (tfms >>> 8) &&& 0xf
  let model := (tfms >>> 4) &&& 0xf
  let family := if tfms &&& 0xf00 = 0xf00 then (family + ((tfms >>> 20) &&& 0xff)) % 2^32 else family
  let model := if tfms &&& 0xf00 = 0xf00 then model ||| ((tfms >>> 12) &&& 0xf0) else model
  let stepping := tfms &&& 0xf
  ((family <<< 16) % 2^32) ||| ((model <<< 8) % 2^32) ||| stepping

/-- The function `detect_via_padlock_rng`: its return value (`0` detected, `-1`
not detected, otherwise the `errno` of a failed `READCPUID`) and the struct
behind `rng` afterwards. A successful `read` is taken to fill all eight words
of `cpuid_buf`. -/
def detect_via_padlock_rng (m : Machine) (cpuid_fd : Int) (rng : viapadlock_rng_t)
    (is_first_rng : Bool) : Int × viapadlock_rng_t :=
  -- READCPUID(0, 32)
  match m.readcpuid cpuid_fd 0 with
  | Except.error e => (((e : Nat) : Int), rng)
  | Except.ok cpuid_buf =>
    if cpuid_buf 0 = 0 ∨ cpuid_buf 1 ≠ 0x746e6543 ∨ cpuid_buf 3 ≠ 0x48727561 ∨
        cpuid_buf 2 ≠ 0x736c7561 then (-1, rng)
    else
      let CPU_revision := decode_cpu_revision (cpuid_buf 4)
      -- READCPUID(CENTAUR_EXFF_LEVEL, 32)
      match m.readcpuid cpuid_fd CENTAUR_EXFF_LEVEL with
      | Except.error e => (((e : Nat) : Int), rng)
      | Except.ok cpuid_buf =>
        if cpuid_buf 0 < CENTAUR_EXFF_RNG then (-1, rng)
        else if cpuid_buf 7 &&& CENTAUR_EXFF_RNG_MASK = 0 then (-1, rng)
        else if CPU_revision ≤ 0x0060902 then (-1, rng)
        else
          let msr_lsw_mask := VIA1_STRFILT_ENABLE ||| VIA1_RAWBITS_ENABLE |||
            VIA1_DCBIAS_MASK ||| VIA1_RNG_ENABLE
          let rng_type := if CPU_revision ≤ 0x0060907
            then via_rng_type_t.VIA_RNG_TYPE1_ONESRC else via_rng_type_t.VIA_RNG_TYPE1_TWOSRC
          let msr_lsw_mask := if CPU_revision ≤ 0x0060907
            then msr_lsw_mask else msr_lsw_mask ||| VIA1_NOISE_SRC_MASK
          if !is_first_rng then
            if rng_type ≠ rng.rng_type ∨ msr_lsw_mask ≠ rng.MSR_LSW_MASK then (-1, rng)
            else (0, rng)
          else
            (0, { rng with rng_type := rng_type, MSR_LSW_MASK := msr_lsw_mask,
                           MSR_LSW := 0, divisor := 0 })

/-! ## Teardown and multi-core initialisation -/

/-- The `while` loop of `viapadlock_rng_free`, run from a detected count `n`
down to zero: the `close` calls it makes. -/
def free_loop (st : viapadlock_rng_t) : Nat → List Event
  | 0 => []
  | n + 1 =>
    (if st.msr_fd n ≠ -1 then [Event.close (st.msr_fd n)] else []) ++ free_loop st n

/-- The function `viapadlock_rng_free`. -/
def viapadlock_rng_free (eng : Engine) : Engine × List Event :=
  ({ eng with viapadlock_engines_detected := 0 },
   free_loop eng.viapadlock_state eng.viapadlock_engines_detected)

/-- The variables of `viapadlock_rng_init` when its `for` loop is left. -/
structure InitExit where
  eng : Engine
  msr_fd : Int
  cpuid_fd : Int
  error : Int
  trace : List Event

/-- The `for` loop of `viapadlock_rng_init`, with `n` iterations left before
`i` reaches `MAX_CPUS`; it is entered with `msr_fd = cpuid_fd = -1`, `error = 0`. -/
def init_loop (m : Machine) : Nat → Nat → Engine → List Event → InitExit
  | 0, _, eng, tr => { eng := eng, msr_fd := -1, cpuid_fd := -1, error := 0, trace := tr }
  | n + 1, i, eng, tr =>
    match m.open_msr i with
    | Except.error e =>
      let error : Int := if (e : Nat) ≠ ENXIO ∧ (e : Nat) ≠ ENOENT then ((e : Nat) : Int) else 0
      let error : Int := if (e : Nat) = EIO then -1 else error
      { eng := eng, msr_fd := -1, cpuid_fd := -1, error := error, trace := tr }
    | Except.ok msr_fd =>
      let tr := tr ++ [Event.open_msr i msr_fd]
      match m.open_cpuid i with
      | Except.error e =>
        let error : Int := ((e : Nat) : Int)
        let error : Int := if (e : Nat) = EIO then -1 else error
        { eng := eng, msr_fd := msr_fd, cpuid_fd := -1, error := error, trace := tr }
      | Except.ok cpuid_fd =>
        let tr := tr ++ [Event.open_cpuid i cpuid_fd]
        let d := detect_via_padlock_rng m cpuid_fd eng.viapadlock_state
          (eng.viapadlock_engines_detected == 0)
        if d.1 ≠ 0 then
          { eng := { eng with viapadlock_state := d.2 }, msr_fd := msr_fd,
            cpuid_fd := cpuid_fd, error := d.1, trace := tr }
        else
          let rng := d.2
          let msr_fds := Function.update rng.msr_fd eng.viapadlock_engines_detected msr_fd
          let st := { rng with msr_fd := msr_fds }
          init_loop m n (i + 1)
            { viapadlock_engines_detected := eng.viapadlock_engines_detected + 1,
              viapadlock_state := st }
            (tr ++ [Event.close cpuid_fd])

/-- The result of `viapadlock_rng_init`: the return value, the value the
function itself assigns to `errno` (`none` when it assigns nothing), the
statics afterwards and the actions performed. -/
structure InitResult where
  ret : Int
  errno : Option Int
  eng : Engine
  trace : List Event

/-- The function `viapadlock_rng_init`. The device path only selects which
files `open` sees, so it is part of the `Machine`. -/
def viapadlock_rng_init (m : Machine) (eng : Engine) : InitResult :=
  let f := if eng.viapadlock_engines_detected ≠ 0 then viapadlock_rng_free eng else (eng, [])
  let x := init_loop m MAX_CPUS 0 f.1 f.2
  let tr := x.trace ++ (if x.msr_fd ≠ -1 then [Event.close x.msr_fd] else [])
  let tr := tr ++ (if x.cpuid_fd ≠ -1 then [Event.close x.cpuid_fd] else [])
  if x.error ≠ 0 then
    let g := viapadlock_rng_free x.eng
    if x.error ≠ -1 then
      { ret := -1, errno := some x.error, eng := g.1, trace := tr ++ g.2 }
    else
      { ret := 0, errno := none, eng := g.1, trace := tr ++ g.2 }
  else
    { ret := if x.eng.viapadlock_engines_detected > 0 then 1 else 0, errno := none,
      eng := x.eng, trace := tr }

/-! ## Enable / disable controller -/

/-- The "Clean up config" block of `viapadlock_rng_enable`: the caller's
struct after the three clamping statements. -/
def clean_config (cfg : viapadlock_rng_config_t) : viapadlock_rng_config_t :=
  let dc_bias := if cfg.dc_bias > VIA1_DCBIAS_MAX then VIA1_DCBIAS_MAX else cfg.dc_bias
  let string_filter :=
    if cfg.string_filter ≠ 0 ∧ cfg.string_filter < VIA1_STRFILT_MIN then VIA1_STRFILT_MIN
    else cfg.string_filter
  let string_filter :=
    if string_filter > VIA1_STRFILT_MAX then VIA1_STRFILT_MAX else string_filter
  { cfg with dc_bias := dc_bias, string_filter := string_filter }

/-- The value assigned to `viapadlock_state.MSR_LSW` from a cleaned-up config
and the capability mask. -/
def pack_msr_lsw (cfg : viapadlock_rng_config_t) (msr_lsw_mask : Nat) : Nat :=
  ((if cfg.whitener ≠ 0 then 0 else VIA1_RAWBITS_ENABLE) |||
   ((cfg.dc_bias <<< VIA1_DCBIAS_SHIFT) % 2^32) |||
   ((cfg.noise_source <<< VIA1_NOISE_SRC_SHIFT) % 2^32) |||
   (if cfg.string_filter > 0 then
      VIA1_STRFILT_ENABLE ||| ((cfg.string_filter <<< VIA1_STRFILT_CNT_SHIFT) % 2^32)
    else 0) |||
   VIA1_RNG_ENABLE) &&& msr_lsw_mask

/-- The write loop of `viapadlock_rng_enable` over the descriptors
`msr_fd[0]`, `msr_fd[1]`, ... still to be written: the final value of `error`
and the writes attempted. -/
def enable_write_loop (m : Machine) (lo hi : Nat) : List Int → Nat × List Event
  | [] => (0, [])
  | fd :: fds =>
    let e := m.wrmsr fd lo hi
    if e ≠ 0 then (e, [Event.wrmsr fd lo hi])
    else
      let r := enable_write_loop m lo hi fds
      (r.1, Event.wrmsr fd lo hi :: r.2)

/-- The result of `viapadlock_rng_enable`: return value, `errno`, the statics
afterwards, the caller's config struct afterwards and the actions performed. -/
structure EnableResult where
  ret : Int
  errno : Nat
  eng : Engine
  cfg : Option viapadlock_rng_config_t
  trace : List Event

/-- The second half of `viapadlock_rng_enable` (from `buf[0] = ...` to the
end): the value to write is built from the stored `MSR_LSW` and written to
every detected core. -/
def enable_apply (m : Machine) (eng : Engine) (enable : Nat)
    (cfg : Option viapadlock_rng_config_t) : EnableResult :=
  let buf0 := eng.viapadlock_state.MSR_LSW
  let buf0 := if enable = 0 then buf0 &&& (2^32 - 1 - VIA1_RNG_ENABLE) else buf0
  let buf1 := 0
  let w := enable_write_loop m buf0 buf1 eng.handles
  { ret := if w.1 ≠ 0 then -1 else 0, errno := w.1, eng := eng, cfg := cfg, trace := w.2 }

/-- The function `viapadlock_rng_enable`; `cfg = none` is the null pointer. -/
def viapadlock_rng_enable (m : Machine) (eng : Engine) (enable : Nat)
    (cfg : Option viapadlock_rng_config_t) : EnableResult :=
  if eng.viapadlock_engines_detected = 0 then
    { ret := -1, errno := ENXIO, eng := eng, cfg := cfg, trace := [] }
  else
    let st := eng.viapadlock_state
    match cfg with
    | some c =>
      let c := clean_config c
      let st := { st with MSR_LSW := pack_msr_lsw c st.MSR_LSW_MASK, divisor := c.divisor }
      enable_apply m { eng with viapadlock_state := st } enable (some c)
    | none =>
      if st.MSR_LSW = 0 then
        -- never configured before
        { ret := -1, errno := EINVAL, eng := eng, cfg := none, trace := [] }
      else
        enable_apply m eng enable none

/-! ## Extraction engine -/

/-- The result of `viapadlock_rng_read`: return value, `errno`, the bytes
stored into the caller's buffer (offsets `0 .. bytes_read`), the statics
afterwards and the actions performed. -/
structure ReadResult where
  ret : Int
  errno : Nat
  buf : List Nat
  eng : Engine
  trace : List Event

/-- The "reset it" exit of `viapadlock_rng_read` after a status mismatch:
`if (!viapadlock_rng_enable(1, NULL)) return -1; errno = EAGAIN; return -1;`. -/
def read_reset (m : Machine) (eng : Engine) (buf : List Nat) (tr : List Event) :
    ReadResult :=
  let r := viapadlock_rng_enable m eng 1 none
  if r.ret = 0 then
    { ret := -1, errno := r.errno, buf := buf, eng := r.eng, trace := tr ++ r.trace }
  else
    { ret := -1, errno := EAGAIN, buf := buf, eng := r.eng, trace := tr ++ r.trace }

/-- The `while (size > 0)` loop of `viapadlock_rng_read`. `fuel` bounds the
number of iterations (the C loop has no bound: `none` is "still spinning");
`k` counts the `xstore` executions so far, `buf` is the caller's buffer up to
`bytes_read`. -/
def read_loop (m : Machine) (eng : Engine) (xstore_divisor : Nat) (fuel : Nat)
    (s size bytes_read k : Nat) (buf : List Nat) (tr : List Event) : Option ReadResult :=
  if size = 0 then
    some { ret := (bytes_read : Int), errno := 0, buf := buf, eng := eng, trace := tr }
  else
    match fuel with
    | 0 => none
    | fuel + 1 =>
      let st := eng.viapadlock_state
      -- i = 0
      let x := m.via_xstore k xstore_divisor
      let tr := tr ++ [Event.xstore xstore_divisor]
      if x.flags &&& st.MSR_LSW_MASK ≠ st.MSR_LSW then some (read_reset m eng buf tr)
      else if x.flags &&& VIA1_XSTORE_CNT_MASK = s then
        let s := if s > size then size else s
        read_loop m eng xstore_divisor fuel s (size - s) (bytes_read + s) (k + 1)
          (buf ++ (List.range s).map x.buffer) tr
      else
        -- i = 1
        let x := m.via_xstore (k + 1) xstore_divisor
        let tr := tr ++ [Event.xstore xstore_divisor]
        if x.flags &&& st.MSR_LSW_MASK ≠ st.MSR_LSW then some (read_reset m eng buf tr)
        else if x.flags &&& VIA1_XSTORE_CNT_MASK ≠ s then
          -- sched_yield(); continue;
          read_loop m eng xstore_divisor fuel s size bytes_read (k + 2) buf tr
        else
          let s := if s > size then size else s
          read_loop m eng xstore_divisor fuel s (size - s) (bytes_read + s) (k + 2)
            (buf ++ (List.range s).map x.buffer) tr

/-- The function `viapadlock_rng_read` for a request of `size` bytes (the
caller's buffer holds `size` bytes, so the byte count fits `ssize_t`). -/
def viapadlock_rng_read (m : Machine) (eng : Engine) (fuel : Nat) (size : Nat) :
    Option ReadResult :=
  if eng.viapadlock_engines_detected = 0 then
    some { ret := -1, errno := ENXIO, buf := [], eng := eng, trace := [] }
  else
    let xstore_divisor := eng.viapadlock_state.divisor
    let s := 8 >>> (xstore_divisor &&& 3)
    read_loop m eng xstore_divisor fuel s size 0 0 [] []

/-! ## Call sequences and simulated machines -/

/-- A call of the public interface made between one `viapadlock_rng_init` and
the next `viapadlock_rng_init` / `viapadlock_rng_free`. -/
inductive Call where
  | enable (m : Machine) (enable : Nat) (cfg : Option viapadlock_rng_config_t)
  | read (m : Machine) (fuel : Nat) (size : Nat)

/-- Whether the call is `viapadlock_rng_enable` with a non-null `cfg`. -/
def Call.configures : Call → Bool
  | Call.enable _ _ (some _) => true
  | _ => false

/-- The statics after the call returns; `none` when the call does not return. -/
def Call.run : Call → Engine → Option Engine
  | Call.enable m e cfg, eng => some (viapadlock_rng_enable m eng e cfg).eng
  | Call.read m fuel size, eng => (viapadlock_rng_read m eng fuel size).map (fun r => r.eng)

/-- The statics after a sequence of calls, each of which returns. -/
def run_calls : List Call → Engine → Option Engine
  | [], eng => some eng
  | c :: cs, eng => (c.run eng).bind (run_calls cs)

/-- An initialised engine: the statics after some `viapadlock_rng_init` that
returned `1`, followed by any sequence of enable / read calls. -/
def Initialized (eng : Engine) : Prop :=
  ∃ (m : Machine) (e0 : Engine) (calls : List Call),
    (viapadlock_rng_init m e0).ret = 1 ∧
    run_calls calls (viapadlock_rng_init m e0).eng = some eng

/-- The capability mask of single-source hardware, as `detect_via_padlock_rng`
builds it. -/
def ONESRC_MASK : Nat :=
  VIA1_STRFILT_ENABLE ||| VIA1_RAWBITS_ENABLE ||| VIA1_DCBIAS_MASK ||| VIA1_RNG_ENABLE

/-- The capability mask of dual-source hardware. -/
def TWOSRC_MASK : Nat := ONESRC_MASK ||| VIA1_NOISE_SRC_MASK

/-- The variant and mask recorded by detection agree with each other. -/
def Detected (st : viapadlock_rng_t) : Prop :=
  (st.rng_type = via_rng_type_t.VIA_RNG_TYPE1_ONESRC ∧ st.MSR_LSW_MASK = ONESRC_MASK) ∨
  (st.rng_type = via_rng_type_t.VIA_RNG_TYPE1_TWOSRC ∧ st.MSR_LSW_MASK = TWOSRC_MASK)

/-- The three ways `detect_via_padlock_rng` can end. -/
def detect_post (rng : viapadlock_rng_t) (first : Bool) (d : Int × viapadlock_rng_t) : Prop :=
  (d.1 ≠ 0 → d.2 = rng) ∧
  (d.1 = 0 → first = true →
    Detected d.2 ∧ d.2.MSR_LSW = 0 ∧ d.2.divisor = 0 ∧ d.2.msr_fd = rng.msr_fd) ∧
  (d.1 = 0 → first = false → d.2 = rng ∧ Detected rng)

/-- The invariant of the scan in `viapadlock_rng_init`: as soon as one core has
been recorded, variant and mask are those of detection and the stored register
value and divisor are still zero. -/
def InitInv (eng : Engine) : Prop :=
  eng.viapadlock_engines_detected = 0 ∨
  (Detected eng.viapadlock_state ∧ eng.viapadlock_state.MSR_LSW = 0 ∧
    eng.viapadlock_state.divisor = 0)

/-- At least one core is recorded and variant and mask are those of detection. -/
def Ready (eng : Engine) : Prop :=
  0 < eng.viapadlock_engines_detected ∧ Detected eng.viapadlock_state

/-- What one core reports when probed on its own: the variant and mask that
`detect_via_padlock_rng` records for it as a first core, `none` when it does
not return `0`. -/
def probe (m : Machine) (cpuid_fd : Int) : Option (via_rng_type_t × Nat) :=
  let d := detect_via_padlock_rng m cpuid_fd Engine.zero.viapadlock_state true
  if d.1 = 0 then some (d.2.rng_type, d.2.MSR_LSW_MASK) else none

/-- The bytes `viapadlock_rng_read` is expected to deliver for a request of
`size` bytes when every `xstore` yields `step` bytes: for the `j`-th execution
(counted from `k`), the first `min step remaining` bytes of the buffer. -/
def expected_bytes (m : Machine) (edx step k size : Nat) : List Nat :=
  ((List.range ((size + step - 1) / step)).map (fun j =>
    (List.range (min step (size - j * step))).map (m.via_xstore (k + j) edx).buffer)).flatten

/-- The eight words a simulated CentaurHauls cpuid device returns at `level`
for a core whose leaf-1 `eax` is `tfms`. -/
def sim_cpuid (tfms level : Nat) : Nat → Nat :=
  if level = 0 then fun j => [1, 0x746e6543, 0x736c7561, 0x48727561, tfms, 0, 0, 0].getD j 0
  else fun j => [0xc0000001, 0, 0, 0, 0, 0, 0, 4].getD j 0

/-- A simulated machine with `n` identical cores (msr descriptors `3`, `4`, ...,
cpuid descriptor `100`), leaf-1 `eax` equal to `tfms`, every msr write
answering `werr` and every `xstore` answering the status word `flags`. -/
def sim_machine (n tfms werr flags : Nat) : Machine :=
  { open_msr := fun i => if i < n then Except.ok (3 + (i : Int)) else Except.error 2
    open_cpuid := fun _ => Except.ok 100
    readcpuid := fun _ level => Except.ok (sim_cpuid tfms level)
    wrmsr := fun _ _ _ => werr
    via_xstore := fun k _ => { flags := flags, buffer := fun j => 16 * k + j } }

/-- The simulated two-core dual-source machine after `viapadlock_rng_init`. -/
def sim_engine : Engine := (viapadlock_rng_init (sim_machine 2 0x698 0 0) Engine.zero).eng

/-- The engine `sim_engine` after `viapadlock_rng_enable(1, &cfg)` with the
configuration generated for quality 1. -/
def sim_enabled : Engine :=
  (viapadlock_rng_enable (sim_machine 2 0x698 0 0) sim_engine 1
    (some (viapadlock_rng_generate_config 1).2)).eng

/-- The invariant `register_value & ~register_mask == 0` on 32-bit words:
`MSR_LSW & ~MSR_LSW_MASK == 0`. -/
def MsrInv (st : viapadlock_rng_t) : Prop :=
  st.MSR_LSW &&& (2 ^ 32 - 1 - st.MSR_LSW_MASK) = 0

instance (st : viapadlock_rng_t) : Decidable (MsrInv st) :=
  inferInstanceAs (Decidable (st.MSR_LSW &&& (2 ^ 32 - 1 - st.MSR_LSW_MASK) = 0))


/-- A configuration with an out-of-range divisor. -/
def sim_cfg_divisor7 : viapadlock_rng_config_t :=
  { dc_bias := 0, string_filter := 0, noise_source := VIAPADLOCK_RNG1_SOURCE_AB,
    whitener := 1, divisor := 7 }

/-- The spec's conditions for a usable RNG on one core, on the two blocks of
identification leaves read (`b0` at level 0, `b1` at level `0xC0000000`):
vendor signature CentaurHauls, maximum basic leaf at least 1, extended maximum
leaf at least `0xC0000001`, RNG-presence bit (bit 2 of leaf `0xC0000001` EDX)
set, decoded revision strictly above `0x060902`. -/
def rng_present (b0 b1 : Nat → Nat) : Prop :=
  (b0 1 = 0x746e6543 ∧ b0 3 = 0x48727561 ∧ b0 2 = 0x736c7561) ∧ 1 ≤ b0 0 ∧
  0xC0000001 ≤ b1 0 ∧ (b1 7).testBit 2 = true ∧ 0x060902 < decode_cpu_revision (b0 4)

/-- The spec's variant for a decoded revision: dual-source strictly above
`0x060907`, single-source otherwise. -/
def variant_of_revision (rev : Nat) : via_rng_type_t :=
  if 0x060907 < rev then via_rng_type_t.VIA_RNG_TYPE1_TWOSRC
  else via_rng_type_t.VIA_RNG_TYPE1_ONESRC

/-- The spec's capability mask for a decoded revision: string-filter-enable,
raw-bits-enable, the DC-bias field and RNG-enable, plus the noise-source-select
field for a dual-source revision. -/
def mask_of_revision (rev : Nat) : Nat :=
  if 0x060907 < rev then
    VIA1_STRFILT_ENABLE ||| VIA1_RAWBITS_ENABLE ||| VIA1_DCBIAS_MASK ||| VIA1_RNG_ENABLE |||
      VIA1_NOISE_SRC_MASK
  else VIA1_STRFILT_ENABLE ||| VIA1_RAWBITS_ENABLE ||| VIA1_DCBIAS_MASK ||| VIA1_RNG_ENABLE

instance (b0 b1 : Nat → Nat) : Decidable (rng_present b0 b1) :=
  inferInstanceAs (Decidable (_ ∧ _))

/-- The actions of scanning `d` usable cores starting at core `j`: for each,
the msr device is opened (descriptor `fd i`), the cpuid device is opened
(descriptor `cfd i`) and, after detection, the cpuid descriptor is closed. -/
def scan_events (fd cfd : Nat → Int) : Nat → Nat → List Event
  | _, 0 => []
  | j, d + 1 =>
    [Event.open_msr j (fd j), Event.open_cpuid j (cfd j), Event.close (cfd j)] ++
      scan_events fd cfd (j + 1) d

/-- The descriptors a trace opens, in order. -/
def opened_fds : List Event → List Int
  | [] => []
  | Event.open_msr _ fd :: tr => fd :: opened_fds tr
  | Event.open_cpuid _ fd :: tr => fd :: opened_fds tr
  | _ :: tr => opened_fds tr

/-- The descriptors a trace closes, in order. -/
def closed_fds : List Event → List Int
  | [] => []
  | Event.close fd :: tr => fd :: closed_fds tr
  | _ :: tr => closed_fds tr

/-- A simulated machine with `n` cores (msr descriptors `3`, `4`, ..., cpuid
descriptors `100`, `101`, ...) where core `i` has leaf-1 `eax` equal to
`tfms i`; every msr write succeeds. -/
def sim_mixed (n : Nat) (tfms : Nat → Nat) : Machine :=
  { open_msr := fun i => if i < n then Except.ok (3 + (i : Int)) else Except.error 2
    open_cpuid := fun i => Except.ok (100 + (i : Int))
    readcpuid := fun fd level => Except.ok (sim_cpuid (tfms (fd - 100).toNat) level)
    wrmsr := fun _ _ _ => 0
    via_xstore := fun k _ => { flags := 0, buffer := fun j => 16 * k + j } }

/-- Two engine states that a scan cannot tell apart: the same detected count,
the same recorded variant and mask once a core is recorded, and the same
handles below the detected count. -/
def SameScan (e1 e2 : Engine) : Prop :=
  e1.viapadlock_engines_detected = e2.viapadlock_engines_detected ∧
  (0 < e1.viapadlock_engines_detected →
    e1.viapadlock_state.rng_type = e2.viapadlock_state.rng_type ∧
    e1.viapadlock_state.MSR_LSW_MASK = e2.viapadlock_state.MSR_LSW_MASK) ∧
  (∀ j, j < e1.viapadlock_engines_detected →
    e1.viapadlock_state.msr_fd j = e2.viapadlock_state.msr_fd j)

/-- A simulated machine like `sim_machine` whose `k`-th `xstore` answers the
status word `flags k`. -/
def sim_machine_flags (n tfms werr : Nat) (flags : Nat → Nat) : Machine :=
  { open_msr := fun i => if i < n then Except.ok (3 + (i : Int)) else Except.error 2
    open_cpuid := fun _ => Except.ok 100
    readcpuid := fun _ level => Except.ok (sim_cpuid tfms level)
    wrmsr := fun _ _ _ => werr
    via_xstore := fun k _ => { flags := flags k, buffer := fun j => 16 * k + j } }

/-- The simulated two-core machine whose first `xstore` reports byte count 0
and whose later ones report `0x14` in bits 4:0 of the status word. -/
def sim_dry : Machine :=
  sim_machine_flags 2 0x698 0 (fun k => if k = 0 then 0x240 else 0x254)

/-- The engine `sim_engine` after `viapadlock_rng_enable(1, &cfg)` with the
configuration generated for quality 2 (divisor 2). -/
def sim_enabled_q2 : Engine :=
  (viapadlock_rng_enable (sim_machine 2 0x698 0 0) sim_engine 1
    (some (viapadlock_rng_generate_config 2).2)).eng

/-- A configuration with a string filter of 20 bits. -/
def sim_cfg_strfilt20 : viapadlock_rng_config_t :=
  { (viapadlock_rng_generate_config 2).2 with string_filter := 20 }

/-- The family of an identification word in the spec's words: bits 11:8, plus
bits 27:20 when bits 11:8 are `0xF`. -/
def revision_family (t : Nat) : Nat :=
  (t / 2 ^ 8) % 2 ^ 4 + (if (t / 2 ^ 8) % 2 ^ 4 = 0xF then (t / 2 ^ 20) % 2 ^ 8 else 0)

/-- The model in the spec's words: bits 7:4, with bits 19:16 as its high nibble
when bits 11:8 are `0xF`. -/
def revision_model (t : Nat) : Nat :=
  (t / 2 ^ 4) % 2 ^ 4 + (if (t / 2 ^ 8) % 2 ^ 4 = 0xF then 2 ^ 4 * ((t / 2 ^ 16) % 2 ^ 4) else 0)

/-- The stepping in the spec's words: bits 3:0. -/
def revision_stepping (t : Nat) : Nat := t % 2 ^ 4

/-! ## Configuration generator: theorems -/

/-- For every quality of at least 1 the generated divisor is `clamp(q, 1, 3)`. -/
theorem generate_config_divisor_pos (q : Nat) (hq : 1 ≤ q) :
    (viapadlock_rng_generate_config q).2.divisor = max 1 (min q 3) := by
  unfold viapadlock_rng_generate_config
  by_cases h : q ≥ 3
  · simp [h]
  · have h0 : ¬ (q = 0) := by omega
    simp only [h, h0, or_self, if_false]
    omega

/-- C1 (code against its own comment): quality 0 is given divisor 3 by the
code, not `clamp(0, 1, 3) = 1`; for every quality `q ≥ 1` the divisor is
`clamp(q, 1, 3)` as claimed. -/
theorem C1_generate_config_divisor :
    (viapadlock_rng_generate_config 0).2.divisor = 3 ∧
    (viapadlock_rng_generate_config 0).2.divisor ≠ max 1 (min 0 3) ∧
    ∀ q : Nat, 1 ≤ q → (viapadlock_rng_generate_config q).2.divisor = max 1 (min q 3) :=
  ⟨by decide, by decide, generate_config_divisor_pos⟩

/-- Witness of C1 at quality 2. -/
theorem C1_generate_config_divisor_witness :
    (viapadlock_rng_generate_config 2).2.divisor = max 1 (min 2 3) :=
  C1_generate_config_divisor.2.2 2 (by decide)

/-- C2 (code against its own comment): quality 0 and quality 1 agree on `H`,
`dc_bias`, `string_filter`, `noise_source` and `whitener`, but the divisor is 3
for quality 0 and 1 for quality 1, so the two results differ. -/
theorem C2_generate_config_zero_vs_one :
    (viapadlock_rng_generate_config 0).1 = (viapadlock_rng_generate_config 1).1 ∧
    (viapadlock_rng_generate_config 0).2.dc_bias = (viapadlock_rng_generate_config 1).2.dc_bias ∧
    (viapadlock_rng_generate_config 0).2.string_filter =
      (viapadlock_rng_generate_config 1).2.string_filter ∧
    (viapadlock_rng_generate_config 0).2.noise_source =
      (viapadlock_rng_generate_config 1).2.noise_source ∧
    (viapadlock_rng_generate_config 0).2.whitener = (viapadlock_rng_generate_config 1).2.whitener ∧
    (viapadlock_rng_generate_config 0).2.divisor = 3 ∧
    (viapadlock_rng_generate_config 1).2.divisor = 1 ∧
    viapadlock_rng_generate_config 0 ≠ viapadlock_rng_generate_config 1 := by
  refine ⟨rfl, rfl, rfl, rfl, rfl, by decide, by decide, ?_⟩
  intro h
  have h2 := congrArg (fun r => r.2.divisor) h
  revert h2
  decide

/-- C3: for every quality the generated configuration has noise source AB,
whitener enabled, string filter 0 and DC bias 0, and the returned `H` is 3/4. -/
theorem C3_generate_config_fixed_fields (q : Nat) :
    (viapadlock_rng_generate_config q).2.noise_source = VIAPADLOCK_RNG1_SOURCE_AB ∧
    (viapadlock_rng_generate_config q).2.whitener = 1 ∧
    (viapadlock_rng_generate_config q).2.string_filter = 0 ∧
    (viapadlock_rng_generate_config q).2.dc_bias = 0 ∧
    (viapadlock_rng_generate_config q).1 = 3 / 4 := by
  refine ⟨rfl, rfl, rfl, rfl, ?_⟩
  show (0.75 : ℚ) = 3 / 4
  norm_num

/-! ## Feature detector and initialisation: structural lemmas -/

theorem detect_spec (m : Machine) (fd : Int) (rng : viapadlock_rng_t) (first : Bool) :
    detect_post rng first (detect_via_padlock_rng m fd rng first) := by
  unfold detect_via_padlock_rng
  cases h0 : m.readcpuid fd 0 with
  | error e => simp [detect_post]
  | ok b0 =>
    by_cases hv : b0 0 = 0 ∨ b0 1 ≠ 0x746e6543 ∨ b0 3 ≠ 0x48727561 ∨ b0 2 ≠ 0x736c7561
    · simp only [hv, if_true]; simp [detect_post]
    · simp only [hv, if_false]
      cases h1 : m.readcpuid fd CENTAUR_EXFF_LEVEL with
      | error e => simp [detect_post]
      | ok b1 =>
        by_cases hl : b1 0 < CENTAUR_EXFF_RNG
        · simp only [hl, if_true]; simp [detect_post]
        · by_cases hp : b1 7 &&& CENTAUR_EXFF_RNG_MASK = 0
          · simp only [hl, hp, if_true, if_false]; simp [detect_post]
          · by_cases hb : decode_cpu_revision (b0 4) ≤ 0x0060902
            · simp only [hl, hp, hb, if_true, if_false]; simp [detect_post]
            · simp only [hl, hp, hb, if_false]
              cases first with
              | true =>
                by_cases ho : decode_cpu_revision (b0 4) ≤ 0x0060907 <;>
                  simp [detect_post, Detected, ONESRC_MASK, TWOSRC_MASK, ho]
              | false =>
                by_cases ho : decode_cpu_revision (b0 4) ≤ 0x0060907
                · simp only [ho, if_true, Bool.not_false]
                  by_cases hm : via_rng_type_t.VIA_RNG_TYPE1_ONESRC ≠ rng.rng_type ∨
                      VIA1_STRFILT_ENABLE ||| VIA1_RAWBITS_ENABLE ||| VIA1_DCBIAS_MASK |||
                        VIA1_RNG_ENABLE ≠ rng.MSR_LSW_MASK
                  · simp only [hm, if_true]; simp [detect_post]
                  · simp only [hm, if_false]
                    simp only [not_or, not_not] at hm
                    simp [detect_post, Detected, ONESRC_MASK, ← hm.1, ← hm.2]
                · simp only [ho, if_false, if_true, Bool.not_false]
                  by_cases hm : via_rng_type_t.VIA_RNG_TYPE1_TWOSRC ≠ rng.rng_type ∨
                      VIA1_STRFILT_ENABLE ||| VIA1_RAWBITS_ENABLE ||| VIA1_DCBIAS_MASK |||
                        VIA1_RNG_ENABLE ||| VIA1_NOISE_SRC_MASK ≠ rng.MSR_LSW_MASK
                  · simp only [hm, if_true]; simp [detect_post]
                  · simp only [hm, if_false]
                    simp only [not_or, not_not] at hm
                    simp [detect_post, Detected, ONESRC_MASK, TWOSRC_MASK, ← hm.1, ← hm.2]

theorem init_loop_inv (m : Machine) : ∀ (n i : Nat) (eng : Engine) (tr : List Event),
    InitInv eng → InitInv (init_loop m n i eng tr).eng := by
  intro n
  induction n with
  | zero => intro i eng tr h; simpa [init_loop] using h
  | succ n ih =>
    intro i eng tr h
    cases hm : m.open_msr i with
    | error e => simpa [init_loop, hm] using h
    | ok msr_fd =>
      cases hc : m.open_cpuid i with
      | error e => simpa [init_loop, hm, hc] using h
      | ok cpuid_fd =>
        have hd := detect_spec m cpuid_fd eng.viapadlock_state
          (eng.viapadlock_engines_detected == 0)
        by_cases hz : (detect_via_padlock_rng m cpuid_fd eng.viapadlock_state
            (eng.viapadlock_engines_detected == 0)).1 = 0
        · simp only [init_loop, hm, hc, hz, ne_eq, not_true_eq_false, if_false]
          apply ih
          right
          by_cases h0 : eng.viapadlock_engines_detected = 0
          · have := hd.2.1 hz (by simp [h0])
            exact ⟨this.1, this.2.1, this.2.2.1⟩
          · have := hd.2.2 hz (by simp [h0])
            rw [this.1]
            rcases h with h | h
            · exact absurd h h0
            · exact h
        · simp only [init_loop, hm, hc, hz, ne_eq, not_false_eq_true, if_true]
          rw [hd.1 hz]
          exact h

theorem init_ready (m : Machine) (e0 : Engine) (h : (viapadlock_rng_init m e0).ret = 1) :
    0 < (viapadlock_rng_init m e0).eng.viapadlock_engines_detected ∧
    Detected (viapadlock_rng_init m e0).eng.viapadlock_state ∧
    (viapadlock_rng_init m e0).eng.viapadlock_state.MSR_LSW = 0 ∧
    (viapadlock_rng_init m e0).eng.viapadlock_state.divisor = 0 := by
  have hf : InitInv (if e0.viapadlock_engines_detected ≠ 0 then viapadlock_rng_free e0
      else (e0, [])).1 := by
    left
    by_cases h0 : e0.viapadlock_engines_detected = 0 <;> simp [h0, viapadlock_rng_free]
  have hx := init_loop_inv m MAX_CPUS 0 _
    (if e0.viapadlock_engines_detected ≠ 0 then viapadlock_rng_free e0 else (e0, [])).2 hf
  unfold viapadlock_rng_init at h ⊢
  simp only at h ⊢
  generalize (if e0.viapadlock_engines_detected ≠ 0 then viapadlock_rng_free e0
      else (e0, [])) = f at h hx ⊢
  generalize init_loop m MAX_CPUS 0 f.1 f.2 = x at h hx ⊢
  by_cases he : x.error = 0
  · simp only [he, ne_eq, not_true_eq_false, if_false] at h ⊢
    by_cases hpos : x.eng.viapadlock_engines_detected > 0
    · rcases hx with hx | hx
      · omega
      · exact ⟨hpos, hx⟩
    · simp [hpos] at h
  · simp only [he, ne_eq, not_false_eq_true, if_true] at h
    split at h <;> simp at h

/-! ## Enable / disable controller: structural lemmas -/

theorem enable_apply_eng (m : Machine) (eng : Engine) (e : Nat)
    (cfg : Option viapadlock_rng_config_t) : (enable_apply m eng e cfg).eng = eng := rfl

theorem enable_none_eng (m : Machine) (eng : Engine) (e : Nat) :
    (viapadlock_rng_enable m eng e none).eng = eng := by
  unfold viapadlock_rng_enable
  split
  · rfl
  · simp only
    split <;> rfl

theorem enable_some_eng (m : Machine) (eng : Engine) (e : Nat) (c : viapadlock_rng_config_t)
    (h : eng.viapadlock_engines_detected ≠ 0) :
    (viapadlock_rng_enable m eng e (some c)).eng =
      { eng with viapadlock_state :=
          { eng.viapadlock_state with
            MSR_LSW := pack_msr_lsw (clean_config c) eng.viapadlock_state.MSR_LSW_MASK,
            divisor := (clean_config c).divisor } } := by
  unfold viapadlock_rng_enable
  simp [h, enable_apply]

theorem enable_frame (m : Machine) (eng : Engine) (e : Nat)
    (cfg : Option viapadlock_rng_config_t) :
    (viapadlock_rng_enable m eng e cfg).eng.viapadlock_engines_detected =
      eng.viapadlock_engines_detected ∧
    (viapadlock_rng_enable m eng e cfg).eng.viapadlock_state.MSR_LSW_MASK =
      eng.viapadlock_state.MSR_LSW_MASK ∧
    (viapadlock_rng_enable m eng e cfg).eng.viapadlock_state.rng_type =
      eng.viapadlock_state.rng_type ∧
    (viapadlock_rng_enable m eng e cfg).eng.viapadlock_state.msr_fd =
      eng.viapadlock_state.msr_fd := by
  cases cfg with
  | none => rw [enable_none_eng]; exact ⟨rfl, rfl, rfl, rfl⟩
  | some c =>
    by_cases h : eng.viapadlock_engines_detected = 0
    · simp [viapadlock_rng_enable, h]
    · rw [enable_some_eng m eng e c h]; exact ⟨rfl, rfl, rfl, rfl⟩

theorem pack_msr_lsw_enable_bit (c : viapadlock_rng_config_t) (mask : Nat)
    (h : mask.testBit 6 = true) : (pack_msr_lsw c mask).testBit 6 = true := by
  unfold pack_msr_lsw
  rw [Nat.testBit_and, h, Nat.testBit_or]
  have : VIA1_RNG_ENABLE.testBit 6 = true := by decide
  simp [this]

theorem detected_mask_enable_bit (st : viapadlock_rng_t) (h : Detected st) :
    st.MSR_LSW_MASK.testBit 6 = true := by
  rcases h with h | h <;> rw [h.2] <;> decide

theorem testBit_ne_zero (n i : Nat) (h : n.testBit i = true) : n ≠ 0 := by
  intro h0
  rw [h0] at h
  simp at h

/-! ## Extraction engine: structural lemmas -/

theorem read_reset_eng (m : Machine) (eng : Engine) (buf : List Nat) (tr : List Event) :
    (read_reset m eng buf tr).eng = eng ∧ (read_reset m eng buf tr).ret = -1 := by
  unfold read_reset
  simp only
  split <;> exact ⟨enable_none_eng m eng 1, rfl⟩

theorem read_loop_eng (m : Machine) (eng : Engine) (d : Nat) :
    ∀ (fuel s size br k : Nat) (buf : List Nat) (tr : List Event) (r : ReadResult),
      read_loop m eng d fuel s size br k buf tr = some r → r.eng = eng := by
  intro fuel
  induction fuel with
  | zero =>
    intro s size br k buf tr r h
    unfold read_loop at h
    split at h
    · cases h; rfl
    · simp at h
  | succ fuel ih =>
    intro s size br k buf tr r h
    unfold read_loop at h
    split at h
    · cases h; rfl
    · simp only at h
      split at h
      · cases h; exact (read_reset_eng _ _ _ _).1
      · split at h
        · exact ih _ _ _ _ _ _ _ h
        · split at h
          · cases h; exact (read_reset_eng _ _ _ _).1
          · split at h
            · exact ih _ _ _ _ _ _ _ h
            · exact ih _ _ _ _ _ _ _ h

theorem read_eng (m : Machine) (eng : Engine) (fuel size : Nat) (r : ReadResult)
    (h : viapadlock_rng_read m eng fuel size = some r) : r.eng = eng := by
  unfold viapadlock_rng_read at h
  split at h
  · cases h; rfl
  · exact read_loop_eng m eng _ _ _ _ _ _ _ _ r h

/-! ## Initialised engines -/

theorem call_run_ready (c : Call) (eng eng1 : Engine) (h : Ready eng)
    (hr : c.run eng = some eng1) : Ready eng1 := by
  cases c with
  | enable m e cfg =>
    simp only [Call.run, Option.some.injEq] at hr
    subst hr
    have hf := enable_frame m eng e cfg
    unfold Ready Detected at *
    rw [hf.1, hf.2.1, hf.2.2.1]
    exact h
  | read m fuel size =>
    simp only [Call.run, Option.map_eq_some'] at hr
    obtain ⟨r, hr, he⟩ := hr
    rw [← he, read_eng m eng fuel size r hr]
    exact h

theorem run_calls_ready : ∀ (calls : List Call) (eng eng1 : Engine), Ready eng →
    run_calls calls eng = some eng1 → Ready eng1 := by
  intro calls
  induction calls with
  | nil => intro eng eng1 h hr; simp only [run_calls, Option.some.injEq] at hr; exact hr ▸ h
  | cons c cs ih =>
    intro eng eng1 h hr
    simp only [run_calls, Option.bind_eq_some] at hr
    obtain ⟨e2, h2, h3⟩ := hr
    exact ih e2 eng1 (call_run_ready c eng e2 h h2) h3

theorem initialized_ready (eng : Engine) (h : Initialized eng) : Ready eng := by
  obtain ⟨m, e0, calls, hi, hr⟩ := h
  have h0 := init_ready m e0 hi
  exact run_calls_ready calls _ eng ⟨h0.1, h0.2.1⟩ hr

/-! ## Enable / disable controller: theorems -/

theorem enable_write_loop_ok (m : Machine) (lo hi : Nat) : ∀ (fds : List Int),
    (enable_write_loop m lo hi fds).1 = 0 →
    (enable_write_loop m lo hi fds).2 = fds.map (fun fd => Event.wrmsr fd lo hi) := by
  intro fds
  induction fds with
  | nil => intro _; rfl
  | cons fd fds ih =>
    intro h
    unfold enable_write_loop at h ⊢
    by_cases he : m.wrmsr fd lo hi = 0
    · simp only [he, ne_eq, not_true_eq_false, if_false] at h ⊢
      rw [ih h]
      rfl
    · simp only [he, ne_eq, not_false_eq_true, if_true] at h

theorem enable_write_loop_trace_ne_nil (m : Machine) (lo hi : Nat) (fd : Int) (fds : List Int) :
    (enable_write_loop m lo hi (fd :: fds)).2 ≠ [] := by
  unfold enable_write_loop
  simp only
  split <;> simp

theorem handles_ne_nil (eng : Engine) (h : 0 < eng.viapadlock_engines_detected) :
    ∃ fd fds, eng.handles = fd :: fds := by
  unfold Engine.handles
  obtain ⟨n, hn⟩ := Nat.exists_eq_succ_of_ne_zero (Nat.pos_iff_ne_zero.mp h)
  rw [hn, List.range_succ_eq_map]
  exact ⟨_, _, rfl⟩

theorem disable_value_bits (w : Nat) (hw : w < 2 ^ 32) (b : Nat) :
    (w &&& (2 ^ 32 - 1 - VIA1_RNG_ENABLE)).testBit b = (w.testBit b && decide (b ≠ 6)) := by
  rw [Nat.testBit_and]
  by_cases hb : b < 32
  · have hm : (2 ^ 32 - 1 - VIA1_RNG_ENABLE).testBit b = decide (b ≠ 6) := by
      interval_cases b <;> decide
    rw [hm]
  · have h1 : w.testBit b = false :=
      Nat.testBit_lt_two_pow (lt_of_lt_of_le hw (Nat.pow_le_pow_right (by decide) (by omega)))
    simp [h1]

/-- The value `viapadlock_rng_enable` writes: the stored `MSR_LSW`, with
`VIA1_RNG_ENABLE` masked out when `enable` is 0. -/
theorem enable_none_apply (m : Machine) (eng : Engine) (e : Nat)
    (hd : eng.viapadlock_engines_detected ≠ 0) (hl : eng.viapadlock_state.MSR_LSW ≠ 0) :
    viapadlock_rng_enable m eng e none = enable_apply m eng e none := by
  unfold viapadlock_rng_enable
  simp only [hd, hl, if_false]

theorem enable_apply_ret_zero (m : Machine) (eng : Engine) (e : Nat)
    (cfg : Option viapadlock_rng_config_t) (h : (enable_apply m eng e cfg).ret = 0) :
    (enable_apply m eng e cfg).trace = eng.handles.map (fun fd => Event.wrmsr fd
      (if e = 0 then eng.viapadlock_state.MSR_LSW &&& (2 ^ 32 - 1 - VIA1_RNG_ENABLE)
        else eng.viapadlock_state.MSR_LSW) 0) := by
  unfold enable_apply at h ⊢
  simp only at h ⊢
  apply enable_write_loop_ok
  by_contra hc
  rw [if_pos hc] at h
  exact absurd h (by decide)

theorem pack_msr_lsw_lt (c : viapadlock_rng_config_t) (st : viapadlock_rng_t)
    (h : Detected st) : pack_msr_lsw c st.MSR_LSW_MASK < 2 ^ 32 := by
  have h1 : pack_msr_lsw c st.MSR_LSW_MASK ≤ st.MSR_LSW_MASK := Nat.and_le_right
  have h2 : st.MSR_LSW_MASK < 2 ^ 32 := by
    rcases h with h | h <;> rw [h.2] <;> decide
  omega

/-- C4 (counterexample): on the simulated two-core machine, after
`viapadlock_rng_enable(1, &cfg)` and `viapadlock_rng_enable(0, NULL)`, both
returning 0, the stored `MSR_LSW` is still `0x240`: bit 6 is set, not cleared. -/
theorem C4_disable_stored_bit_counterexample :
    (viapadlock_rng_init (sim_machine 2 0x698 0 0) Engine.zero).ret = 1 ∧
    (viapadlock_rng_enable (sim_machine 2 0x698 0 0) sim_engine 1
      (some (viapadlock_rng_generate_config 1).2)).ret = 0 ∧
    (viapadlock_rng_enable (sim_machine 2 0x698 0 0)
      (viapadlock_rng_enable (sim_machine 2 0x698 0 0) sim_engine 1
        (some (viapadlock_rng_generate_config 1).2)).eng 0 none).ret = 0 ∧
    (viapadlock_rng_enable (sim_machine 2 0x698 0 0)
      (viapadlock_rng_enable (sim_machine 2 0x698 0 0) sim_engine 1
        (some (viapadlock_rng_generate_config 1).2)).eng 0 none).eng.viapadlock_state.MSR_LSW
      = 0x240 ∧
    (viapadlock_rng_enable (sim_machine 2 0x698 0 0)
      (viapadlock_rng_enable (sim_machine 2 0x698 0 0) sim_engine 1
        (some (viapadlock_rng_generate_config 1).2)).eng 0 none).eng.viapadlock_state.MSR_LSW.testBit 6
      = true := by
  refine ⟨by decide, by decide, by decide, by decide, by decide⟩

/-- C4 (amended): on an initialised engine, for every configuration, the
disabling call `viapadlock_rng_enable(0, NULL)` that follows
`viapadlock_rng_enable(1, &cfg)` leaves the statics exactly as the first call
left them, so the stored `MSR_LSW` keeps bit 6 set; when the second call
returns 0 it has written to every core, in index order, the stored value with
bit 6 cleared and every other bit unchanged, with high word 0. -/
theorem C4_disable_keeps_stored_value (eng : Engine) (h : Initialized eng)
    (cfg : viapadlock_rng_config_t) (m1 m2 : Machine) :
    (viapadlock_rng_enable m2 (viapadlock_rng_enable m1 eng 1 (some cfg)).eng 0 none).eng =
      (viapadlock_rng_enable m1 eng 1 (some cfg)).eng ∧
    (viapadlock_rng_enable m2 (viapadlock_rng_enable m1 eng 1 (some cfg)).eng 0
      none).eng.viapadlock_state.MSR_LSW.testBit 6 = true ∧
    ((viapadlock_rng_enable m2 (viapadlock_rng_enable m1 eng 1 (some cfg)).eng 0 none).ret = 0 →
      (viapadlock_rng_enable m2 (viapadlock_rng_enable m1 eng 1 (some cfg)).eng 0 none).trace =
        eng.handles.map (fun fd => Event.wrmsr fd
          ((viapadlock_rng_enable m1 eng 1 (some cfg)).eng.viapadlock_state.MSR_LSW &&&
            (2 ^ 32 - 1 - VIA1_RNG_ENABLE)) 0)) ∧
    (∀ b : Nat,
      ((viapadlock_rng_enable m1 eng 1 (some cfg)).eng.viapadlock_state.MSR_LSW &&&
        (2 ^ 32 - 1 - VIA1_RNG_ENABLE)).testBit b =
      ((viapadlock_rng_enable m1 eng 1 (some cfg)).eng.viapadlock_state.MSR_LSW.testBit b &&
        decide (b ≠ 6))) := by
  have hr := initialized_ready eng h
  have hd : eng.viapadlock_engines_detected ≠ 0 := Nat.pos_iff_ne_zero.mp hr.1
  have hbit := pack_msr_lsw_enable_bit (clean_config cfg) _ (detected_mask_enable_bit _ hr.2)
  have hlt := pack_msr_lsw_lt (clean_config cfg) _ hr.2
  have hne := testBit_ne_zero _ _ hbit
  rw [enable_none_eng]
  refine ⟨rfl, ?_, ?_, ?_⟩
  · rw [enable_some_eng m1 eng 1 cfg hd]; exact hbit
  · intro hret
    have hd1 : (viapadlock_rng_enable m1 eng 1 (some cfg)).eng.viapadlock_engines_detected ≠ 0 := by
      rw [(enable_frame m1 eng 1 (some cfg)).1]; exact hd
    have hl1 : (viapadlock_rng_enable m1 eng 1 (some cfg)).eng.viapadlock_state.MSR_LSW ≠ 0 := by
      rw [enable_some_eng m1 eng 1 cfg hd]; exact hne
    rw [enable_none_apply m2 _ 0 hd1 hl1] at hret ⊢
    rw [enable_apply_ret_zero m2 _ 0 none hret, if_pos rfl]
    have hh : (viapadlock_rng_enable m1 eng 1 (some cfg)).eng.handles = eng.handles := by
      unfold Engine.handles
      rw [(enable_frame m1 eng 1 (some cfg)).1, (enable_frame m1 eng 1 (some cfg)).2.2.2]
    rw [hh]
  · intro b
    apply disable_value_bits
    rw [enable_some_eng m1 eng 1 cfg hd]
    exact hlt

/-- Witness of C4 (amended) on the simulated two-core machine. -/
theorem C4_disable_keeps_stored_value_witness :
    (viapadlock_rng_enable (sim_machine 2 0x698 0 0)
      (viapadlock_rng_enable (sim_machine 2 0x698 0 0) sim_engine 1
        (some (viapadlock_rng_generate_config 1).2)).eng 0
      none).eng.viapadlock_state.MSR_LSW.testBit 6 = true :=
  (C4_disable_keeps_stored_value sim_engine
    ⟨sim_machine 2 0x698 0 0, Engine.zero, [], by decide, rfl⟩
    (viapadlock_rng_generate_config 1).2 (sim_machine 2 0x698 0 0)
    (sim_machine 2 0x698 0 0)).2.1

/-! ## Extraction engine: theorems -/

theorem ceil_div_zero (step : Nat) (hs : 0 < step) : (0 + step - 1) / step = 0 := by
  apply Nat.div_eq_of_lt
  omega

theorem ceil_div_step (size step : Nat) (hs : 0 < step) (hn : 0 < size) :
    (size + step - 1) / step = (size - min step size + step - 1) / step + 1 := by
  by_cases h : step ≤ size
  · rw [Nat.min_eq_left h]
    have : size + step - 1 = (size - step + step - 1) + step := by omega
    rw [this, Nat.add_div_right _ hs]
  · have hlt : size < step := Nat.lt_of_not_le h
    rw [Nat.min_eq_right (Nat.le_of_lt hlt), Nat.sub_self, ceil_div_zero step hs]
    apply Nat.div_eq_of_lt_le <;> omega

theorem expected_bytes_zero (m : Machine) (edx step k : Nat) (hs : 0 < step) :
    expected_bytes m edx step k 0 = [] := by
  unfold expected_bytes
  rw [ceil_div_zero step hs]
  rfl

theorem expected_bytes_step (m : Machine) (edx step k size : Nat) (hs : 0 < step)
    (hn : 0 < size) :
    expected_bytes m edx step k size =
      (List.range (min step size)).map (m.via_xstore k edx).buffer ++
        expected_bytes m edx step (k + 1) (size - min step size) := by
  unfold expected_bytes
  rw [ceil_div_step size step hs hn, List.range_succ_eq_map, List.map_cons, List.flatten_cons,
    List.map_map]
  congr 1
  · simp
  · congr 1
    apply List.map_congr_left
    intro j _
    have hk : k + Nat.succ j = k + 1 + j := by omega
    have hsz : size - Nat.succ j * step = size - min step size - j * step := by
      rw [Nat.succ_mul]
      generalize j * step = p
      by_cases h : step ≤ size
      · rw [Nat.min_eq_left h]; omega
      · rw [Nat.min_eq_right (Nat.le_of_lt (Nat.lt_of_not_le h))]; omega
    simp only [Function.comp, hk, hsz]

theorem expected_bytes_length (m : Machine) (edx step : Nat) (hs : 0 < step) :
    ∀ (size k : Nat), (expected_bytes m edx step k size).length = size := by
  intro size
  induction size using Nat.strong_induction_on with
  | _ size ih =>
    intro k
    by_cases hn : size = 0
    · subst hn; rw [expected_bytes_zero m edx step k hs]; rfl
    · have hpos : 0 < size := Nat.pos_of_ne_zero hn
      rw [expected_bytes_step m edx step k size hs hpos, List.length_append, List.length_map,
        List.length_range, ih (size - min step size) (by omega) (k + 1)]
      omega

theorem read_loop_zero (m : Machine) (eng : Engine) (d fuel s br k : Nat) (buf : List Nat)
    (tr : List Event) :
    read_loop m eng d fuel s 0 br k buf tr =
      some { ret := (br : Int), errno := 0, buf := buf, eng := eng, trace := tr } := by
  unfold read_loop
  simp

/-- The loop of `viapadlock_rng_read` when every `xstore` answers a matching
status with byte count `s0`: it ends after `⌈size / s0⌉` executions with all
`size` bytes delivered. -/
theorem read_loop_steady (m : Machine) (eng : Engine) (d s0 : Nat) (hs0 : 0 < s0)
    (hx : ∀ k, (m.via_xstore k d).flags &&& eng.viapadlock_state.MSR_LSW_MASK =
        eng.viapadlock_state.MSR_LSW ∧
      (m.via_xstore k d).flags &&& VIA1_XSTORE_CNT_MASK = s0) :
    ∀ (fuel size s br k : Nat) (buf : List Nat) (tr : List Event),
      size ≤ fuel → (s = s0 ∨ size = 0) →
      read_loop m eng d fuel s size br k buf tr =
        some { ret := ((br + size : Nat) : Int), errno := 0,
               buf := buf ++ expected_bytes m d s0 k size, eng := eng,
               trace := tr ++ List.replicate ((size + s0 - 1) / s0) (Event.xstore d) } := by
  intro fuel
  induction fuel with
  | zero =>
    intro size s br k buf tr hle _
    have h0 : size = 0 := by omega
    subst h0
    rw [read_loop_zero, expected_bytes_zero m d s0 k hs0, ceil_div_zero s0 hs0]
    simp
  | succ fuel ih =>
    intro size s br k buf tr hle hs
    by_cases h0 : size = 0
    · subst h0
      rw [read_loop_zero, expected_bytes_zero m d s0 k hs0, ceil_div_zero s0 hs0]
      simp
    · have hs' : s = s0 := by
        rcases hs with hs | hs
        · exact hs
        · exact absurd hs h0
      subst hs'
      have hpos : 0 < size := Nat.pos_of_ne_zero h0
      unfold read_loop
      simp only [h0, if_false, (hx k).1, (hx k).2, ne_eq, not_true_eq_false, if_true]
      have hmin : (if s > size then size else s) = min s size := by
        by_cases hc : s > size
        · rw [if_pos hc, Nat.min_eq_right (Nat.le_of_lt hc)]
        · rw [if_neg hc, Nat.min_eq_left (Nat.le_of_not_lt hc)]
      rw [hmin]
      rw [ih (size - min s size) (min s size) (br + min s size) (k + 1) _ _ (by omega) (by omega)]
      rw [expected_bytes_step m d s k size hs0 hpos, ceil_div_step size s hs0 hpos,
        List.replicate_succ, List.append_assoc, List.append_assoc]
      have hret : br + min s size + (size - min s size) = br + size := by omega
      simp only [hret, List.singleton_append]

/-- Whatever the hardware answers, a call of the loop that returns a byte count
returns the whole request. -/
theorem read_loop_ret (m : Machine) (eng : Engine) (d : Nat) :
    ∀ (fuel s size br k : Nat) (buf : List Nat) (tr : List Event) (r : ReadResult),
      buf.length = br → read_loop m eng d fuel s size br k buf tr = some r → r.ret ≠ -1 →
      r.ret = ((br + size : Nat) : Int) ∧ r.buf.length = br + size := by
  intro fuel
  induction fuel with
  | zero =>
    intro s size br k buf tr r hb h _
    unfold read_loop at h
    split at h
    · rename_i h0
      cases h
      subst h0
      exact ⟨rfl, hb⟩
    · simp at h
  | succ fuel ih =>
    intro s size br k buf tr r hb h hne
    have key : ∀ (x : Xstore) (k1 : Nat) (tr1 : List Event),
        read_loop m eng d fuel (if s > size then size else s)
          (size - (if s > size then size else s)) (br + (if s > size then size else s)) k1
          (buf ++ (List.range (if s > size then size else s)).map x.buffer) tr1 = some r →
        r.ret = ((br + size : Nat) : Int) ∧ r.buf.length = br + size := by
      intro x k1 tr1 hrec
      have hlen : (buf ++ (List.range (if s > size then size else s)).map x.buffer).length =
          br + (if s > size then size else s) := by
        rw [List.length_append, List.length_map, List.length_range, hb]
      have := ih _ _ _ _ _ _ r hlen hrec hne
      have hle : (if s > size then size else s) ≤ size := by
        split <;> omega
      have hsum : br + (if s > size then size else s) + (size - (if s > size then size else s)) =
          br + size := by omega
      rw [hsum] at this
      exact this
    unfold read_loop at h
    split at h
    · rename_i h0
      cases h
      subst h0
      exact ⟨rfl, hb⟩
    · simp only at h
      split at h
      · cases h; exact absurd (read_reset_eng _ _ _ _).2 hne
      · split at h
        · exact key _ _ _ h
        · split at h
          · cases h; exact absurd (read_reset_eng _ _ _ _).2 hne
          · split at h
            · exact ih _ _ _ _ _ _ r hb h hne
            · exact key _ _ _ h

theorem step_of_divisor (d : Nat) (hd : d ≤ 3) : 8 >>> (d &&& 3) = 8 >>> d ∧ 0 < 8 >>> d := by
  interval_cases d <;> decide

theorem cnt_of_low_five_bits (flags d : Nat) (hd : d ≤ 3)
    (h : flags &&& 0x1f = 8 >>> d ∨ flags &&& VIA1_XSTORE_CNT_MASK = 8 >>> d) :
    flags &&& VIA1_XSTORE_CNT_MASK = 8 >>> d := by
  rcases h with h | h
  · have h1 : flags &&& VIA1_XSTORE_CNT_MASK = (flags &&& 0x1f) &&& VIA1_XSTORE_CNT_MASK := by
      rw [Nat.land_assoc]
      rfl
    rw [h1, h]
    interval_cases d <;> decide
  · exact h

/-- C5: on an engine with at least one detected core and stored divisor
`d ≤ 3`, if every `xstore` answers a status word whose bits under
`MSR_LSW_MASK` equal the stored `MSR_LSW` and whose byte count (bits 4:0 of the
status word, or the four bits `VIA1_XSTORE_CNT_MASK` the code tests) equals
`8 >> d`, then a request of `n` bytes with fuel at least `n` returns `n` with
`errno = 0`, after `⌈n / (8 >> d)⌉` executions of `xstore`, and the buffer
holds the concatenation of the first `min (8 >> d) remaining` scratch bytes of
each execution (`n` bytes in all). Moreover, for every machine, whenever the
call returns something other than `-1`, it returns `n` and has stored `n`
bytes. -/
theorem C5_read_returns_full_length (m : Machine) (eng : Engine) (fuel n : Nat) :
    (0 < eng.viapadlock_engines_detected → eng.viapadlock_state.divisor ≤ 3 →
      (∀ k, (m.via_xstore k eng.viapadlock_state.divisor).flags &&&
            eng.viapadlock_state.MSR_LSW_MASK = eng.viapadlock_state.MSR_LSW ∧
          ((m.via_xstore k eng.viapadlock_state.divisor).flags &&& 0x1f =
              8 >>> eng.viapadlock_state.divisor ∨
            (m.via_xstore k eng.viapadlock_state.divisor).flags &&& VIA1_XSTORE_CNT_MASK =
              8 >>> eng.viapadlock_state.divisor)) →
      n ≤ fuel →
      viapadlock_rng_read m eng fuel n =
        some { ret := (n : Int), errno := 0,
               buf := expected_bytes m eng.viapadlock_state.divisor
                 (8 >>> eng.viapadlock_state.divisor) 0 n,
               eng := eng,
               trace := List.replicate
                 ((n + (8 >>> eng.viapadlock_state.divisor) - 1) /
                   (8 >>> eng.viapadlock_state.divisor))
                 (Event.xstore eng.viapadlock_state.divisor) } ∧
      (expected_bytes m eng.viapadlock_state.divisor
        (8 >>> eng.viapadlock_state.divisor) 0 n).length = n) ∧
    (∀ r : ReadResult, viapadlock_rng_read m eng fuel n = some r → r.ret ≠ -1 →
      r.ret = (n : Int) ∧ r.buf.length = n) := by
  constructor
  · intro hdet hd hx hfuel
    have hstep := step_of_divisor _ hd
    have hx' : ∀ k, (m.via_xstore k eng.viapadlock_state.divisor).flags &&&
          eng.viapadlock_state.MSR_LSW_MASK = eng.viapadlock_state.MSR_LSW ∧
        (m.via_xstore k eng.viapadlock_state.divisor).flags &&& VIA1_XSTORE_CNT_MASK =
          8 >>> eng.viapadlock_state.divisor :=
      fun k => ⟨(hx k).1, cnt_of_low_five_bits _ _ hd (hx k).2⟩
    refine ⟨?_, expected_bytes_length m _ _ hstep.2 n 0⟩
    unfold viapadlock_rng_read
    rw [if_neg (Nat.pos_iff_ne_zero.mp hdet)]
    simp only
    rw [hstep.1, read_loop_steady m eng _ _ hstep.2 hx' fuel n _ 0 0 [] [] hfuel (Or.inl rfl)]
    simp
  · intro r hr hne
    unfold viapadlock_rng_read at hr
    split at hr
    · cases hr; exact absurd rfl hne
    · have := read_loop_ret m eng _ fuel _ n 0 0 [] [] r rfl hr hne
      simpa using this

/-- Witness of C5: a request of 11 bytes at divisor 1 (4 bytes per `xstore`)
on the simulated two-core machine. -/
theorem C5_read_returns_full_length_witness :
    viapadlock_rng_read (sim_machine 2 0x698 0 0x244) sim_enabled 11 11 =
        some { ret := ((11 : Nat) : Int), errno := 0,
               buf := expected_bytes (sim_machine 2 0x698 0 0x244)
                 sim_enabled.viapadlock_state.divisor
                 (8 >>> sim_enabled.viapadlock_state.divisor) 0 11,
               eng := sim_enabled,
               trace := List.replicate
                 ((11 + (8 >>> sim_enabled.viapadlock_state.divisor) - 1) /
                   (8 >>> sim_enabled.viapadlock_state.divisor))
                 (Event.xstore sim_enabled.viapadlock_state.divisor) } ∧
      (expected_bytes (sim_machine 2 0x698 0 0x244) sim_enabled.viapadlock_state.divisor
        (8 >>> sim_enabled.viapadlock_state.divisor) 0 11).length = 11 :=
  (C5_read_returns_full_length (sim_machine 2 0x698 0 0x244) sim_enabled 11 11).1
    (by decide) (by decide)
    (fun _ =>
      ⟨show 0x244 &&& sim_enabled.viapadlock_state.MSR_LSW_MASK =
          sim_enabled.viapadlock_state.MSR_LSW from by decide,
       Or.inl (show 0x244 &&& 0x1f = 8 >>> sim_enabled.viapadlock_state.divisor from
          by decide)⟩)
    (by decide)

/-- C6 (code against its own comment): on the simulated two-core machine,
enabled with `MSR_LSW = 0x240`, an `xstore` status of `0x40` does not match.
When the re-applying `viapadlock_rng_enable(1, NULL)` succeeds (both writes
answer 0) the call returns `-1` with `errno = 0`, not `EAGAIN`; only when the
re-application fails (the first write answers errno 5) is `errno = EAGAIN`. -/
theorem C6_read_mismatch_errno :
    (viapadlock_rng_read (sim_machine 2 0x698 0 0x40) sim_enabled 1 8).map
        (fun r => (r.ret, r.errno, r.trace)) =
      some (-1, 0, [Event.xstore 1, Event.wrmsr 3 0x240 0, Event.wrmsr 4 0x240 0]) ∧
    (viapadlock_rng_read (sim_machine 2 0x698 5 0x40) sim_enabled 1 8).map
        (fun r => (r.ret, r.errno, r.trace)) =
      some (-1, EAGAIN, [Event.xstore 1, Event.wrmsr 3 0x240 0]) ∧
    (0 : Nat) ≠ EAGAIN := by
  refine ⟨by decide, by decide, by decide⟩

/-- C7: with at least one detected core, a request of 0 bytes returns 0 with
`errno = 0`, for every fuel, without executing `xstore` (empty trace), without
storing a byte and with the statics unchanged. -/
theorem C7_read_zero_length (m : Machine) (eng : Engine) (fuel : Nat)
    (h : 0 < eng.viapadlock_engines_detected) :
    viapadlock_rng_read m eng fuel 0 =
      some { ret := 0, errno := 0, buf := [], eng := eng, trace := [] } := by
  unfold viapadlock_rng_read
  rw [if_neg (Nat.pos_iff_ne_zero.mp h)]
  simp only
  rw [read_loop_zero]
  rfl

/-- Witness of C7 on the simulated two-core machine, with no fuel at all. -/
theorem C7_read_zero_length_witness :
    0 < sim_enabled.viapadlock_engines_detected ∧
    viapadlock_rng_read (sim_machine 2 0x698 0 0x244) sim_enabled 0 0 =
      some { ret := 0, errno := 0, buf := [], eng := sim_enabled, trace := [] } :=
  ⟨by decide, C7_read_zero_length (sim_machine 2 0x698 0 0x244) sim_enabled 0 (by decide)⟩

/-- C9: with no detected core, `viapadlock_rng_enable` (any `enable`, any
`cfg`) and `viapadlock_rng_read` (any size, any fuel) return `-1` with
`errno = ENXIO`, perform no action at all (empty trace: no msr write, no
`xstore`), store no byte, and leave the statics and the caller's config
untouched. -/
theorem C9_no_device (m : Machine) (eng : Engine) (e : Nat)
    (cfg : Option viapadlock_rng_config_t) (fuel n : Nat)
    (h : eng.viapadlock_engines_detected = 0) :
    viapadlock_rng_enable m eng e cfg =
      { ret := -1, errno := ENXIO, eng := eng, cfg := cfg, trace := [] } ∧
    viapadlock_rng_read m eng fuel n =
      some { ret := -1, errno := ENXIO, buf := [], eng := eng, trace := [] } := by
  constructor
  · unfold viapadlock_rng_enable
    rw [if_pos h]
  · unfold viapadlock_rng_read
    rw [if_pos h]

/-- Witness of C9 on the zero-initialised statics. -/
theorem C9_no_device_witness :
    Engine.zero.viapadlock_engines_detected = 0 ∧
    viapadlock_rng_enable (sim_machine 2 0x698 0 0x244) Engine.zero 1
        (some (viapadlock_rng_generate_config 1).2) =
      { ret := -1, errno := ENXIO, eng := Engine.zero,
        cfg := some (viapadlock_rng_generate_config 1).2, trace := [] } ∧
    viapadlock_rng_read (sim_machine 2 0x698 0 0x244) Engine.zero 0 8 =
      some { ret := -1, errno := ENXIO, buf := [], eng := Engine.zero, trace := [] } :=
  ⟨rfl, C9_no_device (sim_machine 2 0x698 0 0x244) Engine.zero 1
    (some (viapadlock_rng_generate_config 1).2) 0 8 rfl⟩

/-! ## The "never configured" check -/

theorem call_run_lsw (c : Call) (eng eng1 : Engine) (h : Ready eng)
    (hr : c.run eng = some eng1) :
    eng1.viapadlock_state.MSR_LSW = 0 ↔
      (eng.viapadlock_state.MSR_LSW = 0 ∧ c.configures = false) := by
  cases c with
  | enable m e cfg =>
    simp only [Call.run, Option.some.injEq] at hr
    subst hr
    cases cfg with
    | none => rw [enable_none_eng]; simp [Call.configures]
    | some cf =>
      rw [enable_some_eng m eng e cf (Nat.pos_iff_ne_zero.mp h.1)]
      have hne := testBit_ne_zero _ _
        (pack_msr_lsw_enable_bit (clean_config cf) _ (detected_mask_enable_bit _ h.2))
      simp [Call.configures, hne]
  | read m fuel size =>
    simp only [Call.run, Option.map_eq_some'] at hr
    obtain ⟨r, hr, he⟩ := hr
    rw [← he, read_eng m eng fuel size r hr]
    simp [Call.configures]

theorem run_calls_lsw : ∀ (calls : List Call) (eng eng1 : Engine), Ready eng →
    run_calls calls eng = some eng1 →
    (eng1.viapadlock_state.MSR_LSW = 0 ↔
      (eng.viapadlock_state.MSR_LSW = 0 ∧ ∀ c ∈ calls, c.configures = false)) := by
  intro calls
  induction calls with
  | nil =>
    intro eng eng1 _ hr
    simp only [run_calls, Option.some.injEq] at hr
    subst hr
    simp
  | cons c cs ih =>
    intro eng eng1 h hr
    simp only [run_calls, Option.bind_eq_some] at hr
    obtain ⟨e2, h2, h3⟩ := hr
    rw [ih e2 eng1 (call_run_ready c eng e2 h h2) h3, call_run_lsw c eng e2 h h2]
    simp only [List.mem_cons, forall_eq_or_imp]
    tauto

theorem enable_write_loop_error (m : Machine) (lo hi : Nat) : ∀ (fds : List Int),
    (enable_write_loop m lo hi fds).1 = 0 ∨
    ∃ fd ∈ fds, (enable_write_loop m lo hi fds).1 = m.wrmsr fd lo hi ∧ m.wrmsr fd lo hi ≠ 0 := by
  intro fds
  induction fds with
  | nil => left; rfl
  | cons fd fds ih =>
    unfold enable_write_loop
    by_cases he : m.wrmsr fd lo hi = 0
    · simp only [he, ne_eq, not_true_eq_false, if_false]
      rcases ih with ih | ⟨fd1, hmem, h1, h2⟩
      · left; exact ih
      · right; exact ⟨fd1, List.mem_cons_of_mem _ hmem, h1, h2⟩
    · simp only [he, ne_eq, not_false_eq_true, if_true]
      right
      exact ⟨fd, List.mem_cons_self _ _, rfl, he⟩

/-- C8: let `eng` be the statics after a `viapadlock_rng_init` that returned 1
followed by any sequence `calls` of enable / read calls. Then
`viapadlock_rng_enable(e, NULL)` returns `-1` with `errno = EINVAL` without
any action (the "never configured" exit) if and only if no call in `calls` was
`viapadlock_rng_enable` with a non-null `cfg`. If some call was, the result is
that of the write loop: at least one msr write is attempted, and the call
either returns 0 or fails with the non-zero `errno` of a failing msr write. -/
theorem C8_enable_null_invalid_state_iff (m0 : Machine) (e0 : Engine) (calls : List Call)
    (eng : Engine) (m : Machine) (e : Nat)
    (hinit : (viapadlock_rng_init m0 e0).ret = 1)
    (hrun : run_calls calls (viapadlock_rng_init m0 e0).eng = some eng) :
    (((viapadlock_rng_enable m eng e none).ret = -1 ∧
        (viapadlock_rng_enable m eng e none).errno = EINVAL ∧
        (viapadlock_rng_enable m eng e none).trace = []) ↔
      ∀ c ∈ calls, c.configures = false) ∧
    ((∃ c ∈ calls, c.configures = true) →
      (viapadlock_rng_enable m eng e none).trace ≠ [] ∧
      (((viapadlock_rng_enable m eng e none).ret = 0 ∧
          (viapadlock_rng_enable m eng e none).errno = 0) ∨
        ((viapadlock_rng_enable m eng e none).ret = -1 ∧
          (viapadlock_rng_enable m eng e none).errno ≠ 0 ∧
          ∃ fd ∈ eng.handles, ∃ lo : Nat,
            (viapadlock_rng_enable m eng e none).errno = m.wrmsr fd lo 0))) := by
  have h0 := init_ready m0 e0 hinit
  have hready : Ready eng := run_calls_ready calls _ eng ⟨h0.1, h0.2.1⟩ hrun
  have hlsw := run_calls_lsw calls _ eng ⟨h0.1, h0.2.1⟩ hrun
  simp only [h0.2.2.1, true_and] at hlsw
  have hd : eng.viapadlock_engines_detected ≠ 0 := Nat.pos_iff_ne_zero.mp hready.1
  have happly : eng.viapadlock_state.MSR_LSW ≠ 0 →
      (viapadlock_rng_enable m eng e none).trace ≠ [] ∧
      (((viapadlock_rng_enable m eng e none).ret = 0 ∧
          (viapadlock_rng_enable m eng e none).errno = 0) ∨
        ((viapadlock_rng_enable m eng e none).ret = -1 ∧
          (viapadlock_rng_enable m eng e none).errno ≠ 0 ∧
          ∃ fd ∈ eng.handles, ∃ lo : Nat,
            (viapadlock_rng_enable m eng e none).errno = m.wrmsr fd lo 0)) := by
    intro hl
    rw [enable_none_apply m eng e hd hl]
    obtain ⟨fd, fds, hh⟩ := handles_ne_nil eng hready.1
    constructor
    · unfold enable_apply
      simp only
      rw [hh]
      exact enable_write_loop_trace_ne_nil m _ _ fd fds
    · unfold enable_apply
      simp only
      rcases enable_write_loop_error m
        (if e = 0 then eng.viapadlock_state.MSR_LSW &&& (2 ^ 32 - 1 - VIA1_RNG_ENABLE)
          else eng.viapadlock_state.MSR_LSW) 0 eng.handles with hz | ⟨fd1, hmem, h1, h2⟩
      · left
        rw [hz]
        exact ⟨rfl, rfl⟩
      · right
        rw [h1]
        exact ⟨if_pos h2, h2, fd1, hmem, _, rfl⟩
  constructor
  · rw [← hlsw]
    constructor
    · intro hinv
      by_contra hl
      exact (happly hl).1 hinv.2.2
    · intro hl
      unfold viapadlock_rng_enable
      simp [hd, hl]
  · intro hex
    apply happly
    intro hl
    obtain ⟨c, hc, hcfg⟩ := hex
    have := hlsw.mp hl c hc
    rw [this] at hcfg
    exact absurd hcfg (by decide)

/-- Witness of C8: on the simulated two-core machine, right after
`viapadlock_rng_init` the null-config enable takes the `EINVAL` exit. -/
theorem C8_enable_null_invalid_state_iff_witness :
    (viapadlock_rng_init (sim_machine 2 0x698 0 0) Engine.zero).ret = 1 ∧
    (((viapadlock_rng_enable (sim_machine 2 0x698 0 0) sim_engine 1 none).ret = -1 ∧
        (viapadlock_rng_enable (sim_machine 2 0x698 0 0) sim_engine 1 none).errno = EINVAL ∧
        (viapadlock_rng_enable (sim_machine 2 0x698 0 0) sim_engine 1 none).trace = []) ↔
      ∀ c ∈ ([] : List Call), c.configures = false) :=
  ⟨by decide,
   (C8_enable_null_invalid_state_iff (sim_machine 2 0x698 0 0) Engine.zero [] sim_engine
     (sim_machine 2 0x698 0 0) 1 (by decide) rfl).1⟩

/-! ## Scanning identical cores -/

/-- A cpuid device either makes `detect_via_padlock_rng` fail with one fixed
non-zero code, or yields one fixed variant and mask. -/
theorem detect_outcome (m : Machine) (fd : Int) :
    (∃ e : Int, e ≠ 0 ∧ ∀ rng first, detect_via_padlock_rng m fd rng first = (e, rng)) ∨
    (∃ (t : via_rng_type_t) (k : Nat),
      (∀ rng, detect_via_padlock_rng m fd rng true =
        (0, { rng with rng_type := t, MSR_LSW_MASK := k, MSR_LSW := 0, divisor := 0 })) ∧
      (∀ rng, detect_via_padlock_rng m fd rng false =
        if t ≠ rng.rng_type ∨ k ≠ rng.MSR_LSW_MASK then (-1, rng) else (0, rng))) := by
  cases h0 : m.readcpuid fd 0 with
  | error e =>
    left
    refine ⟨((e : Nat) : Int), by simp, fun rng first => ?_⟩
    unfold detect_via_padlock_rng
    simp only [h0]
  | ok b0 =>
    by_cases hv : b0 0 = 0 ∨ b0 1 ≠ 0x746e6543 ∨ b0 3 ≠ 0x48727561 ∨ b0 2 ≠ 0x736c7561
    · left
      refine ⟨-1, by decide, fun rng first => ?_⟩
      unfold detect_via_padlock_rng
      simp only [h0, hv, if_true]
    · cases h1 : m.readcpuid fd CENTAUR_EXFF_LEVEL with
      | error e =>
        left
        refine ⟨((e : Nat) : Int), by simp, fun rng first => ?_⟩
        unfold detect_via_padlock_rng
        simp only [h0, hv, if_false, h1]
      | ok b1 =>
        by_cases hl : b1 0 < CENTAUR_EXFF_RNG
        · left
          refine ⟨-1, by decide, fun rng first => ?_⟩
          unfold detect_via_padlock_rng
          simp only [h0, hv, if_false, h1, hl, if_true]
        · by_cases hp : b1 7 &&& CENTAUR_EXFF_RNG_MASK = 0
          · left
            refine ⟨-1, by decide, fun rng first => ?_⟩
            unfold detect_via_padlock_rng
            simp only [h0, hv, if_false, h1, hl, hp, if_true]
          · by_cases hb : decode_cpu_revision (b0 4) ≤ 0x0060902
            · left
              refine ⟨-1, by decide, fun rng first => ?_⟩
              unfold detect_via_padlock_rng
              simp only [h0, hv, if_false, h1, hl, hp, hb, if_true]
            · right
              refine ⟨if decode_cpu_revision (b0 4) ≤ 0x0060907
                  then via_rng_type_t.VIA_RNG_TYPE1_ONESRC
                  else via_rng_type_t.VIA_RNG_TYPE1_TWOSRC,
                if decode_cpu_revision (b0 4) ≤ 0x0060907
                  then VIA1_STRFILT_ENABLE ||| VIA1_RAWBITS_ENABLE ||| VIA1_DCBIAS_MASK |||
                    VIA1_RNG_ENABLE
                  else VIA1_STRFILT_ENABLE ||| VIA1_RAWBITS_ENABLE ||| VIA1_DCBIAS_MASK |||
                    VIA1_RNG_ENABLE ||| VIA1_NOISE_SRC_MASK,
                fun rng => ?_, fun rng => ?_⟩
              · unfold detect_via_padlock_rng
                simp only [h0, hv, if_false, h1, hl, hp, hb, Bool.not_true]
                rfl
              · unfold detect_via_padlock_rng
                simp only [h0, hv, if_false, h1, hl, hp, hb, Bool.not_false, if_true]

theorem detect_of_probe (m : Machine) (fd : Int) (t : via_rng_type_t) (k : Nat)
    (h : probe m fd = some (t, k)) :
    (∀ rng, detect_via_padlock_rng m fd rng true =
      (0, { rng with rng_type := t, MSR_LSW_MASK := k, MSR_LSW := 0, divisor := 0 })) ∧
    (∀ rng, rng.rng_type = t → rng.MSR_LSW_MASK = k →
      detect_via_padlock_rng m fd rng false = (0, rng)) := by
  unfold probe at h
  rcases detect_outcome m fd with ⟨e, he, hall⟩ | ⟨t1, k1, hfirst, hlater⟩
  · rw [hall] at h
    simp [he] at h
  · rw [hfirst] at h
    simp only [if_true, Option.some.injEq, Prod.mk.injEq] at h
    obtain ⟨ht, hk⟩ := h
    subst ht
    subst hk
    refine ⟨hfirst, fun rng hrt hrk => ?_⟩
    rw [hlater, if_neg]
    simp [hrt, hrk]

theorem init_loop_usable (m : Machine) (fd : Nat → Int) (t : via_rng_type_t) (k N : Nat)
    (hN : N ≤ MAX_CPUS)
    (hmsr : ∀ i, i < N → m.open_msr i = Except.ok (fd i))
    (hcpuid : ∀ i, i < N → ∃ c, m.open_cpuid i = Except.ok c ∧ probe m c = some (t, k))
    (hend : N < MAX_CPUS →
      ∃ e, m.open_msr N = Except.error e ∧ ((e : Nat) = ENOENT ∨ (e : Nat) = ENXIO)) :
    ∀ (n : Nat) (eng : Engine) (tr : List Event),
      eng.viapadlock_engines_detected + n = MAX_CPUS → eng.viapadlock_engines_detected ≤ N →
      (0 < eng.viapadlock_engines_detected →
        eng.viapadlock_state.rng_type = t ∧ eng.viapadlock_state.MSR_LSW_MASK = k) →
      (∀ j, j < eng.viapadlock_engines_detected → eng.viapadlock_state.msr_fd j = fd j) →
      (init_loop m n eng.viapadlock_engines_detected eng tr).error = 0 ∧
      (init_loop m n eng.viapadlock_engines_detected eng tr).eng.viapadlock_engines_detected
        = N ∧
      (∀ j, j < N →
        (init_loop m n eng.viapadlock_engines_detected eng tr).eng.viapadlock_state.msr_fd j
          = fd j) ∧
      (0 < N →
        (init_loop m n eng.viapadlock_engines_detected eng tr).eng.viapadlock_state.rng_type
          = t ∧
        (init_loop m n eng.viapadlock_engines_detected eng tr).eng.viapadlock_state.MSR_LSW_MASK
          = k) := by
  intro n
  induction n with
  | zero =>
    intro eng tr hin hiN htk hfd
    have hiN' : eng.viapadlock_engines_detected = N := by omega
    rw [init_loop]
    refine ⟨rfl, hiN', ?_, ?_⟩
    · intro j hj; exact hfd j (by omega)
    · intro hp; exact htk (by omega)
  | succ n ih =>
    intro eng tr hin hiN htk hfd
    by_cases hlt : eng.viapadlock_engines_detected < N
    · obtain ⟨c, hc, hp⟩ := hcpuid _ hlt
      have hdp := detect_of_probe m c t k hp
      have hdd : detect_via_padlock_rng m c eng.viapadlock_state
            (eng.viapadlock_engines_detected == 0) =
          (0, (detect_via_padlock_rng m c eng.viapadlock_state
            (eng.viapadlock_engines_detected == 0)).2) ∧
          (detect_via_padlock_rng m c eng.viapadlock_state
            (eng.viapadlock_engines_detected == 0)).2.rng_type = t ∧
          (detect_via_padlock_rng m c eng.viapadlock_state
            (eng.viapadlock_engines_detected == 0)).2.MSR_LSW_MASK = k ∧
          (detect_via_padlock_rng m c eng.viapadlock_state
            (eng.viapadlock_engines_detected == 0)).2.msr_fd = eng.viapadlock_state.msr_fd := by
        by_cases hi0 : eng.viapadlock_engines_detected = 0
        · have hb : (eng.viapadlock_engines_detected == 0) = true := by simp [hi0]
          rw [hb, hdp.1]
          exact ⟨rfl, rfl, rfl, rfl⟩
        · have hb : (eng.viapadlock_engines_detected == 0) = false := by simp [hi0]
          rw [hb, hdp.2 _ (htk (Nat.pos_of_ne_zero hi0)).1 (htk (Nat.pos_of_ne_zero hi0)).2]
          exact ⟨rfl, (htk (Nat.pos_of_ne_zero hi0)).1, (htk (Nat.pos_of_ne_zero hi0)).2, rfl⟩
      have hdz : (detect_via_padlock_rng m c eng.viapadlock_state
          (eng.viapadlock_engines_detected == 0)).1 = 0 := by rw [hdd.1]
      rw [init_loop]
      simp only [hmsr _ hlt, hc, hdz, ne_eq, not_true_eq_false, if_false]
      apply ih
        { viapadlock_engines_detected := eng.viapadlock_engines_detected + 1,
          viapadlock_state :=
            { (detect_via_padlock_rng m c eng.viapadlock_state
                (eng.viapadlock_engines_detected == 0)).2 with
              msr_fd := Function.update
                (detect_via_padlock_rng m c eng.viapadlock_state
                  (eng.viapadlock_engines_detected == 0)).2.msr_fd
                eng.viapadlock_engines_detected (fd eng.viapadlock_engines_detected) } }
      · show eng.viapadlock_engines_detected + 1 + n = MAX_CPUS
        omega
      · show eng.viapadlock_engines_detected + 1 ≤ N
        omega
      · intro _
        exact ⟨hdd.2.1, hdd.2.2.1⟩
      · intro j hj
        have hj' : j < eng.viapadlock_engines_detected + 1 := hj
        dsimp only
        by_cases hji : j = eng.viapadlock_engines_detected
        · rw [hji, Function.update_same]
        · rw [Function.update_noteq hji, hdd.2.2.2]
          exact hfd j (by omega)
    · have hiN' : eng.viapadlock_engines_detected = N := by omega
      have hmax : N < MAX_CPUS := by omega
      obtain ⟨e, he, hcode⟩ := hend hmax
      have hnot : ¬ ((e : Nat) ≠ ENXIO ∧ (e : Nat) ≠ ENOENT) := by
        rcases hcode with h | h <;> simp [h]
      have hnio : ¬ ((e : Nat) = EIO) := by
        rcases hcode with h | h <;> rw [h] <;> decide
      rw [← hiN'] at he
      rw [init_loop]
      simp only [he, hnot, hnio, if_false]
      refine ⟨trivial, hiN', ?_, ?_⟩
      · intro j hj; exact hfd j (by omega)
      · intro hp; exact htk (by omega)

/-- C10: for every `N` with `1 ≤ N ≤ 32`, on a machine where the msr device of
each core `i < N` opens (descriptor `fd i`), its cpuid device opens and reports
a usable RNG of one common variant `t` and mask `k`, and (when `N < 32`)
opening the msr device of core `N` fails with `ENOENT` or `ENXIO`,
`viapadlock_rng_init` returns 1 from any prior state, the detected count is
exactly `N`, the handles held are `fd 0, ..., fd (N-1)` in index order, and
the recorded variant and mask are `t` and `k`. -/
theorem C10_init_identical_cores (m : Machine) (e0 : Engine) (fd : Nat → Int)
    (t : via_rng_type_t) (k N : Nat) (h1 : 1 ≤ N) (h32 : N ≤ 32)
    (hmsr : ∀ i, i < N → m.open_msr i = Except.ok (fd i))
    (hcpuid : ∀ i, i < N → ∃ c, m.open_cpuid i = Except.ok c ∧ probe m c = some (t, k))
    (hend : N < 32 →
      ∃ e, m.open_msr N = Except.error e ∧ ((e : Nat) = ENOENT ∨ (e : Nat) = ENXIO)) :
    (viapadlock_rng_init m e0).ret = 1 ∧
    (viapadlock_rng_init m e0).eng.viapadlock_engines_detected = N ∧
    (viapadlock_rng_init m e0).eng.handles = (List.range N).map fd ∧
    (viapadlock_rng_init m e0).eng.viapadlock_state.rng_type = t ∧
    (viapadlock_rng_init m e0).eng.viapadlock_state.MSR_LSW_MASK = k := by
  have hf : (if e0.viapadlock_engines_detected ≠ 0 then viapadlock_rng_free e0
      else (e0, [])).1.viapadlock_engines_detected = 0 := by
    by_cases h0 : e0.viapadlock_engines_detected = 0 <;> simp [h0, viapadlock_rng_free]
  have hx := init_loop_usable m fd t k N h32 hmsr hcpuid hend MAX_CPUS
    (if e0.viapadlock_engines_detected ≠ 0 then viapadlock_rng_free e0 else (e0, [])).1
    (if e0.viapadlock_engines_detected ≠ 0 then viapadlock_rng_free e0 else (e0, [])).2
    (by rw [hf, Nat.zero_add]) (by rw [hf]; exact Nat.zero_le N)
    (fun h => absurd h (by rw [hf]; decide))
    (fun j hj => absurd hj (by rw [hf]; exact Nat.not_lt_zero j))
  rw [hf] at hx
  unfold viapadlock_rng_init
  simp only
  generalize (if e0.viapadlock_engines_detected ≠ 0 then viapadlock_rng_free e0
      else (e0, [])) = f at hx ⊢
  generalize init_loop m MAX_CPUS 0 f.1 f.2 = x at hx ⊢
  obtain ⟨herr, hdet, hfds, htk⟩ := hx
  have hpos : x.eng.viapadlock_engines_detected > 0 := by omega
  simp only [herr, ne_eq, not_true_eq_false, if_false, hpos, if_true]
  refine ⟨trivial, hdet, ?_, (htk (by omega)).1, (htk (by omega)).2⟩
  unfold Engine.handles
  rw [hdet]
  apply List.map_congr_left
  intro j hj
  exact hfds j (List.mem_range.mp hj)

/-- Witness of C10: the simulated machine with two identical dual-source
cores. -/
theorem C10_init_identical_cores_witness :
    (viapadlock_rng_init (sim_machine 2 0x698 0 0) Engine.zero).ret = 1 ∧
    (viapadlock_rng_init (sim_machine 2 0x698 0 0) Engine.zero).eng.viapadlock_engines_detected
      = 2 ∧
    (viapadlock_rng_init (sim_machine 2 0x698 0 0) Engine.zero).eng.handles =
      (List.range 2).map (fun i => 3 + (i : Int)) ∧
    (viapadlock_rng_init (sim_machine 2 0x698 0 0) Engine.zero).eng.viapadlock_state.rng_type =
      via_rng_type_t.VIA_RNG_TYPE1_TWOSRC ∧
    (viapadlock_rng_init (sim_machine 2 0x698 0 0) Engine.zero).eng.viapadlock_state.MSR_LSW_MASK
      = TWOSRC_MASK :=
  C10_init_identical_cores (sim_machine 2 0x698 0 0) Engine.zero (fun i => 3 + (i : Int))
    via_rng_type_t.VIA_RNG_TYPE1_TWOSRC TWOSRC_MASK 2 (by decide) (by decide)
    (fun i hi => by simp [sim_machine, hi])
    (fun _ _ => ⟨100, rfl, by decide⟩)
    (fun _ => ⟨2, rfl, Or.inl rfl⟩)

/-! ## The register-value invariant and the frame of enable -/

theorem and_not_mask_zero (x mask : Nat) : (x &&& mask) &&& (2 ^ 32 - 1 - mask) = 0 := by
  by_cases h : mask < 2 ^ 32
  · apply Nat.eq_of_testBit_eq
    intro i
    have h1 : 2 ^ 32 - 1 - mask = 2 ^ 32 - (mask + 1) := by omega
    rw [h1, Nat.testBit_and, Nat.testBit_and, Nat.testBit_two_pow_sub_succ h]
    cases mask.testBit i <;> simp
  · have h1 : 2 ^ 32 - 1 - mask = 0 := by omega
    rw [h1, Nat.and_zero]

theorem msr_inv_of_lsw_zero (st : viapadlock_rng_t) (h : st.MSR_LSW = 0) : MsrInv st := by
  unfold MsrInv
  rw [h, Nat.zero_and]

theorem init_loop_msr_inv (m : Machine) : ∀ (n i : Nat) (eng : Engine) (tr : List Event),
    MsrInv eng.viapadlock_state → MsrInv (init_loop m n i eng tr).eng.viapadlock_state := by
  intro n
  induction n with
  | zero => intro i eng tr h; simpa [init_loop] using h
  | succ n ih =>
    intro i eng tr h
    cases hm : m.open_msr i with
    | error e => simpa [init_loop, hm] using h
    | ok msr_fd =>
      cases hc : m.open_cpuid i with
      | error e => simpa [init_loop, hm, hc] using h
      | ok cpuid_fd =>
        have hd := detect_spec m cpuid_fd eng.viapadlock_state
          (eng.viapadlock_engines_detected == 0)
        by_cases hz : (detect_via_padlock_rng m cpuid_fd eng.viapadlock_state
            (eng.viapadlock_engines_detected == 0)).1 = 0
        · simp only [init_loop, hm, hc, hz, ne_eq, not_true_eq_false, if_false]
          apply ih
          show MsrInv _
          unfold MsrInv
          dsimp only
          by_cases h0 : eng.viapadlock_engines_detected = 0
          · have := hd.2.1 hz (by simp [h0])
            rw [this.2.1, Nat.zero_and]
          · have := hd.2.2 hz (by simp [h0])
            rw [this.1]
            exact h
        · simp only [init_loop, hm, hc, hz, ne_eq, not_false_eq_true, if_true]
          rw [hd.1 hz]
          exact h

theorem init_msr_inv (m : Machine) (e0 : Engine) (h : MsrInv e0.viapadlock_state) :
    MsrInv (viapadlock_rng_init m e0).eng.viapadlock_state := by
  have hf : MsrInv (if e0.viapadlock_engines_detected ≠ 0 then viapadlock_rng_free e0
      else (e0, [])).1.viapadlock_state := by
    by_cases h0 : e0.viapadlock_engines_detected = 0 <;> simpa [h0, viapadlock_rng_free] using h
  have hx := init_loop_msr_inv m MAX_CPUS 0 _
    (if e0.viapadlock_engines_detected ≠ 0 then viapadlock_rng_free e0 else (e0, [])).2 hf
  unfold viapadlock_rng_init
  simp only
  generalize (if e0.viapadlock_engines_detected ≠ 0 then viapadlock_rng_free e0
      else (e0, [])) = f at hx ⊢
  generalize init_loop m MAX_CPUS 0 f.1 f.2 = x at hx ⊢
  by_cases he : x.error = 0
  · simp only [he, ne_eq, not_true_eq_false, if_false]
    exact hx
  · simp only [he, ne_eq, not_false_eq_true, if_true]
    split <;> exact hx

theorem enable_msr_inv (m : Machine) (eng : Engine) (e : Nat)
    (cfg : Option viapadlock_rng_config_t) (h : MsrInv eng.viapadlock_state) :
    MsrInv (viapadlock_rng_enable m eng e cfg).eng.viapadlock_state := by
  cases cfg with
  | none => rw [enable_none_eng]; exact h
  | some c =>
    by_cases hd : eng.viapadlock_engines_detected = 0
    · simpa [viapadlock_rng_enable, hd] using h
    · rw [enable_some_eng m eng e c hd]
      unfold MsrInv pack_msr_lsw
      exact and_not_mask_zero _ _

/-- C13: `MSR_LSW & ~MSR_LSW_MASK == 0` (32-bit words) holds for the
zero-initialised statics and is preserved by `viapadlock_rng_init` (any
machine), `viapadlock_rng_free`, `viapadlock_rng_enable` (any machine, so
whether or not a write fails; any `enable`; with any config or with none) and
`viapadlock_rng_read` (whenever it returns). -/
theorem C13_register_value_within_mask (eng : Engine) :
    MsrInv Engine.zero.viapadlock_state ∧
    (MsrInv eng.viapadlock_state →
      (∀ m : Machine, MsrInv (viapadlock_rng_init m eng).eng.viapadlock_state) ∧
      MsrInv (viapadlock_rng_free eng).1.viapadlock_state ∧
      (∀ (m : Machine) (e : Nat) (cfg : Option viapadlock_rng_config_t),
        MsrInv (viapadlock_rng_enable m eng e cfg).eng.viapadlock_state) ∧
      (∀ (m : Machine) (fuel size : Nat) (r : ReadResult),
        viapadlock_rng_read m eng fuel size = some r → MsrInv r.eng.viapadlock_state)) := by
  refine ⟨by decide, fun h => ⟨fun m => init_msr_inv m eng h, h,
    fun m e cfg => enable_msr_inv m eng e cfg h, fun m fuel size r hr => ?_⟩⟩
  rw [read_eng m eng fuel size r hr]
  exact h

/-- Witness of C13 on the simulated enabled engine. -/
theorem C13_register_value_within_mask_witness :
    MsrInv sim_enabled.viapadlock_state ∧
    (∀ (m : Machine) (e : Nat) (cfg : Option viapadlock_rng_config_t),
        MsrInv (viapadlock_rng_enable m sim_enabled e cfg).eng.viapadlock_state) :=
  ⟨by decide, ((C13_register_value_within_mask sim_enabled).2 (by decide)).2.2.1⟩

/-- C19: the statics after `viapadlock_rng_enable(e, &cfg)` do not depend on the
machine, hence not on whether a write fails; with a detected core the stored
`MSR_LSW` is the packed, masked value of the cleaned-up config and the stored
divisor is the config's, also when a write fails; and for any argument the
detected count, `MSR_LSW_MASK`, `rng_type`, `msr_fd` and the handle list are
unchanged. -/
theorem C19_enable_update_survives_write_failure (m1 m2 : Machine) (eng : Engine) (e : Nat)
    (cfg : viapadlock_rng_config_t) :
    (viapadlock_rng_enable m1 eng e (some cfg)).eng =
      (viapadlock_rng_enable m2 eng e (some cfg)).eng ∧
    (0 < eng.viapadlock_engines_detected →
      (viapadlock_rng_enable m1 eng e (some cfg)).eng.viapadlock_state.MSR_LSW =
        pack_msr_lsw (clean_config cfg) eng.viapadlock_state.MSR_LSW_MASK ∧
      (viapadlock_rng_enable m1 eng e (some cfg)).eng.viapadlock_state.divisor =
        (clean_config cfg).divisor) ∧
    (∀ c : Option viapadlock_rng_config_t,
      (viapadlock_rng_enable m1 eng e c).eng.viapadlock_engines_detected =
        eng.viapadlock_engines_detected ∧
      (viapadlock_rng_enable m1 eng e c).eng.viapadlock_state.MSR_LSW_MASK =
        eng.viapadlock_state.MSR_LSW_MASK ∧
      (viapadlock_rng_enable m1 eng e c).eng.viapadlock_state.rng_type =
        eng.viapadlock_state.rng_type ∧
      (viapadlock_rng_enable m1 eng e c).eng.viapadlock_state.msr_fd =
        eng.viapadlock_state.msr_fd ∧
      (viapadlock_rng_enable m1 eng e c).eng.handles = eng.handles) := by
  refine ⟨?_, ?_, ?_⟩
  · by_cases hd : eng.viapadlock_engines_detected = 0
    · simp [viapadlock_rng_enable, hd]
    · rw [enable_some_eng m1 eng e cfg hd, enable_some_eng m2 eng e cfg hd]
  · intro hpos
    rw [enable_some_eng m1 eng e cfg (Nat.pos_iff_ne_zero.mp hpos)]
    exact ⟨rfl, rfl⟩
  · intro c
    have hf := enable_frame m1 eng e c
    refine ⟨hf.1, hf.2.1, hf.2.2.1, hf.2.2.2, ?_⟩
    unfold Engine.handles
    rw [hf.1, hf.2.2.2]

/-- Witness of C19: on the simulated machine every msr write fails with errno
5, and the stored values are updated all the same. -/
theorem C19_enable_update_survives_write_failure_witness :
    (viapadlock_rng_enable (sim_machine 2 0x698 5 0) sim_engine 1
        (some (viapadlock_rng_generate_config 1).2)).eng.viapadlock_state.MSR_LSW =
      pack_msr_lsw (clean_config (viapadlock_rng_generate_config 1).2)
        sim_engine.viapadlock_state.MSR_LSW_MASK ∧
    (viapadlock_rng_enable (sim_machine 2 0x698 5 0) sim_engine 1
        (some (viapadlock_rng_generate_config 1).2)).eng.viapadlock_state.divisor =
      (clean_config (viapadlock_rng_generate_config 1).2).divisor :=
  (C19_enable_update_survives_write_failure (sim_machine 2 0x698 5 0) (sim_machine 2 0x698 0 0)
    sim_engine 1 (viapadlock_rng_generate_config 1).2).2.1 (by decide)

/-! ## Stored register value of initialised engines -/

theorem call_run_lsw_ok (c : Call) (eng eng1 : Engine) (h : Ready eng)
    (hl : (eng.viapadlock_state.MSR_LSW = 0 ∨ eng.viapadlock_state.MSR_LSW.testBit 6 = true) ∧
      eng.viapadlock_state.MSR_LSW < 2 ^ 32)
    (hr : c.run eng = some eng1) :
    (eng1.viapadlock_state.MSR_LSW = 0 ∨ eng1.viapadlock_state.MSR_LSW.testBit 6 = true) ∧
      eng1.viapadlock_state.MSR_LSW < 2 ^ 32 := by
  cases c with
  | enable m e cfg =>
    simp only [Call.run, Option.some.injEq] at hr
    subst hr
    cases cfg with
    | none => rw [enable_none_eng]; exact hl
    | some cf =>
      rw [enable_some_eng m eng e cf (Nat.pos_iff_ne_zero.mp h.1)]
      exact ⟨Or.inr (pack_msr_lsw_enable_bit (clean_config cf) _
        (detected_mask_enable_bit _ h.2)), pack_msr_lsw_lt (clean_config cf) _ h.2⟩
  | read m fuel size =>
    simp only [Call.run, Option.map_eq_some'] at hr
    obtain ⟨r, hr, he⟩ := hr
    rw [← he, read_eng m eng fuel size r hr]
    exact hl

theorem run_calls_lsw_ok : ∀ (calls : List Call) (eng eng1 : Engine), Ready eng →
    ((eng.viapadlock_state.MSR_LSW = 0 ∨ eng.viapadlock_state.MSR_LSW.testBit 6 = true) ∧
      eng.viapadlock_state.MSR_LSW < 2 ^ 32) →
    run_calls calls eng = some eng1 →
    (eng1.viapadlock_state.MSR_LSW = 0 ∨ eng1.viapadlock_state.MSR_LSW.testBit 6 = true) ∧
      eng1.viapadlock_state.MSR_LSW < 2 ^ 32 := by
  intro calls
  induction calls with
  | nil => intro eng eng1 _ hl hr; simp only [run_calls, Option.some.injEq] at hr; exact hr ▸ hl
  | cons c cs ih =>
    intro eng eng1 h hl hr
    simp only [run_calls, Option.bind_eq_some] at hr
    obtain ⟨e2, h2, h3⟩ := hr
    exact ih e2 eng1 (call_run_ready c eng e2 h h2) (call_run_lsw_ok c eng e2 h hl h2) h3

theorem initialized_lsw (eng : Engine) (h : Initialized eng) :
    (eng.viapadlock_state.MSR_LSW = 0 ∨ eng.viapadlock_state.MSR_LSW.testBit 6 = true) ∧
      eng.viapadlock_state.MSR_LSW < 2 ^ 32 := by
  obtain ⟨m, e0, calls, hi, hr⟩ := h
  have h0 := init_ready m e0 hi
  refine run_calls_lsw_ok calls _ eng ⟨h0.1, h0.2.1⟩ ⟨Or.inl h0.2.2.1, ?_⟩ hr
  rw [h0.2.2.1]
  decide

/-! ## The msr write loop -/

theorem enable_write_loop_all_ok (m : Machine) (lo hi : Nat) : ∀ (fds : List Int),
    (∀ fd ∈ fds, m.wrmsr fd lo hi = 0) →
    enable_write_loop m lo hi fds = (0, fds.map (fun fd => Event.wrmsr fd lo hi)) := by
  intro fds
  induction fds with
  | nil => intro _; rfl
  | cons fd fds ih =>
    intro h
    have h1 : m.wrmsr fd lo hi = 0 := h fd (List.mem_cons_self _ _)
    have h2 := ih (fun f hf => h f (List.mem_cons_of_mem _ hf))
    unfold enable_write_loop
    simp only [h1, ne_eq, not_true_eq_false, if_false, h2, List.map_cons]

theorem enable_write_loop_first_failure (m : Machine) (lo hi : Nat) (fd : Int)
    (post : List Int) (hfail : m.wrmsr fd lo hi ≠ 0) : ∀ (pre : List Int),
    (∀ f ∈ pre, m.wrmsr f lo hi = 0) →
    enable_write_loop m lo hi (pre ++ fd :: post) =
      (m.wrmsr fd lo hi, (pre ++ [fd]).map (fun f => Event.wrmsr f lo hi)) := by
  intro pre
  induction pre with
  | nil =>
    intro _
    unfold enable_write_loop
    simp only [List.nil_append, hfail, ne_eq, not_false_eq_true, if_true, List.map_cons,
      List.map_nil]
  | cons f pre ih =>
    intro h
    have h1 : m.wrmsr f lo hi = 0 := h f (List.mem_cons_self _ _)
    have h2 := ih (fun g hg => h g (List.mem_cons_of_mem _ hg))
    rw [List.cons_append]
    unfold enable_write_loop
    simp only [h1, ne_eq, not_true_eq_false, if_false, h2, List.cons_append, List.map_cons]

theorem enable_past_checks (eng : Engine) (h : Initialized eng) (m : Machine) (e : Nat)
    (cfg : Option viapadlock_rng_config_t)
    (hpast : cfg ≠ none ∨ eng.viapadlock_state.MSR_LSW ≠ 0) :
    (∃ cfg1, viapadlock_rng_enable m eng e cfg =
      enable_apply m (viapadlock_rng_enable m eng e cfg).eng e cfg1) ∧
    (viapadlock_rng_enable m eng e cfg).eng.viapadlock_state.MSR_LSW.testBit 6 = true ∧
    (viapadlock_rng_enable m eng e cfg).eng.viapadlock_state.MSR_LSW < 2 ^ 32 := by
  have hr := initialized_ready eng h
  have hl := initialized_lsw eng h
  have hd : eng.viapadlock_engines_detected ≠ 0 := Nat.pos_iff_ne_zero.mp hr.1
  cases cfg with
  | none =>
    have hne : eng.viapadlock_state.MSR_LSW ≠ 0 := by
      rcases hpast with hp | hp
      · exact absurd rfl hp
      · exact hp
    rw [enable_none_eng]
    refine ⟨⟨none, enable_none_apply m eng e hd hne⟩, ?_, hl.2⟩
    rcases hl.1 with h0 | h6
    · exact absurd h0 hne
    · exact h6
  | some c =>
    rw [enable_some_eng m eng e c hd]
    refine ⟨⟨some (clean_config c), ?_⟩, pack_msr_lsw_enable_bit (clean_config c) _
      (detected_mask_enable_bit _ hr.2), pack_msr_lsw_lt (clean_config c) _ hr.2⟩
    unfold viapadlock_rng_enable
    simp only [hd, if_false]

/-- C18: on an initialised engine, when `viapadlock_rng_enable(e, cfg)` gets
past its checks (`cfg` non-null, or a stored `MSR_LSW` that is not 0), let
`lo` be the stored `MSR_LSW` after the call, with `VIA1_RNG_ENABLE` masked out
when `e = 0`. Then bit 6 of `lo` is clear iff `e = 0` and every other bit is
that of the stored value; every write carries low word `lo` and high word 0,
in the order of the handles (one per detected core); if every write succeeds
all handles are written and the call returns 0; if the first failing write is
the one after the handles `pre`, exactly `pre` and that handle are written
and the call returns `-1` with the `errno` of that write. -/
theorem C18_enable_writes_in_index_order (eng : Engine) (h : Initialized eng) (m : Machine)
    (e : Nat) (cfg : Option viapadlock_rng_config_t)
    (hpast : cfg ≠ none ∨ eng.viapadlock_state.MSR_LSW ≠ 0)
    (lo : Nat)
    (hlo : lo = if e = 0
      then (viapadlock_rng_enable m eng e cfg).eng.viapadlock_state.MSR_LSW &&&
        (2 ^ 32 - 1 - VIA1_RNG_ENABLE)
      else (viapadlock_rng_enable m eng e cfg).eng.viapadlock_state.MSR_LSW) :
    (lo.testBit 6 = false ↔ e = 0) ∧
    (∀ b : Nat, b ≠ 6 →
      lo.testBit b = (viapadlock_rng_enable m eng e cfg).eng.viapadlock_state.MSR_LSW.testBit b) ∧
    eng.handles.length = eng.viapadlock_engines_detected ∧
    ((∀ fd ∈ eng.handles, m.wrmsr fd lo 0 = 0) →
      (viapadlock_rng_enable m eng e cfg).ret = 0 ∧
      (viapadlock_rng_enable m eng e cfg).errno = 0 ∧
      (viapadlock_rng_enable m eng e cfg).trace =
        eng.handles.map (fun fd => Event.wrmsr fd lo 0)) ∧
    (∀ (pre : List Int) (fd : Int) (post : List Int), eng.handles = pre ++ fd :: post →
      (∀ f ∈ pre, m.wrmsr f lo 0 = 0) → m.wrmsr fd lo 0 ≠ 0 →
      (viapadlock_rng_enable m eng e cfg).ret = -1 ∧
      (viapadlock_rng_enable m eng e cfg).errno = m.wrmsr fd lo 0 ∧
      (viapadlock_rng_enable m eng e cfg).trace =
        (pre ++ [fd]).map (fun f => Event.wrmsr f lo 0)) := by
  obtain ⟨⟨cfg1, happly⟩, hbit, hlt⟩ := enable_past_checks eng h m e cfg hpast
  have hh : (viapadlock_rng_enable m eng e cfg).eng.handles = eng.handles := by
    have hf := enable_frame m eng e cfg
    unfold Engine.handles
    rw [hf.1, hf.2.2.2]
  have hbits := disable_value_bits _ hlt
  refine ⟨?_, ?_, ?_, ?_, ?_⟩
  · by_cases he : e = 0
    · rw [hlo, if_pos he, hbits 6]
      simp [he]
    · rw [hlo, if_neg he, hbit]
      simp [he]
  · intro b hb
    by_cases he : e = 0
    · rw [hlo, if_pos he, hbits b]
      simp [hb]
    · rw [hlo, if_neg he]
  · unfold Engine.handles
    rw [List.length_map, List.length_range]
  · intro hall
    have hw := enable_write_loop_all_ok m lo 0 eng.handles hall
    rw [happly]
    unfold enable_apply
    simp only
    rw [hh, ← hlo, hw]
    exact ⟨rfl, rfl, rfl⟩
  · intro pre fd post hsplit hpre hfail
    have hw := enable_write_loop_first_failure m lo 0 fd post hfail pre hpre
    rw [happly]
    unfold enable_apply
    simp only
    rw [hh, ← hlo, hsplit, hw]
    exact ⟨if_pos hfail, rfl, rfl⟩

/-- Witness of C18: disabling the simulated enabled engine writes `0x200` to
both cores. -/
theorem C18_enable_writes_in_index_order_witness :
    (viapadlock_rng_enable (sim_machine 2 0x698 0 0) sim_enabled 0 none).ret = 0 ∧
      (viapadlock_rng_enable (sim_machine 2 0x698 0 0) sim_enabled 0 none).errno = 0 ∧
      (viapadlock_rng_enable (sim_machine 2 0x698 0 0) sim_enabled 0 none).trace =
        sim_enabled.handles.map (fun fd => Event.wrmsr fd 0x200 0) :=
  (C18_enable_writes_in_index_order sim_enabled
    ⟨sim_machine 2 0x698 0 0, Engine.zero,
      [Call.enable (sim_machine 2 0x698 0 0) 1 (some (viapadlock_rng_generate_config 1).2)],
      by decide, rfl⟩
    (sim_machine 2 0x698 0 0) 0 none (Or.inr (by decide)) 0x200 (by decide)).2.2.2.1
    (fun _ _ => rfl)

/-! ## The stored divisor -/

theorem enable_write_loop_no_xstore (m : Machine) (lo hi : Nat) : ∀ (fds : List Int)
    (edx : Nat), Event.xstore edx ∉ (enable_write_loop m lo hi fds).2 := by
  intro fds
  induction fds with
  | nil => intro edx; unfold enable_write_loop; simp
  | cons fd fds ih =>
    intro edx
    unfold enable_write_loop
    simp only
    split
    · simp
    · simp only [List.mem_cons, not_or]
      exact ⟨by simp, ih edx⟩

theorem enable_no_xstore (m : Machine) (eng : Engine) (e : Nat)
    (cfg : Option viapadlock_rng_config_t) (edx : Nat) :
    Event.xstore edx ∉ (viapadlock_rng_enable m eng e cfg).trace := by
  unfold viapadlock_rng_enable
  split
  · simp
  · simp only
    split
    · exact enable_write_loop_no_xstore m _ _ _ edx
    · split
      · simp
      · exact enable_write_loop_no_xstore m _ _ _ edx

theorem read_reset_xstore (m : Machine) (eng : Engine) (buf : List Nat) (tr : List Event)
    (d edx : Nat) (htr : ∀ x, Event.xstore x ∈ tr → x = d)
    (h : Event.xstore edx ∈ (read_reset m eng buf tr).trace) : edx = d := by
  unfold read_reset at h
  simp only at h
  split at h <;>
  · simp only [List.mem_append] at h
    rcases h with h | h
    · exact htr edx h
    · exact absurd h (enable_no_xstore m eng 1 none edx)

theorem read_loop_xstore (m : Machine) (eng : Engine) (d : Nat) :
    ∀ (fuel s size br k : Nat) (buf : List Nat) (tr : List Event) (r : ReadResult),
      (∀ x, Event.xstore x ∈ tr → x = d) →
      read_loop m eng d fuel s size br k buf tr = some r →
      ∀ edx, Event.xstore edx ∈ r.trace → edx = d := by
  intro fuel
  induction fuel with
  | zero =>
    intro s size br k buf tr r htr h
    unfold read_loop at h
    split at h
    · cases h; exact htr
    · simp at h
  | succ fuel ih =>
    intro s size br k buf tr r htr h
    have htr1 : ∀ x, Event.xstore x ∈ tr ++ [Event.xstore d] → x = d := by
      intro x hx
      simp only [List.mem_append, List.mem_singleton, Event.xstore.injEq] at hx
      rcases hx with hx | hx
      · exact htr x hx
      · exact hx
    have htr2 : ∀ x, Event.xstore x ∈ tr ++ [Event.xstore d] ++ [Event.xstore d] → x = d := by
      intro x hx
      simp only [List.mem_append, List.mem_singleton, Event.xstore.injEq] at hx
      rcases hx with (hx | hx) | hx
      · exact htr x hx
      · exact hx
      · exact hx
    unfold read_loop at h
    split at h
    · cases h; exact htr
    · simp only at h
      split at h
      · cases h; intro edx hx; exact read_reset_xstore m eng buf _ d edx htr1 hx
      · split at h
        · exact ih _ _ _ _ _ _ r htr1 h
        · split at h
          · cases h; intro edx hx; exact read_reset_xstore m eng buf _ d edx htr2 hx
          · split at h
            · exact ih _ _ _ _ _ _ r htr2 h
            · exact ih _ _ _ _ _ _ r htr2 h

theorem read_xstore_edx (m : Machine) (eng : Engine) (fuel size : Nat) (r : ReadResult)
    (h : viapadlock_rng_read m eng fuel size = some r) :
    ∀ edx, Event.xstore edx ∈ r.trace → edx = eng.viapadlock_state.divisor := by
  unfold viapadlock_rng_read at h
  split at h
  · cases h; intro edx hx; simp at hx
  · exact read_loop_xstore m eng _ _ _ _ _ _ _ _ r (fun x hx => by simp at hx) h

/-- C14 (counterexample): on the simulated two-core machine a config with
divisor 7 is accepted, the stored divisor is 7, and a later read of 2 bytes
passes the word 7 to `xstore` twice. -/
theorem C14_divisor_not_clamped_counterexample :
    (viapadlock_rng_init (sim_machine 2 0x698 0 0) Engine.zero).ret = 1 ∧
    (viapadlock_rng_enable (sim_machine 2 0x698 0 0) sim_engine 1
      (some sim_cfg_divisor7)).ret = 0 ∧
    (viapadlock_rng_enable (sim_machine 2 0x698 0 0) sim_engine 1
      (some sim_cfg_divisor7)).eng.viapadlock_state.divisor = 7 ∧
    (viapadlock_rng_read (sim_machine 2 0x698 0 0x241)
      (viapadlock_rng_enable (sim_machine 2 0x698 0 0) sim_engine 1
        (some sim_cfg_divisor7)).eng 2 2).map (fun r => (r.ret, r.trace)) =
      some (2, [Event.xstore 7, Event.xstore 7]) := by
  refine ⟨by decide, by decide, by decide, by decide⟩

/-- C14 (amended): with a detected core, `viapadlock_rng_enable(e, &cfg)` stores
the config's divisor as given, without clamping, so the stored divisor is in
`0..3` when the caller's value is; a later `viapadlock_rng_read` takes its
step from the low two bits of the stored word, `8 >> (divisor & 3)`, and every
`xstore` it executes receives exactly the stored word. -/
theorem C14_divisor_stored_as_given (eng : Engine)
    (h : 0 < eng.viapadlock_engines_detected) (m : Machine) (e : Nat)
    (cfg : viapadlock_rng_config_t) :
    (viapadlock_rng_enable m eng e (some cfg)).eng.viapadlock_state.divisor = cfg.divisor ∧
    (cfg.divisor ≤ 3 →
      (viapadlock_rng_enable m eng e (some cfg)).eng.viapadlock_state.divisor ≤ 3) ∧
    cfg.divisor &&& 3 ≤ 3 ∧
    (∀ (m2 : Machine) (fuel size : Nat),
      viapadlock_rng_read m2 (viapadlock_rng_enable m eng e (some cfg)).eng fuel size =
        read_loop m2 (viapadlock_rng_enable m eng e (some cfg)).eng cfg.divisor fuel
          (8 >>> (cfg.divisor &&& 3)) size 0 0 [] []) ∧
    (∀ (m2 : Machine) (fuel size : Nat) (r : ReadResult),
      viapadlock_rng_read m2 (viapadlock_rng_enable m eng e (some cfg)).eng fuel size = some r →
      ∀ edx, Event.xstore edx ∈ r.trace → edx = cfg.divisor) := by
  have hd : (viapadlock_rng_enable m eng e (some cfg)).eng.viapadlock_state.divisor =
      cfg.divisor := by
    rw [enable_some_eng m eng e cfg (Nat.pos_iff_ne_zero.mp h)]
    rfl
  have hdet : (viapadlock_rng_enable m eng e (some cfg)).eng.viapadlock_engines_detected ≠ 0 := by
    rw [(enable_frame m eng e (some cfg)).1]
    exact Nat.pos_iff_ne_zero.mp h
  refine ⟨hd, fun h3 => hd ▸ h3, Nat.and_le_right, fun m2 fuel size => ?_,
    fun m2 fuel size r hr edx hx => ?_⟩
  · unfold viapadlock_rng_read
    rw [if_neg hdet]
    simp only [hd]
  · rw [← hd]
    exact read_xstore_edx m2 _ fuel size r hr edx hx

/-- Witness of C14 (amended) with divisor 7 on the simulated machine. -/
theorem C14_divisor_stored_as_given_witness :
    0 < sim_engine.viapadlock_engines_detected ∧
    (viapadlock_rng_enable (sim_machine 2 0x698 0 0) sim_engine 1
      (some sim_cfg_divisor7)).eng.viapadlock_state.divisor = sim_cfg_divisor7.divisor :=
  ⟨by decide, (C14_divisor_stored_as_given sim_engine (by decide) (sim_machine 2 0x698 0 0) 1
    sim_cfg_divisor7).1⟩

/-! ## Register layout -/

theorem strfilt_count_masked (sf mask : Nat) (hmask : mask < 2 ^ 16) (i : Nat) :
    (((sf <<< VIA1_STRFILT_CNT_SHIFT) % 2 ^ 32).testBit i && mask.testBit i) = false := by
  by_cases hi : i < 16
  · have : ((sf <<< VIA1_STRFILT_CNT_SHIFT) % 2 ^ 32).testBit i = false := by
      rw [Nat.testBit_mod_two_pow, Nat.testBit_shiftLeft]
      have : ¬ (i ≥ VIA1_STRFILT_CNT_SHIFT) := by unfold VIA1_STRFILT_CNT_SHIFT; omega
      simp [this]
    rw [this]; rfl
  · have : mask.testBit i = false :=
      Nat.testBit_lt_two_pow (lt_of_lt_of_le hmask (Nat.pow_le_pow_right (by decide) (by omega)))
    rw [this, Bool.and_false]

/-- The string-filter count never survives the capability mask. -/
theorem pack_msr_lsw_value (c : viapadlock_rng_config_t) (mask : Nat) (hmask : mask < 2 ^ 16) :
    pack_msr_lsw c mask =
      ((if c.whitener ≠ 0 then 0 else VIA1_RAWBITS_ENABLE) |||
        ((c.dc_bias <<< VIA1_DCBIAS_SHIFT) % 2 ^ 32) |||
        ((c.noise_source <<< VIA1_NOISE_SRC_SHIFT) % 2 ^ 32) |||
        (if c.string_filter > 0 then VIA1_STRFILT_ENABLE else 0) |||
        VIA1_RNG_ENABLE) &&& mask := by
  unfold pack_msr_lsw
  by_cases hs : c.string_filter > 0
  · simp only [hs, if_true]
    apply Nat.eq_of_testBit_eq
    intro i
    have hS := strfilt_count_masked c.string_filter mask hmask i
    simp only [Nat.testBit_and, Nat.testBit_or]
    cases hm : mask.testBit i
    · simp
    · rw [hm, Bool.and_true] at hS
      rw [hS]
      simp
  · simp only [hs, if_false]

theorem layout_bits (dc ns mask : Nat) (p q : Prop) [Decidable p] [Decidable q]
    (hdc : dc ≤ 7) (hns : ns ≤ 2) (hmask : mask = ONESRC_MASK ∨ mask = TWOSRC_MASK) :
    ((((if p then 0 else VIA1_RAWBITS_ENABLE) |||
        ((dc <<< VIA1_DCBIAS_SHIFT) % 2 ^ 32) |||
        ((ns <<< VIA1_NOISE_SRC_SHIFT) % 2 ^ 32) |||
        (if q then VIA1_STRFILT_ENABLE else 0) |||
        VIA1_RNG_ENABLE) &&& mask) >>> 10) &&& 7 = dc ∧
    ((((if p then 0 else VIA1_RAWBITS_ENABLE) |||
        ((dc <<< VIA1_DCBIAS_SHIFT) % 2 ^ 32) |||
        ((ns <<< VIA1_NOISE_SRC_SHIFT) % 2 ^ 32) |||
        (if q then VIA1_STRFILT_ENABLE else 0) |||
        VIA1_RNG_ENABLE) &&& mask).testBit 13 = true ↔ ¬ p) ∧
    ((((if p then 0 else VIA1_RAWBITS_ENABLE) |||
        ((dc <<< VIA1_DCBIAS_SHIFT) % 2 ^ 32) |||
        ((ns <<< VIA1_NOISE_SRC_SHIFT) % 2 ^ 32) |||
        (if q then VIA1_STRFILT_ENABLE else 0) |||
        VIA1_RNG_ENABLE) &&& mask).testBit 14 = true ↔ q) ∧
    (((if p then 0 else VIA1_RAWBITS_ENABLE) |||
        ((dc <<< VIA1_DCBIAS_SHIFT) % 2 ^ 32) |||
        ((ns <<< VIA1_NOISE_SRC_SHIFT) % 2 ^ 32) |||
        (if q then VIA1_STRFILT_ENABLE else 0) |||
        VIA1_RNG_ENABLE) &&& mask).testBit 6 = true ∧
    ((((if p then 0 else VIA1_RAWBITS_ENABLE) |||
        ((dc <<< VIA1_DCBIAS_SHIFT) % 2 ^ 32) |||
        ((ns <<< VIA1_NOISE_SRC_SHIFT) % 2 ^ 32) |||
        (if q then VIA1_STRFILT_ENABLE else 0) |||
        VIA1_RNG_ENABLE) &&& mask) >>> 8) &&& 3 = (if mask = TWOSRC_MASK then ns else 0) ∧
    ((((if p then 0 else VIA1_RAWBITS_ENABLE) |||
        ((dc <<< VIA1_DCBIAS_SHIFT) % 2 ^ 32) |||
        ((ns <<< VIA1_NOISE_SRC_SHIFT) % 2 ^ 32) |||
        (if q then VIA1_STRFILT_ENABLE else 0) |||
        VIA1_RNG_ENABLE) &&& mask) >>> 16) &&& 63 = 0 := by
  by_cases hp : p <;> by_cases hq : q <;>
    simp only [hp, hq, if_true, if_false, not_true_eq_false, not_false_eq_true, iff_true,
      iff_false] <;>
    rcases hmask with rfl | rfl <;>
    interval_cases dc <;> interval_cases ns <;> decide

theorem clean_config_eq (cfg : viapadlock_rng_config_t) :
    clean_config cfg =
      { cfg with
        dc_bias := min cfg.dc_bias 7,
        string_filter :=
          if cfg.string_filter = 0 then 0 else max 8 (min cfg.string_filter 63) } := by
  unfold clean_config VIA1_DCBIAS_MAX VIA1_STRFILT_MIN VIA1_STRFILT_MAX
  simp only [viapadlock_rng_config_t.mk.injEq, and_true, true_and]
  constructor
  · split <;> omega
  · by_cases h0 : cfg.string_filter = 0
    · simp [h0]
    · simp only [h0, if_false]
      split <;> split <;> omega

/-- C20: on an initialised engine, for every config with `noise_source` in
`{0, 1, 2}`, the `MSR_LSW` stored by `viapadlock_rng_enable(e, &cfg)` has bits
12:10 equal to `min dc_bias 7`, bit 13 set iff `whitener` is 0, bit 14 set iff
`string_filter` is not 0, bit 6 set, and bits 9:8 equal to `noise_source` on
two-source hardware and to 0 on one-source hardware (the variant is one of
the two); the caller's struct is left with `dc_bias = min dc_bias 7` and
`string_filter` 0 if it was 0, otherwise clamped into `8..63`. -/
theorem C20_register_layout (eng : Engine) (h : Initialized eng) (m : Machine) (e : Nat)
    (cfg : viapadlock_rng_config_t) (hns : cfg.noise_source ≤ 2) (lsw : Nat)
    (hlsw : lsw = (viapadlock_rng_enable m eng e (some cfg)).eng.viapadlock_state.MSR_LSW) :
    (lsw >>> 10) &&& 7 = min cfg.dc_bias 7 ∧
    (lsw.testBit 13 = true ↔ cfg.whitener = 0) ∧
    (lsw.testBit 14 = true ↔ cfg.string_filter ≠ 0) ∧
    lsw.testBit 6 = true ∧
    (eng.viapadlock_state.rng_type = via_rng_type_t.VIA_RNG_TYPE1_TWOSRC →
      (lsw >>> 8) &&& 3 = cfg.noise_source) ∧
    (eng.viapadlock_state.rng_type = via_rng_type_t.VIA_RNG_TYPE1_ONESRC →
      (lsw >>> 8) &&& 3 = 0) ∧
    (eng.viapadlock_state.rng_type = via_rng_type_t.VIA_RNG_TYPE1_ONESRC ∨
      eng.viapadlock_state.rng_type = via_rng_type_t.VIA_RNG_TYPE1_TWOSRC) ∧
    (viapadlock_rng_enable m eng e (some cfg)).cfg =
      some { cfg with
        dc_bias := min cfg.dc_bias 7,
        string_filter :=
          if cfg.string_filter = 0 then 0 else max 8 (min cfg.string_filter 63) } := by
  have hr := initialized_ready eng h
  have hd : eng.viapadlock_engines_detected ≠ 0 := Nat.pos_iff_ne_zero.mp hr.1
  have hmask : eng.viapadlock_state.MSR_LSW_MASK = ONESRC_MASK ∨
      eng.viapadlock_state.MSR_LSW_MASK = TWOSRC_MASK := by
    rcases hr.2 with hh | hh
    · exact Or.inl hh.2
    · exact Or.inr hh.2
  have hlt : eng.viapadlock_state.MSR_LSW_MASK < 2 ^ 16 := by
    rcases hmask with hh | hh <;> rw [hh] <;> decide
  have hcfg : (viapadlock_rng_enable m eng e (some cfg)).cfg = some (clean_config cfg) := by
    unfold viapadlock_rng_enable
    simp only [hd, if_false]
    rfl
  have hdc : (clean_config cfg).dc_bias = min cfg.dc_bias 7 := by rw [clean_config_eq]
  have hsf : (clean_config cfg).string_filter > 0 ↔ cfg.string_filter ≠ 0 := by
    rw [clean_config_eq]
    by_cases h0 : cfg.string_filter = 0
    · simp [h0]
    · simp only [h0, if_false]
      constructor
      · intro _; exact h0
      · intro _; omega
  have hbits := layout_bits (clean_config cfg).dc_bias cfg.noise_source
    eng.viapadlock_state.MSR_LSW_MASK (cfg.whitener ≠ 0) ((clean_config cfg).string_filter > 0)
    (by rw [hdc]; omega) hns hmask
  have hval : lsw =
      ((if cfg.whitener ≠ 0 then 0 else VIA1_RAWBITS_ENABLE) |||
        (((clean_config cfg).dc_bias <<< VIA1_DCBIAS_SHIFT) % 2 ^ 32) |||
        ((cfg.noise_source <<< VIA1_NOISE_SRC_SHIFT) % 2 ^ 32) |||
        (if (clean_config cfg).string_filter > 0 then VIA1_STRFILT_ENABLE else 0) |||
        VIA1_RNG_ENABLE) &&& eng.viapadlock_state.MSR_LSW_MASK := by
    rw [hlsw, enable_some_eng m eng e cfg hd]
    exact pack_msr_lsw_value (clean_config cfg) _ hlt
  rw [← hval] at hbits
  obtain ⟨b1, b2, b3, b4, b5, _⟩ := hbits
  refine ⟨by rw [b1, hdc], ?_, ?_, b4, ?_, ?_, ?_, ?_⟩
  · rw [b2]; exact not_not
  · rw [b3]; exact hsf
  · intro ht
    rcases hr.2 with hh | hh
    · rw [hh.1] at ht; exact absurd ht (by decide)
    · rw [b5, hh.2, if_pos rfl]
  · intro ht
    rcases hr.2 with hh | hh
    · rw [b5, hh.2, if_neg (by decide)]
    · rw [hh.1] at ht; exact absurd ht (by decide)
  · rcases hr.2 with hh | hh
    · exact Or.inl hh.1
    · exact Or.inr hh.1
  · rw [hcfg, clean_config_eq]

/-- Witness of C20: the quality-1 config on the simulated dual-source machine
is stored as `0x240`. -/
theorem C20_register_layout_witness :
    ((0x240 >>> 10) &&& 7 = min (viapadlock_rng_generate_config 1).2.dc_bias 7 ∧
    ((0x240 : Nat).testBit 13 = true ↔ (viapadlock_rng_generate_config 1).2.whitener = 0) ∧
    ((0x240 : Nat).testBit 14 = true ↔ (viapadlock_rng_generate_config 1).2.string_filter ≠ 0) ∧
    (0x240 : Nat).testBit 6 = true) ∧
    (0x240 >>> 8) &&& 3 = (viapadlock_rng_generate_config 1).2.noise_source :=
  ⟨⟨(C20_register_layout sim_engine
      ⟨sim_machine 2 0x698 0 0, Engine.zero, [], by decide, rfl⟩
      (sim_machine 2 0x698 0 0) 1 (viapadlock_rng_generate_config 1).2 (by decide) 0x240
      (by decide)).1,
    (C20_register_layout sim_engine
      ⟨sim_machine 2 0x698 0 0, Engine.zero, [], by decide, rfl⟩
      (sim_machine 2 0x698 0 0) 1 (viapadlock_rng_generate_config 1).2 (by decide) 0x240
      (by decide)).2.1,
    (C20_register_layout sim_engine
      ⟨sim_machine 2 0x698 0 0, Engine.zero, [], by decide, rfl⟩
      (sim_machine 2 0x698 0 0) 1 (viapadlock_rng_generate_config 1).2 (by decide) 0x240
      (by decide)).2.2.1,
    (C20_register_layout sim_engine
      ⟨sim_machine 2 0x698 0 0, Engine.zero, [], by decide, rfl⟩
      (sim_machine 2 0x698 0 0) 1 (viapadlock_rng_generate_config 1).2 (by decide) 0x240
      (by decide)).2.2.2.1⟩,
   (C20_register_layout sim_engine
      ⟨sim_machine 2 0x698 0 0, Engine.zero, [], by decide, rfl⟩
      (sim_machine 2 0x698 0 0) 1 (viapadlock_rng_generate_config 1).2 (by decide) 0x240
      (by decide)).2.2.2.2.1 (by decide)⟩

/-! ## Feature detector: theorems -/

theorem and_four_eq_zero_iff (x : Nat) : x &&& CENTAUR_EXFF_RNG_MASK = 0 ↔ x.testBit 2 = false := by
  have h4 : CENTAUR_EXFF_RNG_MASK = 2 ^ 2 := by decide
  rw [h4]
  constructor
  · intro h
    have h2 : (x &&& 2 ^ 2).testBit 2 = Nat.testBit 0 2 := by rw [h]
    rw [Nat.testBit_and, Nat.testBit_two_pow_self, Bool.and_true] at h2
    rw [h2]
    rfl
  · intro h
    apply Nat.eq_of_testBit_eq
    intro i
    rw [Nat.testBit_and, Nat.testBit_two_pow]
    by_cases hi : 2 = i
    · subst hi; simp [h]
    · simp [hi]

theorem detect_value (m : Machine) (fd : Int) (rng : viapadlock_rng_t) (first : Bool)
    (b0 b1 : Nat → Nat) (h0 : m.readcpuid fd 0 = Except.ok b0)
    (h1 : m.readcpuid fd CENTAUR_EXFF_LEVEL = Except.ok b1) :
    detect_via_padlock_rng m fd rng first =
      if ¬ rng_present b0 b1 then (-1, rng)
      else if first = false then
        (if variant_of_revision (decode_cpu_revision (b0 4)) ≠ rng.rng_type ∨
            mask_of_revision (decode_cpu_revision (b0 4)) ≠ rng.MSR_LSW_MASK
          then (-1, rng) else (0, rng))
      else (0, { rng with rng_type := variant_of_revision (decode_cpu_revision (b0 4)),
                          MSR_LSW_MASK := mask_of_revision (decode_cpu_revision (b0 4)),
                          MSR_LSW := 0, divisor := 0 }) := by
  unfold detect_via_padlock_rng
  simp only [h0, h1]
  by_cases hv : b0 0 = 0 ∨ b0 1 ≠ 0x746e6543 ∨ b0 3 ≠ 0x48727561 ∨ b0 2 ≠ 0x736c7561
  · have hn : ¬ rng_present b0 b1 := by
      unfold rng_present
      intro hp
      rcases hv with h | h | h | h
      · omega
      · exact h hp.1.1
      · exact h hp.1.2.1
      · exact h hp.1.2.2
    simp only [hv, if_true, hn, not_false_eq_true]
  · simp only [hv, if_false]
    simp only [not_or, not_not] at hv
    by_cases hl : b1 0 < CENTAUR_EXFF_RNG
    · have hn : ¬ rng_present b0 b1 := by
        unfold rng_present
        intro hp
        unfold CENTAUR_EXFF_RNG at hl
        omega
      simp only [hl, if_true, hn, not_false_eq_true]
    · by_cases hp : b1 7 &&& CENTAUR_EXFF_RNG_MASK = 0
      · have hn : ¬ rng_present b0 b1 := by
          unfold rng_present
          intro hq
          rw [(and_four_eq_zero_iff _).mp hp] at hq
          exact absurd hq.2.2.2.1 (by decide)
        simp only [hl, hp, if_true, if_false, hn, not_false_eq_true]
      · by_cases hb : decode_cpu_revision (b0 4) ≤ 0x0060902
        · have hn : ¬ rng_present b0 b1 := by
            unfold rng_present
            intro hq
            omega
          simp only [hl, hp, hb, if_true, if_false, hn, not_false_eq_true]
        · have hy : rng_present b0 b1 := by
            unfold rng_present
            unfold CENTAUR_EXFF_RNG at hl
            refine ⟨⟨hv.2.1, hv.2.2.1, hv.2.2.2⟩, by omega, by omega, ?_, by omega⟩
            cases hbit : (b1 7).testBit 2
            · exact absurd ((and_four_eq_zero_iff _).mpr hbit) hp
            · rfl
          simp only [hl, hp, hb, if_false, hy, not_true_eq_false]
          by_cases ho : decode_cpu_revision (b0 4) ≤ 0x0060907
          · have ho' : ¬ (0x060907 < decode_cpu_revision (b0 4)) := by omega
            cases first
            all_goals
              simp only [ho, ho', if_true, if_false, variant_of_revision, mask_of_revision,
                Bool.not_false, Bool.not_true]
            all_goals rfl
          · have ho' : 0x060907 < decode_cpu_revision (b0 4) := by omega
            cases first
            all_goals
              simp only [ho, ho', if_true, if_false, variant_of_revision, mask_of_revision,
                Bool.not_false, Bool.not_true]
            all_goals rfl

/-- C17 (counterexample): a dual-source core that meets every listed condition,
examined as a later core after a single-source first core, is answered `-1`. -/
theorem C17_detect_later_core_counterexample :
    (sim_machine 2 0x698 0 0).readcpuid 100 0 = Except.ok (sim_cpuid 0x698 0) ∧
    (sim_machine 2 0x698 0 0).readcpuid 100 CENTAUR_EXFF_LEVEL =
      Except.ok (sim_cpuid 0x698 CENTAUR_EXFF_LEVEL) ∧
    rng_present (sim_cpuid 0x698 0) (sim_cpuid 0x698 CENTAUR_EXFF_LEVEL) ∧
    (viapadlock_rng_init (sim_machine 1 0x693 0 0) Engine.zero).ret = 1 ∧
    (detect_via_padlock_rng (sim_machine 2 0x698 0 0) 100
      (viapadlock_rng_init (sim_machine 1 0x693 0 0) Engine.zero).eng.viapadlock_state
      false).1 = -1 := by
  refine ⟨rfl, rfl, by decide, by decide, by decide⟩

/-- C17 (amended): when both reads of a core's identification leaves succeed,
`detect_via_padlock_rng` returns 0 exactly when the spec's conditions hold
and, for a core that is not the first, the variant and mask computed from its
revision equal the recorded ones; otherwise it returns `-1` and leaves the
struct alone. For a first core that is present, the recorded variant and mask
are the spec's (dual-source iff the revision is strictly above `0x060907`), and
the stored register value and divisor are reset to 0. -/
theorem C17_detect_present_iff (m : Machine) (fd : Int) (rng : viapadlock_rng_t)
    (first : Bool) (b0 b1 : Nat → Nat) (h0 : m.readcpuid fd 0 = Except.ok b0)
    (h1 : m.readcpuid fd CENTAUR_EXFF_LEVEL = Except.ok b1) :
    ((detect_via_padlock_rng m fd rng first).1 = 0 ↔
      (rng_present b0 b1 ∧
        (first = false →
          variant_of_revision (decode_cpu_revision (b0 4)) = rng.rng_type ∧
          mask_of_revision (decode_cpu_revision (b0 4)) = rng.MSR_LSW_MASK))) ∧
    ((detect_via_padlock_rng m fd rng first).1 ≠ 0 →
      (detect_via_padlock_rng m fd rng first).1 = -1 ∧
      (detect_via_padlock_rng m fd rng first).2 = rng) ∧
    (first = true → rng_present b0 b1 →
      (detect_via_padlock_rng m fd rng first).2.rng_type =
        variant_of_revision (decode_cpu_revision (b0 4)) ∧
      (detect_via_padlock_rng m fd rng first).2.MSR_LSW_MASK =
        mask_of_revision (decode_cpu_revision (b0 4)) ∧
      (detect_via_padlock_rng m fd rng first).2.MSR_LSW = 0 ∧
      (detect_via_padlock_rng m fd rng first).2.divisor = 0) := by
  rw [detect_value m fd rng first b0 b1 h0 h1]
  by_cases hp : rng_present b0 b1
  · cases first with
    | true => simp [hp]
    | false =>
      by_cases hm : variant_of_revision (decode_cpu_revision (b0 4)) ≠ rng.rng_type ∨
          mask_of_revision (decode_cpu_revision (b0 4)) ≠ rng.MSR_LSW_MASK
      · rw [if_neg (not_not.mpr hp), if_pos rfl, if_pos hm]
        refine ⟨⟨fun h => absurd h (show ((-1 : Int)) ≠ 0 from by decide), fun h => ?_⟩,
          fun _ => ⟨rfl, rfl⟩,
          fun h => absurd h (by decide)⟩
        have h2 := h.2 rfl
        rcases hm with hm | hm
        · exact absurd h2.1 hm
        · exact absurd h2.2 hm
      · rw [if_neg (not_not.mpr hp), if_pos rfl, if_neg hm]
        simp only [not_or, not_not] at hm
        exact ⟨⟨fun _ => ⟨hp, fun _ => hm⟩, fun _ => rfl⟩, fun h => absurd rfl h,
          fun h => absurd h (by decide)⟩
  · rw [if_pos hp]
    exact ⟨⟨fun h => absurd h (show ((-1 : Int)) ≠ 0 from by decide), fun h => absurd h.1 hp⟩,
      fun _ => ⟨rfl, rfl⟩, fun _ h => absurd h hp⟩

/-- Witness of C17 (amended): the first core of the simulated dual-source
machine. -/
theorem C17_detect_present_iff_witness :
    (detect_via_padlock_rng (sim_machine 2 0x698 0 0) 100 Engine.zero.viapadlock_state
        true).1 = 0 ↔
      (rng_present (sim_cpuid 0x698 0) (sim_cpuid 0x698 CENTAUR_EXFF_LEVEL) ∧
        (true = false →
          variant_of_revision (decode_cpu_revision (sim_cpuid 0x698 0 4)) =
            Engine.zero.viapadlock_state.rng_type ∧
          mask_of_revision (decode_cpu_revision (sim_cpuid 0x698 0 4)) =
            Engine.zero.viapadlock_state.MSR_LSW_MASK)) :=
  (C17_detect_present_iff (sim_machine 2 0x698 0 0) 100 Engine.zero.viapadlock_state true
    (sim_cpuid 0x698 0) (sim_cpuid 0x698 CENTAUR_EXFF_LEVEL) rfl rfl).1

/-! ## The scan over usable cores -/

theorem init_loop_step_ok (m : Machine) (n i : Nat) (eng : Engine) (tr : List Event)
    (f c : Int) (t : via_rng_type_t) (msk : Nat)
    (hm : m.open_msr i = Except.ok f) (hc : m.open_cpuid i = Except.ok c)
    (hp : probe m c = some (t, msk))
    (htk : 0 < eng.viapadlock_engines_detected →
      eng.viapadlock_state.rng_type = t ∧ eng.viapadlock_state.MSR_LSW_MASK = msk) :
    ∃ st : viapadlock_rng_t, st.rng_type = t ∧ st.MSR_LSW_MASK = msk ∧
      st.msr_fd = Function.update eng.viapadlock_state.msr_fd eng.viapadlock_engines_detected f ∧
      init_loop m (n + 1) i eng tr =
        init_loop m n (i + 1)
          { viapadlock_engines_detected := eng.viapadlock_engines_detected + 1,
            viapadlock_state := st }
          (tr ++ [Event.open_msr i f, Event.open_cpuid i c, Event.close c]) := by
  have hdp := detect_of_probe m c t msk hp
  have hdd : detect_via_padlock_rng m c eng.viapadlock_state
        (eng.viapadlock_engines_detected == 0) =
      (0, (detect_via_padlock_rng m c eng.viapadlock_state
        (eng.viapadlock_engines_detected == 0)).2) ∧
      (detect_via_padlock_rng m c eng.viapadlock_state
        (eng.viapadlock_engines_detected == 0)).2.rng_type = t ∧
      (detect_via_padlock_rng m c eng.viapadlock_state
        (eng.viapadlock_engines_detected == 0)).2.MSR_LSW_MASK = msk ∧
      (detect_via_padlock_rng m c eng.viapadlock_state
        (eng.viapadlock_engines_detected == 0)).2.msr_fd = eng.viapadlock_state.msr_fd := by
    by_cases hi0 : eng.viapadlock_engines_detected = 0
    · have hb : (eng.viapadlock_engines_detected == 0) = true := by simp [hi0]
      rw [hb, hdp.1]
      exact ⟨rfl, rfl, rfl, rfl⟩
    · have hb : (eng.viapadlock_engines_detected == 0) = false := by simp [hi0]
      rw [hb, hdp.2 _ (htk (Nat.pos_of_ne_zero hi0)).1 (htk (Nat.pos_of_ne_zero hi0)).2]
      exact ⟨rfl, (htk (Nat.pos_of_ne_zero hi0)).1, (htk (Nat.pos_of_ne_zero hi0)).2, rfl⟩
  have hdz : (detect_via_padlock_rng m c eng.viapadlock_state
      (eng.viapadlock_engines_detected == 0)).1 = 0 := by rw [hdd.1]
  refine ⟨{ (detect_via_padlock_rng m c eng.viapadlock_state
        (eng.viapadlock_engines_detected == 0)).2 with
      msr_fd := Function.update (detect_via_padlock_rng m c eng.viapadlock_state
        (eng.viapadlock_engines_detected == 0)).2.msr_fd eng.viapadlock_engines_detected f },
    hdd.2.1, hdd.2.2.1, ?_, ?_⟩
  · show Function.update _ _ _ = _
    rw [hdd.2.2.2]
  · rw [init_loop]
    simp only [hm, hc, hdz, ne_eq, not_true_eq_false, if_false, List.append_assoc]
    rfl

theorem init_loop_prefix (m : Machine) (fd cfd : Nat → Int) (t : via_rng_type_t) (msk : Nat) :
    ∀ (d n : Nat) (eng : Engine) (tr : List Event),
      (∀ i, eng.viapadlock_engines_detected ≤ i → i < eng.viapadlock_engines_detected + d →
        m.open_msr i = Except.ok (fd i) ∧ m.open_cpuid i = Except.ok (cfd i) ∧
        probe m (cfd i) = some (t, msk)) →
      (0 < eng.viapadlock_engines_detected →
        eng.viapadlock_state.rng_type = t ∧ eng.viapadlock_state.MSR_LSW_MASK = msk) →
      ∃ eng1 : Engine,
        eng1.viapadlock_engines_detected = eng.viapadlock_engines_detected + d ∧
        (0 < eng.viapadlock_engines_detected + d →
          eng1.viapadlock_state.rng_type = t ∧ eng1.viapadlock_state.MSR_LSW_MASK = msk) ∧
        (∀ j, eng.viapadlock_engines_detected ≤ j → j < eng.viapadlock_engines_detected + d →
          eng1.viapadlock_state.msr_fd j = fd j) ∧
        (∀ j, j < eng.viapadlock_engines_detected ∨ eng.viapadlock_engines_detected + d ≤ j →
          eng1.viapadlock_state.msr_fd j = eng.viapadlock_state.msr_fd j) ∧
        init_loop m (d + n) eng.viapadlock_engines_detected eng tr =
          init_loop m n (eng.viapadlock_engines_detected + d) eng1
            (tr ++ scan_events fd cfd eng.viapadlock_engines_detected d) := by
  intro d
  induction d with
  | zero =>
    intro n eng tr _ htk
    refine ⟨eng, rfl, htk, fun j h1 h2 => absurd h2 (by omega), fun _ _ => rfl, ?_⟩
    rw [Nat.zero_add, Nat.add_zero]
    simp only [scan_events, List.append_nil]
  | succ d ih =>
    intro n eng tr hcores htk
    obtain ⟨hm, hc, hp⟩ := hcores eng.viapadlock_engines_detected (Nat.le_refl _) (by omega)
    obtain ⟨st, hst1, hst2, hst3, hstep⟩ := init_loop_step_ok m (d + n)
      eng.viapadlock_engines_detected eng tr _ _ t msk hm hc hp htk
    obtain ⟨eng1, h1, h2, h3, h4, h5⟩ := ih n
      { viapadlock_engines_detected := eng.viapadlock_engines_detected + 1,
        viapadlock_state := st }
      (tr ++ [Event.open_msr eng.viapadlock_engines_detected (fd eng.viapadlock_engines_detected),
        Event.open_cpuid eng.viapadlock_engines_detected (cfd eng.viapadlock_engines_detected),
        Event.close (cfd eng.viapadlock_engines_detected)])
      (fun i hi1 hi2 => hcores i (by
        have : eng.viapadlock_engines_detected + 1 ≤ i := hi1
        omega) (by
        have : i < eng.viapadlock_engines_detected + 1 + d := hi2
        omega))
      (fun _ => ⟨hst1, hst2⟩)
    dsimp only at h1 h2 h3 h4 h5
    have harith : eng.viapadlock_engines_detected + 1 + d =
        eng.viapadlock_engines_detected + (d + 1) := by omega
    rw [harith] at h1 h2 h3 h4 h5
    refine ⟨eng1, h1, h2, ?_, ?_, ?_⟩
    · intro j hj1 hj2
      by_cases hje : j = eng.viapadlock_engines_detected
      · rw [h4 j (Or.inl (by omega)), hst3, hje, Function.update_same]
      · exact h3 j (by omega) hj2
    · intro j hj
      rw [h4 j (by omega), hst3, Function.update_noteq (by omega)]
    · have hn : d + 1 + n = (d + n) + 1 := by omega
      rw [hn, hstep, h5]
      simp only [scan_events, List.append_assoc]

theorem free_loop_eq_filter (st : viapadlock_rng_t) : ∀ (n : Nat),
    free_loop st n =
      ((((List.range n).map st.msr_fd).reverse).filter (fun fd => decide (fd ≠ -1))).map
        Event.close := by
  intro n
  induction n with
  | zero => rfl
  | succ n ih =>
    rw [free_loop, ih, List.range_succ, List.map_append, List.reverse_append]
    simp only [List.map_cons, List.map_nil, List.reverse_cons, List.reverse_nil, List.nil_append,
      List.filter_append, List.map_append]
    congr 1
    by_cases h : st.msr_fd n = -1
    · simp [h]
    · simp [h]

theorem free_loop_eq_of_valid (st : viapadlock_rng_t) (fd : Nat → Int) (n : Nat)
    (h : ∀ j, j < n → st.msr_fd j = fd j ∧ fd j ≠ -1) :
    free_loop st n = (((List.range n).map fd).reverse).map Event.close := by
  rw [free_loop_eq_filter]
  have hmap : (List.range n).map st.msr_fd = (List.range n).map fd := by
    apply List.map_congr_left
    intro j hj
    exact (h j (List.mem_range.mp hj)).1
  rw [hmap, List.filter_eq_self.mpr]
  intro a ha
  rw [List.mem_reverse, List.mem_map] at ha
  obtain ⟨j, hj, hja⟩ := ha
  rw [← hja]
  simpa using (h j (List.mem_range.mp hj)).2

theorem init_start (e0 : Engine) :
    (if e0.viapadlock_engines_detected ≠ 0 then viapadlock_rng_free e0 else (e0, [])) =
      ({ e0 with viapadlock_engines_detected := 0 },
        free_loop e0.viapadlock_state e0.viapadlock_engines_detected) := by
  by_cases h : e0.viapadlock_engines_detected = 0
  · rw [if_neg (not_not.mpr h), h]
    cases e0
    simp only at h
    subst h
    rfl
  · rw [if_pos h]
    rfl

theorem detect_of_probe_mismatch (m : Machine) (fd : Int) (t : via_rng_type_t) (msk : Nat)
    (h : probe m fd = some (t, msk)) (rng : viapadlock_rng_t)
    (hne : t ≠ rng.rng_type ∨ msk ≠ rng.MSR_LSW_MASK) :
    detect_via_padlock_rng m fd rng false = (-1, rng) := by
  unfold probe at h
  rcases detect_outcome m fd with ⟨e, he, hall⟩ | ⟨t1, k1, hfirst, hlater⟩
  · rw [hall] at h
    simp [he] at h
  · rw [hfirst] at h
    simp only [if_true, Option.some.injEq, Prod.mk.injEq] at h
    obtain ⟨ht, hk⟩ := h
    subst ht
    subst hk
    rw [hlater, if_pos hne]

/-- The scan of `viapadlock_rng_init` over `N` usable cores of one variant:
the loop arrives at core `N` with `N` handles recorded. -/
theorem init_scan_prefix (m : Machine) (e0 : Engine) (fd cfd : Nat → Int)
    (t : via_rng_type_t) (msk N n : Nat)
    (hcores : ∀ i, i < N → m.open_msr i = Except.ok (fd i) ∧
      m.open_cpuid i = Except.ok (cfd i) ∧ probe m (cfd i) = some (t, msk)) :
    ∃ eng1 : Engine,
      eng1.viapadlock_engines_detected = N ∧
      (0 < N → eng1.viapadlock_state.rng_type = t ∧ eng1.viapadlock_state.MSR_LSW_MASK = msk) ∧
      (∀ j, j < N → eng1.viapadlock_state.msr_fd j = fd j) ∧
      (∀ j, N ≤ j → eng1.viapadlock_state.msr_fd j = e0.viapadlock_state.msr_fd j) ∧
      init_loop m (N + n) 0
          (if e0.viapadlock_engines_detected ≠ 0 then viapadlock_rng_free e0 else (e0, [])).1
          (if e0.viapadlock_engines_detected ≠ 0 then viapadlock_rng_free e0 else (e0, [])).2 =
        init_loop m n N eng1
          (free_loop e0.viapadlock_state e0.viapadlock_engines_detected ++
            scan_events fd cfd 0 N) := by
  rw [init_start]
  obtain ⟨eng1, h1, h2, h3, h4, h5⟩ := init_loop_prefix m fd cfd t msk N n
    { e0 with viapadlock_engines_detected := 0 }
    (free_loop e0.viapadlock_state e0.viapadlock_engines_detected)
    (fun i _ hi => hcores i (by
      have : i < 0 + N := hi
      omega))
    (fun h => absurd h (Nat.lt_irrefl 0))
  dsimp only at h1 h2 h3 h4 h5
  rw [Nat.zero_add] at h1 h2 h3 h4 h5
  exact ⟨eng1, h1, h2, fun j hj => h3 j (Nat.zero_le j) hj, fun j hj => h4 j (Or.inr hj), h5⟩

/-! ## Outcomes of the scan -/

theorem handles_of_prefix (eng : Engine) (fd : Nat → Int) (N : Nat)
    (hd : eng.viapadlock_engines_detected = N)
    (hf : ∀ j, j < N → eng.viapadlock_state.msr_fd j = fd j) :
    eng.handles = (List.range N).map fd := by
  unfold Engine.handles
  rw [hd]
  apply List.map_congr_left
  intro j hj
  exact hf j (List.mem_range.mp hj)

/-- The result of `viapadlock_rng_init` when the scan passes `i` usable cores
and the msr device of core `i` does not open. -/
theorem init_msr_open_failure (m : Machine) (e0 : Engine) (fd cfd : Nat → Int)
    (t : via_rng_type_t) (msk i : Nat) (hi : i < 32)
    (hcores : ∀ j, j < i → m.open_msr j = Except.ok (fd j) ∧
      m.open_cpuid j = Except.ok (cfd j) ∧ probe m (cfd j) = some (t, msk))
    (e : ℕ+) (he : m.open_msr i = Except.error e) :
    ∃ eng1 : Engine, eng1.viapadlock_engines_detected = i ∧
      (∀ j, j < i → eng1.viapadlock_state.msr_fd j = fd j) ∧
      viapadlock_rng_init m e0 =
        (if (if (e : Nat) = EIO then (-1 : Int)
              else if (e : Nat) ≠ ENXIO ∧ (e : Nat) ≠ ENOENT then ((e : Nat) : Int) else 0) ≠ 0
          then
            (if (if (e : Nat) = EIO then (-1 : Int)
                else if (e : Nat) ≠ ENXIO ∧ (e : Nat) ≠ ENOENT then ((e : Nat) : Int) else 0) ≠ -1
            then
              { ret := -1,
                errno := some (if (e : Nat) = EIO then (-1 : Int)
                  else if (e : Nat) ≠ ENXIO ∧ (e : Nat) ≠ ENOENT then ((e : Nat) : Int) else 0),
                eng := (viapadlock_rng_free eng1).1,
                trace := free_loop e0.viapadlock_state e0.viapadlock_engines_detected ++
                  scan_events fd cfd 0 i ++ (viapadlock_rng_free eng1).2 }
            else
              { ret := 0, errno := none, eng := (viapadlock_rng_free eng1).1,
                trace := free_loop e0.viapadlock_state e0.viapadlock_engines_detected ++
                  scan_events fd cfd 0 i ++ (viapadlock_rng_free eng1).2 })
          else
            { ret := if eng1.viapadlock_engines_detected > 0 then 1 else 0, errno := none,
              eng := eng1,
              trace := free_loop e0.viapadlock_state e0.viapadlock_engines_detected ++
                scan_events fd cfd 0 i }) := by
  obtain ⟨eng1, h1, _, h3, _, h5⟩ :=
    init_scan_prefix m e0 fd cfd t msk i ((31 - i) + 1) hcores
  refine ⟨eng1, h1, h3, ?_⟩
  have hM : MAX_CPUS = i + ((31 - i) + 1) := by unfold MAX_CPUS; omega
  unfold viapadlock_rng_init
  dsimp only
  rw [hM, h5, init_loop]
  simp only [he, List.append_nil, if_true, ne_eq, not_true_eq_false, if_false]

/-- C15: when the scan has passed `i < 32` usable cores of one variant and the
msr device of core `i` does not open, with `errno = e`: for `e` equal to
`ENOENT` or `ENXIO` the scan ends normally and `viapadlock_rng_init` returns 1
with exactly the `i` handles collected if `i > 0`, and 0 if `i = 0`; for `e`
the input/output error code (`EIO`) it returns 0 with no handle, also when
`i > 0`; for any other `e` it returns `-1` with `errno = e` and no handle. -/
theorem C15_init_msr_open_failure_kinds (m : Machine) (e0 : Engine) (fd cfd : Nat → Int)
    (t : via_rng_type_t) (msk i : Nat) (hi : i < 32)
    (hcores : ∀ j, j < i → m.open_msr j = Except.ok (fd j) ∧
      m.open_cpuid j = Except.ok (cfd j) ∧ probe m (cfd j) = some (t, msk))
    (e : ℕ+) (he : m.open_msr i = Except.error e) :
    (((e : Nat) = ENOENT ∨ (e : Nat) = ENXIO) →
      (viapadlock_rng_init m e0).ret = (if 0 < i then 1 else 0) ∧
      (viapadlock_rng_init m e0).eng.viapadlock_engines_detected = i ∧
      (viapadlock_rng_init m e0).eng.handles = (List.range i).map fd) ∧
    ((e : Nat) = EIO →
      (viapadlock_rng_init m e0).ret = 0 ∧
      (viapadlock_rng_init m e0).eng.viapadlock_engines_detected = 0 ∧
      (viapadlock_rng_init m e0).eng.handles = []) ∧
    ((e : Nat) ≠ ENOENT → (e : Nat) ≠ ENXIO → (e : Nat) ≠ EIO →
      (viapadlock_rng_init m e0).ret = -1 ∧
      (viapadlock_rng_init m e0).errno = some ((e : Nat) : Int) ∧
      (viapadlock_rng_init m e0).eng.viapadlock_engines_detected = 0 ∧
      (viapadlock_rng_init m e0).eng.handles = []) := by
  obtain ⟨eng1, h1, h3, hinit⟩ := init_msr_open_failure m e0 fd cfd t msk i hi hcores e he
  rw [hinit]
  refine ⟨?_, ?_, ?_⟩
  · intro hcode
    have hnot : ¬ ((e : Nat) ≠ ENXIO ∧ (e : Nat) ≠ ENOENT) := by
      rcases hcode with h | h <;> simp [h]
    have hnio : ¬ ((e : Nat) = EIO) := by
      rcases hcode with h | h <;> rw [h] <;> decide
    simp only [hnot, hnio, if_false, ne_eq, not_true_eq_false]
    refine ⟨?_, h1, handles_of_prefix eng1 fd i h1 h3⟩
    rw [h1]
  · intro hio
    simp only [hio, if_true]
    rw [if_pos (by decide), if_neg (by decide)]
    exact ⟨rfl, rfl, rfl⟩
  · intro h1e h2e h3e
    have hyes : (e : Nat) ≠ ENXIO ∧ (e : Nat) ≠ ENOENT := ⟨h2e, h1e⟩
    have hpos : (((e : Nat) : Int)) ≠ 0 := by
      have := e.pos
      omega
    have hne1 : (((e : Nat) : Int)) ≠ -1 := by omega
    simp only [h3e, hyes, if_false, if_true, and_self, ne_eq, not_false_eq_true, hpos, hne1]
    refine ⟨?_, ?_, ?_, ?_⟩ <;> first | rfl | trivial

/-- Witness of C15: the simulated two-core machine, whose third msr device
fails with `ENOENT`. -/
theorem C15_init_msr_open_failure_kinds_witness :
    (viapadlock_rng_init (sim_machine 2 0x698 0 0) Engine.zero).ret = (if 0 < 2 then 1 else 0) ∧
    (viapadlock_rng_init (sim_machine 2 0x698 0 0) Engine.zero).eng.viapadlock_engines_detected
      = 2 ∧
    (viapadlock_rng_init (sim_machine 2 0x698 0 0) Engine.zero).eng.handles =
      (List.range 2).map (fun i => 3 + (i : Int)) :=
  (C15_init_msr_open_failure_kinds (sim_machine 2 0x698 0 0) Engine.zero
    (fun i => 3 + (i : Int)) (fun _ => 100) via_rng_type_t.VIA_RNG_TYPE1_TWOSRC TWOSRC_MASK 2
    (by decide)
    (fun j hj => ⟨by simp [sim_machine, hj], rfl,
      show probe (sim_machine 2 0x698 0 0) 100 =
        some (via_rng_type_t.VIA_RNG_TYPE1_TWOSRC, TWOSRC_MASK) from by decide⟩)
    2 rfl).1 (Or.inl rfl)

theorem opened_fds_append (a b : List Event) :
    opened_fds (a ++ b) = opened_fds a ++ opened_fds b := by
  induction a with
  | nil => rfl
  | cons ev a ih => cases ev <;> simp [opened_fds, ih]

theorem closed_fds_append (a b : List Event) :
    closed_fds (a ++ b) = closed_fds a ++ closed_fds b := by
  induction a with
  | nil => rfl
  | cons ev a ih => cases ev <;> simp [closed_fds, ih]

theorem opened_fds_map_close (l : List Int) : opened_fds (l.map Event.close) = [] := by
  induction l with
  | nil => rfl
  | cons a l ih => simp [opened_fds, ih]

theorem closed_fds_map_close (l : List Int) : closed_fds (l.map Event.close) = l := by
  induction l with
  | nil => rfl
  | cons a l ih => simp [closed_fds, ih]

theorem closed_fds_scan_events (fd cfd : Nat → Int) : ∀ (d j : Nat),
    closed_fds (scan_events fd cfd j d) = (List.range' j d).map cfd := by
  intro d
  induction d with
  | zero => intro j; rfl
  | succ d ih =>
    intro j
    simp [scan_events, closed_fds, ih, List.range'_succ]

theorem opened_fds_scan_events_count (fd cfd : Nat → Int) (a : Int) : ∀ (d j : Nat),
    (opened_fds (scan_events fd cfd j d)).count a =
      ((List.range' j d).map fd).count a + ((List.range' j d).map cfd).count a := by
  intro d
  induction d with
  | zero => intro j; rfl
  | succ d ih =>
    intro j
    have hs : scan_events fd cfd j (d + 1) =
        Event.open_msr j (fd j) :: Event.open_cpuid j (cfd j) :: Event.close (cfd j) ::
          scan_events fd cfd (j + 1) d := rfl
    rw [hs]
    simp only [opened_fds, List.range'_succ, List.map_cons, List.count_cons, ih]
    omega

/-- C11: for every `k` with `0 < k < 32`, when cores `0 .. k-1` are usable with
one common variant `t` and mask `msk`, and core `k` opens but reports a
variant or mask different from theirs, `viapadlock_rng_init` returns 0 without
assigning `errno`, the detected count is 0 and no handle is held. After the
teardown of whatever the engine held before, its actions are exactly: the scan
of cores `0 .. k-1`, the two opens of core `k`, the close of core `k`'s msr and
cpuid descriptors, and the close of `fd (k-1), ..., fd 0`; so the descriptors
closed are a permutation of the descriptors opened. Descriptors returned by
`open` are taken to differ from `-1`. -/
theorem C11_init_mismatch_closes_everything (m : Machine) (e0 : Engine) (fd cfd : Nat → Int)
    (t : via_rng_type_t) (msk k : Nat) (hk0 : 0 < k) (hk32 : k < 32)
    (hcores : ∀ j, j < k → m.open_msr j = Except.ok (fd j) ∧
      m.open_cpuid j = Except.ok (cfd j) ∧ probe m (cfd j) = some (t, msk))
    (fk ck : Int) (hmk : m.open_msr k = Except.ok fk) (hck : m.open_cpuid k = Except.ok ck)
    (tk : via_rng_type_t) (mskk : Nat) (hpk : probe m ck = some (tk, mskk))
    (hdiff : tk ≠ t ∨ mskk ≠ msk)
    (hvalid : (∀ j, j < k → fd j ≠ -1) ∧ fk ≠ -1 ∧ ck ≠ -1) :
    (viapadlock_rng_init m e0).ret = 0 ∧
    (viapadlock_rng_init m e0).errno = none ∧
    (viapadlock_rng_init m e0).eng.viapadlock_engines_detected = 0 ∧
    (viapadlock_rng_init m e0).eng.handles = [] ∧
    ∃ scan : List Event,
      (viapadlock_rng_init m e0).trace =
        free_loop e0.viapadlock_state e0.viapadlock_engines_detected ++ scan ∧
      scan = scan_events fd cfd 0 k ++
        [Event.open_msr k fk, Event.open_cpuid k ck, Event.close fk, Event.close ck] ++
        (((List.range k).map fd).reverse).map Event.close ∧
      (closed_fds scan).Perm (opened_fds scan) := by
  obtain ⟨eng1, h1, h2, h3, _, h5⟩ :=
    init_scan_prefix m e0 fd cfd t msk k ((31 - k) + 1) hcores
  have hM : MAX_CPUS = k + ((31 - k) + 1) := by unfold MAX_CPUS; omega
  have hfirst : (eng1.viapadlock_engines_detected == 0) = false := by
    rw [h1]
    simp only [beq_eq_false_iff_ne, ne_eq]
    omega
  have hdet : detect_via_padlock_rng m ck eng1.viapadlock_state
      (eng1.viapadlock_engines_detected == 0) = (-1, eng1.viapadlock_state) := by
    rw [hfirst]
    apply detect_of_probe_mismatch m ck tk mskk hpk
    rw [(h2 hk0).1, (h2 hk0).2]
    exact hdiff
  rw [h1] at hdet
  have hfree : free_loop eng1.viapadlock_state k =
      (((List.range k).map fd).reverse).map Event.close :=
    free_loop_eq_of_valid eng1.viapadlock_state fd k (fun j hj => ⟨h3 j hj, hvalid.1 j hj⟩)
  have hinit : viapadlock_rng_init m e0 =
      { ret := 0, errno := none, eng := { eng1 with viapadlock_engines_detected := 0 },
        trace := free_loop e0.viapadlock_state e0.viapadlock_engines_detected ++
          (scan_events fd cfd 0 k ++
            [Event.open_msr k fk, Event.open_cpuid k ck, Event.close fk, Event.close ck] ++
            (((List.range k).map fd).reverse).map Event.close) } := by
    unfold viapadlock_rng_init
    dsimp only
    rw [hM, h5, init_loop]
    have hn10 : ¬ ((-1 : Int) = 0) := by decide
    simp only [hmk, hck, hdet, ne_eq, hvalid.2.1, hvalid.2.2, not_false_eq_true, if_true,
      viapadlock_rng_free, h1, hfree, hn10, not_true_eq_false, if_false, List.append_assoc,
      List.cons_append, List.nil_append]
  rw [hinit]
  refine ⟨rfl, rfl, rfl, rfl, _, rfl, rfl, ?_⟩
  rw [List.perm_iff_count]
  intro a
  simp only [closed_fds_append, opened_fds_append, closed_fds_map_close, opened_fds_map_close,
    closed_fds_scan_events, List.count_append, opened_fds_scan_events_count, closed_fds,
    opened_fds, List.count_reverse, List.range_eq_range', List.append_nil]
  omega

/-- Witness of C11: a dual-source core 0 followed by a single-source core 1. -/
theorem C11_init_mismatch_closes_everything_witness :
    (viapadlock_rng_init (sim_mixed 2 (fun i => if i = 0 then 0x698 else 0x693))
      Engine.zero).ret = 0 ∧
    (viapadlock_rng_init (sim_mixed 2 (fun i => if i = 0 then 0x698 else 0x693))
      Engine.zero).errno = none ∧
    (viapadlock_rng_init (sim_mixed 2 (fun i => if i = 0 then 0x698 else 0x693))
      Engine.zero).eng.viapadlock_engines_detected = 0 ∧
    (viapadlock_rng_init (sim_mixed 2 (fun i => if i = 0 then 0x698 else 0x693))
      Engine.zero).eng.handles = [] ∧
    ∃ scan : List Event,
      (viapadlock_rng_init (sim_mixed 2 (fun i => if i = 0 then 0x698 else 0x693))
        Engine.zero).trace =
        free_loop Engine.zero.viapadlock_state Engine.zero.viapadlock_engines_detected ++ scan ∧
      scan = scan_events (fun i => 3 + (i : Int)) (fun i => 100 + (i : Int)) 0 1 ++
        [Event.open_msr 1 4, Event.open_cpuid 1 101, Event.close 4, Event.close 101] ++
        (((List.range 1).map (fun i => 3 + (i : Int))).reverse).map Event.close ∧
      (closed_fds scan).Perm (opened_fds scan) :=
  C11_init_mismatch_closes_everything (sim_mixed 2 (fun i => if i = 0 then 0x698 else 0x693))
    Engine.zero (fun i => 3 + (i : Int)) (fun i => 100 + (i : Int))
    via_rng_type_t.VIA_RNG_TYPE1_TWOSRC TWOSRC_MASK 1 (by decide) (by decide)
    (fun j hj => by
      have h0 : j = 0 := by omega
      subst h0
      exact ⟨rfl, rfl, by decide⟩)
    4 101 rfl rfl via_rng_type_t.VIA_RNG_TYPE1_ONESRC ONESRC_MASK (by decide)
    (Or.inl (by decide))
    ⟨fun j _ => by show 3 + (j : Int) ≠ -1; omega, by decide, by decide⟩

/-! ## Re-probing and the capacity of the handle array -/

theorem detect_msr_fd (m : Machine) (fd : Int) (rng : viapadlock_rng_t) (first : Bool) :
    (detect_via_padlock_rng m fd rng first).2.msr_fd = rng.msr_fd := by
  have hd := detect_spec m fd rng first
  by_cases hz : (detect_via_padlock_rng m fd rng first).1 = 0
  · cases first with
    | true => exact (hd.2.1 hz rfl).2.2.2
    | false => rw [(hd.2.2 hz rfl).1]
  · rw [hd.1 hz]

theorem init_loop_bound (m : Machine) : ∀ (n i : Nat) (eng : Engine) (tr : List Event),
    i + n = MAX_CPUS → eng.viapadlock_engines_detected ≤ i →
    (init_loop m n i eng tr).eng.viapadlock_engines_detected ≤ MAX_CPUS ∧
    ∀ j, MAX_CPUS ≤ j →
      (init_loop m n i eng tr).eng.viapadlock_state.msr_fd j = eng.viapadlock_state.msr_fd j := by
  intro n
  induction n with
  | zero =>
    intro i eng tr hin hdi
    rw [init_loop]
    refine ⟨?_, fun _ _ => rfl⟩
    show eng.viapadlock_engines_detected ≤ MAX_CPUS
    omega
  | succ n ih =>
    intro i eng tr hin hdi
    cases hm : m.open_msr i with
    | error e =>
      rw [init_loop]
      simp only [hm]
      refine ⟨?_, fun _ _ => ?_⟩ <;> first | rfl | trivial | omega
    | ok msr_fd =>
      cases hc : m.open_cpuid i with
      | error e =>
        rw [init_loop]
        simp only [hm, hc]
        refine ⟨?_, fun _ _ => ?_⟩ <;> first | rfl | trivial | omega
      | ok cpuid_fd =>
        have hfd := detect_msr_fd m cpuid_fd eng.viapadlock_state
          (eng.viapadlock_engines_detected == 0)
        by_cases hz : (detect_via_padlock_rng m cpuid_fd eng.viapadlock_state
            (eng.viapadlock_engines_detected == 0)).1 = 0
        · simp only [init_loop, hm, hc, hz, ne_eq, not_true_eq_false, if_false]
          have h := ih (i + 1)
            { viapadlock_engines_detected := eng.viapadlock_engines_detected + 1,
              viapadlock_state :=
                { (detect_via_padlock_rng m cpuid_fd eng.viapadlock_state
                    (eng.viapadlock_engines_detected == 0)).2 with
                  msr_fd := Function.update
                    (detect_via_padlock_rng m cpuid_fd eng.viapadlock_state
                      (eng.viapadlock_engines_detected == 0)).2.msr_fd
                    eng.viapadlock_engines_detected msr_fd } }
            (tr ++ [Event.open_msr i msr_fd] ++ [Event.open_cpuid i cpuid_fd] ++
              [Event.close cpuid_fd])
            (by omega) (by show eng.viapadlock_engines_detected + 1 ≤ i + 1; omega)
          refine ⟨h.1, fun j hj => ?_⟩
          rw [h.2 j hj]
          dsimp only
          rw [Function.update_noteq (by omega), hfd]
        · simp only [init_loop, hm, hc, hz, ne_eq, not_false_eq_true, if_true]
          exact ⟨by omega, fun j _ => by rw [hfd]⟩

theorem init_loop_trace_prefix (m : Machine) : ∀ (n i : Nat) (eng : Engine) (tr : List Event),
    ∃ rest, (init_loop m n i eng tr).trace = tr ++ rest := by
  intro n
  induction n with
  | zero => intro i eng tr; exact ⟨[], by rw [init_loop, List.append_nil]⟩
  | succ n ih =>
    intro i eng tr
    cases hm : m.open_msr i with
    | error e => exact ⟨[], by simp only [init_loop, hm, List.append_nil]⟩
    | ok msr_fd =>
      cases hc : m.open_cpuid i with
      | error e => exact ⟨[Event.open_msr i msr_fd], by simp only [init_loop, hm, hc]⟩
      | ok cpuid_fd =>
        by_cases hz : (detect_via_padlock_rng m cpuid_fd eng.viapadlock_state
            (eng.viapadlock_engines_detected == 0)).1 = 0
        · simp only [init_loop, hm, hc, hz, ne_eq, not_true_eq_false, if_false]
          obtain ⟨rest, hrest⟩ := ih (i + 1)
            { viapadlock_engines_detected := eng.viapadlock_engines_detected + 1,
              viapadlock_state :=
                { (detect_via_padlock_rng m cpuid_fd eng.viapadlock_state
                    (eng.viapadlock_engines_detected == 0)).2 with
                  msr_fd := Function.update
                    (detect_via_padlock_rng m cpuid_fd eng.viapadlock_state
                      (eng.viapadlock_engines_detected == 0)).2.msr_fd
                    eng.viapadlock_engines_detected msr_fd } }
            (tr ++ [Event.open_msr i msr_fd] ++ [Event.open_cpuid i cpuid_fd] ++
              [Event.close cpuid_fd])
          exact ⟨[Event.open_msr i msr_fd] ++ [Event.open_cpuid i cpuid_fd] ++
            [Event.close cpuid_fd] ++ rest, by rw [hrest]; simp only [List.append_assoc]⟩
        · exact ⟨[Event.open_msr i msr_fd] ++ [Event.open_cpuid i cpuid_fd], by
            simp only [init_loop, hm, hc, hz, ne_eq, not_false_eq_true, if_true,
              List.append_assoc]⟩

/-- The result of `viapadlock_rng_init` in terms of the state in which its
`for` loop is left. -/
theorem init_result (m : Machine) (e0 : Engine) (x : InitExit)
    (hx : x = init_loop m MAX_CPUS 0 { e0 with viapadlock_engines_detected := 0 }
      (free_loop e0.viapadlock_state e0.viapadlock_engines_detected)) :
    (viapadlock_rng_init m e0).ret =
      (if x.error ≠ 0 then (if x.error ≠ -1 then -1 else 0)
        else if x.eng.viapadlock_engines_detected > 0 then 1 else 0) ∧
    (viapadlock_rng_init m e0).errno =
      (if x.error ≠ 0 then (if x.error ≠ -1 then some x.error else none) else none) ∧
    (viapadlock_rng_init m e0).eng =
      (if x.error ≠ 0 then { x.eng with viapadlock_engines_detected := 0 } else x.eng) ∧
    ∃ rest, (viapadlock_rng_init m e0).trace = x.trace ++ rest := by
  unfold viapadlock_rng_init
  dsimp only
  rw [init_start, ← hx]
  by_cases he : x.error = 0
  · have he' : ¬ (x.error ≠ 0) := not_not.mpr he
    simp only [if_neg he']
    refine ⟨?_, ?_, ?_, ?_⟩
    all_goals first | trivial | rfl | exact ⟨_, by rw [List.append_assoc]⟩
  · have he' : x.error ≠ 0 := he
    by_cases h1 : x.error = -1
    · have h1' : ¬ (x.error ≠ -1) := not_not.mpr h1
      simp only [if_pos he', if_neg h1']
      refine ⟨?_, ?_, ?_, ?_⟩
      all_goals first | trivial | rfl | exact ⟨_, by rw [List.append_assoc, List.append_assoc]⟩
    · have h1' : x.error ≠ -1 := h1
      simp only [if_pos he', if_pos h1']
      refine ⟨?_, ?_, ?_, ?_⟩
      all_goals first | trivial | rfl | exact ⟨_, by rw [List.append_assoc, List.append_assoc]⟩

theorem init_loop_same (m : Machine) : ∀ (n i : Nat) (e1 e2 : Engine) (tr1 tr2 : List Event),
    SameScan e1 e2 →
    (init_loop m n i e1 tr1).error = (init_loop m n i e2 tr2).error ∧
    SameScan (init_loop m n i e1 tr1).eng (init_loop m n i e2 tr2).eng := by
  intro n
  induction n with
  | zero =>
    intro i e1 e2 tr1 tr2 h
    rw [init_loop, init_loop]
    exact ⟨rfl, h⟩
  | succ n ih =>
    intro i e1 e2 tr1 tr2 h
    cases hm : m.open_msr i with
    | error e =>
      rw [init_loop, init_loop]
      simp only [hm]
      exact ⟨trivial, h⟩
    | ok msr_fd =>
      cases hc : m.open_cpuid i with
      | error e =>
        rw [init_loop, init_loop]
        simp only [hm, hc]
        exact ⟨trivial, h⟩
      | ok cpuid_fd =>
        have hb : (e2.viapadlock_engines_detected == 0) =
            (e1.viapadlock_engines_detected == 0) := by rw [h.1]
        rcases detect_outcome m cpuid_fd with ⟨e, he, hall⟩ | ⟨t1, k1, hfirst, hlater⟩
        · rw [init_loop, init_loop]
          simp only [hm, hc, hall, ne_eq, he, not_false_eq_true, if_true]
          exact ⟨trivial, h⟩
        · by_cases h0 : e1.viapadlock_engines_detected = 0
          · have hb1 : (e1.viapadlock_engines_detected == 0) = true := by simp [h0]
            rw [init_loop, init_loop]
            simp only [hm, hc, hb, hb1, hfirst, ne_eq, not_true_eq_false, if_false]
            apply ih
            refine ⟨?_, fun _ => ⟨rfl, rfl⟩, fun j hj => ?_⟩
            · show e1.viapadlock_engines_detected + 1 = e2.viapadlock_engines_detected + 1
              rw [h.1]
            · have hj' : j < e1.viapadlock_engines_detected + 1 := hj
              show Function.update e1.viapadlock_state.msr_fd e1.viapadlock_engines_detected
                  msr_fd j =
                Function.update e2.viapadlock_state.msr_fd e2.viapadlock_engines_detected
                  msr_fd j
              rw [← h.1]
              by_cases hje : j = e1.viapadlock_engines_detected
              · rw [hje, Function.update_same, Function.update_same]
              · rw [Function.update_noteq hje, Function.update_noteq hje]
                exact h.2.2 j (by omega)
          · have hb1 : (e1.viapadlock_engines_detected == 0) = false := by simp [h0]
            have hpos : 0 < e1.viapadlock_engines_detected := Nat.pos_of_ne_zero h0
            have htm := h.2.1 hpos
            by_cases hmis : t1 ≠ e1.viapadlock_state.rng_type ∨
                k1 ≠ e1.viapadlock_state.MSR_LSW_MASK
            · have hmis2 : t1 ≠ e2.viapadlock_state.rng_type ∨
                  k1 ≠ e2.viapadlock_state.MSR_LSW_MASK := by
                rw [← htm.1, ← htm.2]; exact hmis
              have hn10 : ¬ ((-1 : Int) = 0) := by decide
              rw [init_loop, init_loop]
              simp only [hm, hc, hb, hb1, hlater, if_pos hmis, if_pos hmis2, ne_eq, hn10,
                not_false_eq_true, if_true]
              exact ⟨trivial, h⟩
            · have hmis2 : ¬ (t1 ≠ e2.viapadlock_state.rng_type ∨
                  k1 ≠ e2.viapadlock_state.MSR_LSW_MASK) := by
                rw [← htm.1, ← htm.2]; exact hmis
              rw [init_loop, init_loop]
              simp only [hm, hc, hb, hb1, hlater, if_neg hmis, if_neg hmis2, ne_eq,
                not_true_eq_false, if_false]
              apply ih
              refine ⟨?_, fun _ => htm, fun j hj => ?_⟩
              · show e1.viapadlock_engines_detected + 1 = e2.viapadlock_engines_detected + 1
                rw [h.1]
              · have hj' : j < e1.viapadlock_engines_detected + 1 := hj
                show Function.update e1.viapadlock_state.msr_fd e1.viapadlock_engines_detected
                    msr_fd j =
                  Function.update e2.viapadlock_state.msr_fd e2.viapadlock_engines_detected
                    msr_fd j
                rw [← h.1]
                by_cases hje : j = e1.viapadlock_engines_detected
                · rw [hje, Function.update_same, Function.update_same]
                · rw [Function.update_noteq hje, Function.update_noteq hje]
                  exact h.2.2 j (by omega)

/-- C12: on one and the same machine, `viapadlock_rng_init` called again on
the statics the first call left returns the same value, assigns the same
`errno`, and leaves the same detected count and the same handles as the first
call; and the second call begins by closing every handle the first call left
recorded (last recorded first), before it opens anything. -/
theorem C12_init_twice (m : Machine) (e0 : Engine) :
    (viapadlock_rng_init m (viapadlock_rng_init m e0).eng).ret = (viapadlock_rng_init m e0).ret ∧
    (viapadlock_rng_init m (viapadlock_rng_init m e0).eng).errno =
      (viapadlock_rng_init m e0).errno ∧
    (viapadlock_rng_init m (viapadlock_rng_init m e0).eng).eng.viapadlock_engines_detected =
      (viapadlock_rng_init m e0).eng.viapadlock_engines_detected ∧
    (viapadlock_rng_init m (viapadlock_rng_init m e0).eng).eng.handles =
      (viapadlock_rng_init m e0).eng.handles ∧
    ∃ rest : List Event,
      (viapadlock_rng_init m (viapadlock_rng_init m e0).eng).trace =
        (((viapadlock_rng_init m e0).eng.handles.reverse).filter
          (fun fd => decide (fd ≠ -1))).map Event.close ++ rest := by
  generalize hE : (viapadlock_rng_init m e0).eng = E
  obtain ⟨r1, n1, g1, _⟩ := init_result m e0 _ rfl
  obtain ⟨r2, n2, g2, rest2, t2⟩ := init_result m E _ rfl
  obtain ⟨rest0, hpre⟩ := init_loop_trace_prefix m MAX_CPUS 0
    { E with viapadlock_engines_detected := 0 }
    (free_loop E.viapadlock_state E.viapadlock_engines_detected)
  have hsame := init_loop_same m MAX_CPUS 0
    { E with viapadlock_engines_detected := 0 } { e0 with viapadlock_engines_detected := 0 }
    (free_loop E.viapadlock_state E.viapadlock_engines_detected)
    (free_loop e0.viapadlock_state e0.viapadlock_engines_detected)
    ⟨rfl, fun h => absurd h (Nat.lt_irrefl 0), fun j hj => absurd hj (Nat.not_lt_zero j)⟩
  rw [hE] at g1
  generalize init_loop m MAX_CPUS 0 { E with viapadlock_engines_detected := 0 }
    (free_loop E.viapadlock_state E.viapadlock_engines_detected) = x2 at *
  generalize init_loop m MAX_CPUS 0 { e0 with viapadlock_engines_detected := 0 }
    (free_loop e0.viapadlock_state e0.viapadlock_engines_detected) = x1 at *
  obtain ⟨herr, hdet, _, hfds⟩ := hsame
  rw [r1, r2, n1, n2, g2, herr, hdet]
  refine ⟨rfl, rfl, ?_, ?_, ?_⟩
  · rw [g1]
    by_cases he : x1.error = 0
    · simp only [he, ne_eq, not_true_eq_false, if_false]
      exact hdet
    · simp only [he, ne_eq, not_false_eq_true, if_true]
  · have hh : (if x1.error ≠ 0 then { x2.eng with viapadlock_engines_detected := 0 }
        else x2.eng).handles = E.handles := by
      rw [g1]
      by_cases he : x1.error = 0
      · simp only [he, ne_eq, not_true_eq_false, if_false]
        unfold Engine.handles
        rw [hdet]
        apply List.map_congr_left
        intro j hj
        exact hfds j (by rw [hdet]; exact List.mem_range.mp hj)
      · simp only [he, ne_eq, not_false_eq_true, if_true]
        rfl
    exact hh
  · refine ⟨rest0 ++ rest2, ?_⟩
    rw [t2, hpre, free_loop_eq_filter, List.append_assoc]
    rfl

/-- C16: for every machine and prior state, after `viapadlock_rng_init` the
detected count, and so the number of handles held, is at most 32, and every
entry of `msr_fd` at an index of 32 or more is what it was before the call
(the scan never stores at such an index); with 33 or more identical usable
cores the call returns 1 with exactly 32 handles, those of cores `0 .. 31`. -/
theorem C16_init_at_most_max_cpus (m : Machine) (e0 : Engine) :
    (viapadlock_rng_init m e0).eng.viapadlock_engines_detected ≤ 32 ∧
    (viapadlock_rng_init m e0).eng.handles.length ≤ 32 ∧
    (∀ j, 32 ≤ j →
      (viapadlock_rng_init m e0).eng.viapadlock_state.msr_fd j =
        e0.viapadlock_state.msr_fd j) ∧
    (∀ (fd : Nat → Int) (t : via_rng_type_t) (msk N : Nat), 33 ≤ N →
      (∀ i, i < N → m.open_msr i = Except.ok (fd i)) →
      (∀ i, i < N → ∃ c, m.open_cpuid i = Except.ok c ∧ probe m c = some (t, msk)) →
      (viapadlock_rng_init m e0).ret = 1 ∧
      (viapadlock_rng_init m e0).eng.viapadlock_engines_detected = 32 ∧
      (viapadlock_rng_init m e0).eng.handles = (List.range 32).map fd) := by
  obtain ⟨r1, _, g1, _⟩ := init_result m e0 _ rfl
  have hb := init_loop_bound m MAX_CPUS 0 { e0 with viapadlock_engines_detected := 0 }
    (free_loop e0.viapadlock_state e0.viapadlock_engines_detected) (Nat.zero_add _)
    (Nat.le_refl 0)
  have hdet : (viapadlock_rng_init m e0).eng.viapadlock_engines_detected ≤ 32 := by
    rw [g1]
    split
    · exact Nat.zero_le _
    · exact hb.1
  refine ⟨hdet, ?_, ?_, ?_⟩
  · unfold Engine.handles
    rw [List.length_map, List.length_range]
    exact hdet
  · intro j hj
    rw [g1]
    split
    · exact hb.2 j hj
    · exact hb.2 j hj
  · intro fd t msk N hN hmsr hcpuid
    have hu := init_loop_usable m fd t msk 32 (Nat.le_refl _)
      (fun i hi => hmsr i (by omega)) (fun i hi => hcpuid i (by omega))
      (fun h => absurd h (Nat.lt_irrefl 32)) MAX_CPUS
      { e0 with viapadlock_engines_detected := 0 }
      (free_loop e0.viapadlock_state e0.viapadlock_engines_detected)
      (Nat.zero_add _) (Nat.zero_le _) (fun h => absurd h (Nat.lt_irrefl 0))
      (fun j hj => absurd hj (Nat.not_lt_zero j))
    obtain ⟨herr, hd, hfds, _⟩ := hu
    have herr' : ¬ ((init_loop m MAX_CPUS 0 { e0 with viapadlock_engines_detected := 0 }
        (free_loop e0.viapadlock_state e0.viapadlock_engines_detected)).error ≠ 0) :=
      not_not.mpr herr
    rw [r1, g1]
    simp only [if_neg herr']
    refine ⟨?_, hd, handles_of_prefix _ fd 32 hd hfds⟩
    rw [hd]
    rfl

/-- Witness of C16: a simulated machine with 33 identical cores. -/
theorem C16_init_at_most_max_cpus_witness :
    (viapadlock_rng_init (sim_machine 33 0x698 0 0) Engine.zero).ret = 1 ∧
    (viapadlock_rng_init (sim_machine 33 0x698 0 0) Engine.zero).eng.viapadlock_engines_detected
      = 32 ∧
    (viapadlock_rng_init (sim_machine 33 0x698 0 0) Engine.zero).eng.handles =
      (List.range 32).map (fun i => 3 + (i : Int)) :=
  (C16_init_at_most_max_cpus (sim_machine 33 0x698 0 0) Engine.zero).2.2.2
    (fun i => 3 + (i : Int)) via_rng_type_t.VIA_RNG_TYPE1_TWOSRC TWOSRC_MASK 33 (by decide)
    (fun i hi => by simp [sim_machine, hi])
    (fun _ _ => ⟨100, rfl, by decide⟩)

/-! ## Dry iterations of the extraction loop -/

/-- The bound on the byte-count field cannot be dropped: a status with bits
4:0 equal to 20, a count `xstore` never reports since it stores at most 8
bytes, passes the test of the code on `VIA1_XSTORE_CNT_MASK` at step 4, and the
4 bytes of that execution are copied. -/
theorem read_count_above_sixteen :
    (sim_dry.via_xstore 1 1).flags &&& 0x1f = 20 ∧
    (sim_dry.via_xstore 1 1).flags &&& VIA1_XSTORE_CNT_MASK = 4 ∧
    (viapadlock_rng_read sim_dry sim_enabled 1 4).map
        (fun r => (r.ret, r.errno, r.buf, r.trace)) =
      some (4, 0, [16, 17, 18, 19], [Event.xstore 1, Event.xstore 1]) :=
  ⟨by decide, by decide, by decide⟩

theorem step_values (d : Nat) (hd : d ≤ 3) :
    8 >>> (d &&& 3) = [8, 4, 2, 1].getD d 0 := by
  interval_cases d <;> rfl

theorem ceil_div_bounds (n d : Nat) (hd : d ≤ 3) :
    n ≤ (n + (8 >>> d) - 1) / (8 >>> d) * (8 >>> d) ∧
    (n + (8 >>> d) - 1) / (8 >>> d) * (8 >>> d) < n + (8 >>> d) := by
  interval_cases d
  · show n ≤ (n + 8 - 1) / 8 * 8 ∧ (n + 8 - 1) / 8 * 8 < n + 8
    omega
  · show n ≤ (n + 4 - 1) / 4 * 4 ∧ (n + 4 - 1) / 4 * 4 < n + 4
    omega
  · show n ≤ (n + 2 - 1) / 2 * 2 ∧ (n + 2 - 1) / 2 * 2 < n + 2
    omega
  · show n ≤ (n + 1 - 1) / 1 * 1 ∧ (n + 1 - 1) / 1 * 1 < n + 1
    omega

theorem ceil_div_double (q d : Nat) (hd : d + 1 ≤ 3) :
    (8 * q + (8 >>> (d + 1)) - 1) / (8 >>> (d + 1)) =
      2 * ((8 * q + (8 >>> d) - 1) / (8 >>> d)) := by
  have hd2 : d ≤ 2 := by omega
  interval_cases d
  · show (8 * q + 4 - 1) / 4 = 2 * ((8 * q + 8 - 1) / 8)
    omega
  · show (8 * q + 2 - 1) / 2 = 2 * ((8 * q + 4 - 1) / 4)
    omega
  · show (8 * q + 1 - 1) / 1 = 2 * ((8 * q + 2 - 1) / 2)
    omega

/-- The whole call of `viapadlock_rng_read` when every `xstore` answers a
matching status with byte count `8 >> d`. -/
theorem read_steady (m : Machine) (eng : Engine) (fuel n : Nat)
    (hdet : 0 < eng.viapadlock_engines_detected) (hd : eng.viapadlock_state.divisor ≤ 3)
    (hx : ∀ k, (m.via_xstore k eng.viapadlock_state.divisor).flags &&&
          eng.viapadlock_state.MSR_LSW_MASK = eng.viapadlock_state.MSR_LSW ∧
        ((m.via_xstore k eng.viapadlock_state.divisor).flags &&& 0x1f =
            8 >>> eng.viapadlock_state.divisor ∨
          (m.via_xstore k eng.viapadlock_state.divisor).flags &&& VIA1_XSTORE_CNT_MASK =
            8 >>> eng.viapadlock_state.divisor))
    (hfuel : n ≤ fuel) :
    viapadlock_rng_read m eng fuel n =
      some { ret := (n : Int), errno := 0,
             buf := expected_bytes m eng.viapadlock_state.divisor
               (8 >>> eng.viapadlock_state.divisor) 0 n,
             eng := eng,
             trace := List.replicate
               ((n + (8 >>> eng.viapadlock_state.divisor) - 1) /
                 (8 >>> eng.viapadlock_state.divisor))
               (Event.xstore eng.viapadlock_state.divisor) } := by
  have hstep := step_of_divisor _ hd
  have hx' : ∀ k, (m.via_xstore k eng.viapadlock_state.divisor).flags &&&
        eng.viapadlock_state.MSR_LSW_MASK = eng.viapadlock_state.MSR_LSW ∧
      (m.via_xstore k eng.viapadlock_state.divisor).flags &&& VIA1_XSTORE_CNT_MASK =
        8 >>> eng.viapadlock_state.divisor :=
    fun k => ⟨(hx k).1, cnt_of_low_five_bits _ _ hd (hx k).2⟩
  unfold viapadlock_rng_read
  rw [if_neg (Nat.pos_iff_ne_zero.mp hdet)]
  simp only
  rw [hstep.1, read_loop_steady m eng _ _ hstep.2 hx' fuel n _ 0 0 [] [] hfuel (Or.inl rfl)]
  simp

/-- C22: on an engine with at least one detected core and stored divisor
`d ≤ 3`, the step `8 >> (d & 3)` of `viapadlock_rng_read` is 8, 4, 2, 1 for
`d = 0, 1, 2, 3`; if every `xstore` answers a status word that matches the
stored `MSR_LSW` under the mask and whose byte count (bits 4:0, or the four
bits the code tests) is `8 >> d`, a request of `n` bytes with fuel at least `n`
returns `n` after exactly `c = ⌈n / (8 >> d)⌉` executions of `xstore` and
nothing else (`c` is the number with `n ≤ c * step < n + step`); and on any
engine with divisor `d + 1 ≤ 3` under the same conditions, a request of the same
`n`, a multiple of 8, takes exactly twice as many executions. -/
theorem C22_read_invocation_count (m : Machine) (eng : Engine) (fuel n : Nat)
    (hdet : 0 < eng.viapadlock_engines_detected) (hd : eng.viapadlock_state.divisor ≤ 3)
    (hx : ∀ k, (m.via_xstore k eng.viapadlock_state.divisor).flags &&&
          eng.viapadlock_state.MSR_LSW_MASK = eng.viapadlock_state.MSR_LSW ∧
        ((m.via_xstore k eng.viapadlock_state.divisor).flags &&& 0x1f =
            8 >>> eng.viapadlock_state.divisor ∨
          (m.via_xstore k eng.viapadlock_state.divisor).flags &&& VIA1_XSTORE_CNT_MASK =
            8 >>> eng.viapadlock_state.divisor))
    (hfuel : n ≤ fuel) :
    8 >>> (eng.viapadlock_state.divisor &&& 3) = 8 >>> eng.viapadlock_state.divisor ∧
    8 >>> (eng.viapadlock_state.divisor &&& 3) = [8, 4, 2, 1].getD eng.viapadlock_state.divisor 0 ∧
    (∃ r : ReadResult, viapadlock_rng_read m eng fuel n = some r ∧ r.ret = (n : Int) ∧
      r.trace = List.replicate
        ((n + (8 >>> eng.viapadlock_state.divisor) - 1) / (8 >>> eng.viapadlock_state.divisor))
        (Event.xstore eng.viapadlock_state.divisor)) ∧
    (n ≤ (n + (8 >>> eng.viapadlock_state.divisor) - 1) / (8 >>> eng.viapadlock_state.divisor) *
        (8 >>> eng.viapadlock_state.divisor) ∧
      (n + (8 >>> eng.viapadlock_state.divisor) - 1) / (8 >>> eng.viapadlock_state.divisor) *
        (8 >>> eng.viapadlock_state.divisor) < n + (8 >>> eng.viapadlock_state.divisor)) ∧
    (∀ (m2 : Machine) (eng2 : Engine) (fuel2 : Nat),
      0 < eng2.viapadlock_engines_detected →
      eng2.viapadlock_state.divisor = eng.viapadlock_state.divisor + 1 →
      eng2.viapadlock_state.divisor ≤ 3 →
      (∀ k, (m2.via_xstore k eng2.viapadlock_state.divisor).flags &&&
            eng2.viapadlock_state.MSR_LSW_MASK = eng2.viapadlock_state.MSR_LSW ∧
          ((m2.via_xstore k eng2.viapadlock_state.divisor).flags &&& 0x1f =
              8 >>> eng2.viapadlock_state.divisor ∨
            (m2.via_xstore k eng2.viapadlock_state.divisor).flags &&& VIA1_XSTORE_CNT_MASK =
              8 >>> eng2.viapadlock_state.divisor)) →
      n ≤ fuel2 → 8 ∣ n →
      ∃ r r2 : ReadResult, viapadlock_rng_read m eng fuel n = some r ∧
        viapadlock_rng_read m2 eng2 fuel2 n = some r2 ∧
        (∀ ev ∈ r2.trace, ev = Event.xstore eng2.viapadlock_state.divisor) ∧
        r2.trace.length = 2 * r.trace.length) := by
  refine ⟨(step_of_divisor _ hd).1, step_values _ hd,
    ⟨_, read_steady m eng fuel n hdet hd hx hfuel, rfl, rfl⟩, ceil_div_bounds n _ hd, ?_⟩
  intro m2 eng2 fuel2 hdet2 hdiv hd2 hx2 hfuel2 hn
  refine ⟨_, _, read_steady m eng fuel n hdet hd hx hfuel,
    read_steady m2 eng2 fuel2 n hdet2 hd2 hx2 hfuel2, ?_, ?_⟩
  · intro ev hev
    exact List.eq_of_mem_replicate hev
  · obtain ⟨q, rfl⟩ := hn
    show (List.replicate _ _).length = 2 * (List.replicate _ _).length
    rw [List.length_replicate, List.length_replicate, hdiv]
    exact ceil_div_double q _ (by omega)

/-- Witness of C22: 16 bytes at divisor 1 (4 per `xstore`) on the simulated
machine, against divisor 2 (2 per `xstore`). -/
theorem C22_read_invocation_count_witness :
    ∃ r r2 : ReadResult,
      viapadlock_rng_read (sim_machine 2 0x698 0 0x244) sim_enabled 16 16 = some r ∧
      viapadlock_rng_read (sim_machine 2 0x698 0 0x242) sim_enabled_q2 16 16 = some r2 ∧
      (∀ ev ∈ r2.trace, ev = Event.xstore sim_enabled_q2.viapadlock_state.divisor) ∧
      r2.trace.length = 2 * r.trace.length :=
  (C22_read_invocation_count (sim_machine 2 0x698 0 0x244) sim_enabled 16 16
    (by decide) (by decide)
    (fun _ =>
      ⟨show 0x244 &&& sim_enabled.viapadlock_state.MSR_LSW_MASK =
          sim_enabled.viapadlock_state.MSR_LSW from by decide,
       Or.inl (show 0x244 &&& 0x1f = 8 >>> sim_enabled.viapadlock_state.divisor from
          by decide)⟩)
    (by decide)).2.2.2.2 (sim_machine 2 0x698 0 0x242) sim_enabled_q2 16
    (by decide) (by decide) (by decide)
    (fun _ =>
      ⟨show 0x242 &&& sim_enabled_q2.viapadlock_state.MSR_LSW_MASK =
          sim_enabled_q2.viapadlock_state.MSR_LSW from by decide,
       Or.inl (show 0x242 &&& 0x1f = 8 >>> sim_enabled_q2.viapadlock_state.divisor from
          by decide)⟩)
    (by decide) (by decide)

/-! ## The string-filter count -/

theorem detected_mask_lt (st : viapadlock_rng_t) (h : Detected st) :
    st.MSR_LSW_MASK < 2 ^ 16 ∧ st.MSR_LSW_MASK.testBit 14 = true := by
  rcases h with h | h <;> rw [h.2] <;> decide

theorem count_bits_zero (x : Nat) (h : x < 2 ^ 16) : (x >>> 16) &&& 0x3f = 0 := by
  rw [Nat.shiftRight_eq_div_pow, Nat.div_eq_of_lt h, Nat.zero_and]

theorem pack_msr_lsw_le (c : viapadlock_rng_config_t) (mask : Nat) :
    pack_msr_lsw c mask ≤ mask := by
  unfold pack_msr_lsw
  exact Nat.and_le_right

theorem enable_write_loop_events (m : Machine) (lo hi : Nat) : ∀ (fds : List Int)
    (ev : Event), ev ∈ (enable_write_loop m lo hi fds).2 → ∃ fd, ev = Event.wrmsr fd lo hi := by
  intro fds
  induction fds with
  | nil => intro ev h; unfold enable_write_loop at h; simp at h
  | cons fd fds ih =>
    intro ev h
    unfold enable_write_loop at h
    simp only at h
    split at h
    · simp only [List.mem_singleton] at h
      exact ⟨fd, h⟩
    · simp only [List.mem_cons] at h
      rcases h with h | h
      · exact ⟨fd, h⟩
      · exact ih ev h

/-- With a config, `viapadlock_rng_enable` stores the packed value and divisor
and goes on to the write loop. -/
theorem enable_some_apply (m : Machine) (eng : Engine) (e : Nat) (c : viapadlock_rng_config_t)
    (h : eng.viapadlock_engines_detected ≠ 0) :
    viapadlock_rng_enable m eng e (some c) =
      enable_apply m
        { eng with viapadlock_state :=
            { eng.viapadlock_state with
              MSR_LSW := pack_msr_lsw (clean_config c) eng.viapadlock_state.MSR_LSW_MASK,
              divisor := (clean_config c).divisor } } e (some (clean_config c)) := by
  unfold viapadlock_rng_enable
  rw [if_neg h]

/-- The word `viapadlock_rng_enable` writes when given a config: the packed
value, without the enable bit when disabling. -/
theorem enable_some_writes (m : Machine) (eng : Engine) (e : Nat) (c : viapadlock_rng_config_t)
    (h : eng.viapadlock_engines_detected ≠ 0) (ev : Event)
    (hev : ev ∈ (viapadlock_rng_enable m eng e (some c)).trace) :
    ∃ fd, ev = Event.wrmsr fd
      (if e = 0 then
        pack_msr_lsw (clean_config c) eng.viapadlock_state.MSR_LSW_MASK &&&
          (2 ^ 32 - 1 - VIA1_RNG_ENABLE)
       else pack_msr_lsw (clean_config c) eng.viapadlock_state.MSR_LSW_MASK) 0 := by
  rw [enable_some_apply m eng e c h] at hev
  unfold enable_apply at hev
  exact enable_write_loop_events m _ _ _ ev hev

theorem enable_some_trace_ne_nil (m : Machine) (eng : Engine) (e : Nat)
    (c : viapadlock_rng_config_t) (h : 0 < eng.viapadlock_engines_detected) :
    (viapadlock_rng_enable m eng e (some c)).trace ≠ [] := by
  rw [enable_some_apply m eng e c (Nat.pos_iff_ne_zero.mp h)]
  unfold enable_apply
  simp only
  obtain ⟨fd, fds, hh⟩ := handles_ne_nil
    { eng with viapadlock_state :=
        { eng.viapadlock_state with
          MSR_LSW := pack_msr_lsw (clean_config c) eng.viapadlock_state.MSR_LSW_MASK,
          divisor := (clean_config c).divisor } } h
  rw [hh]
  exact enable_write_loop_trace_ne_nil m _ _ fd fds

/-- Two configs that differ only in a non-zero string-filter length are packed
to the same value under a mask below bit 16. -/
theorem pack_msr_lsw_strfilt (c : viapadlock_rng_config_t) (sf mask : Nat)
    (hmask : mask < 2 ^ 16) (h1 : c.string_filter ≠ 0) (h2 : sf ≠ 0) :
    pack_msr_lsw (clean_config { c with string_filter := sf }) mask =
      pack_msr_lsw (clean_config c) mask ∧
    (clean_config { c with string_filter := sf }).divisor = (clean_config c).divisor := by
  rw [pack_msr_lsw_value _ mask hmask, pack_msr_lsw_value _ mask hmask, clean_config_eq,
    clean_config_eq]
  simp only [h1, h2, if_false]
  have a : max 8 (min sf 63) > 0 := by omega
  have b : max 8 (min c.string_filter 63) > 0 := by omega
  simp only [a, b, if_true]
  exact ⟨trivial, trivial⟩

theorem pack_msr_lsw_strfilt_bit (c : viapadlock_rng_config_t) (mask : Nat)
    (hmask : mask.testBit 14 = true) (h1 : c.string_filter ≠ 0) :
    (pack_msr_lsw (clean_config c) mask).testBit 14 = true := by
  have hc : (clean_config c).string_filter > 0 := by
    rw [clean_config_eq]
    simp only [h1, if_false]
    omega
  unfold pack_msr_lsw
  rw [if_pos hc, Nat.testBit_and, hmask]
  simp only [Nat.testBit_or]
  have : VIA1_STRFILT_ENABLE.testBit 14 = true := by decide
  simp [this]

/-- C23: on an initialised engine (the capability is the single-source or the
dual-source one of detection), for every config and either value of `enable`,
the `MSR_LSW` stored by `viapadlock_rng_enable` has bits 21:16 equal to 0, at
least one msr write is attempted, and every write carries a low word with bits
21:16 equal to 0 (the stored value, without the enable bit when disabling) and
a zero high word. For a config with a non-zero `string_filter`, replacing that
length by any other non-zero length gives the same statics (stored value and
divisor), the same writes, return value and `errno`; the stored value and
every written word have bit 14 (string filter enabled) set. -/
theorem C23_string_filter_count_never_written (eng : Engine) (h : Initialized eng)
    (m : Machine) (e : Nat) (c : viapadlock_rng_config_t) (sf : Nat) :
    ((viapadlock_rng_enable m eng e (some c)).eng.viapadlock_state.MSR_LSW >>> 16) &&& 0x3f = 0 ∧
    (viapadlock_rng_enable m eng e (some c)).trace ≠ [] ∧
    (∀ ev ∈ (viapadlock_rng_enable m eng e (some c)).trace, ∃ fd lo,
      ev = Event.wrmsr fd lo 0 ∧ (lo >>> 16) &&& 0x3f = 0 ∧
      lo = (if e = 0 then
        (viapadlock_rng_enable m eng e (some c)).eng.viapadlock_state.MSR_LSW &&&
          (2 ^ 32 - 1 - VIA1_RNG_ENABLE)
        else (viapadlock_rng_enable m eng e (some c)).eng.viapadlock_state.MSR_LSW) ∧
      (c.string_filter ≠ 0 → lo.testBit 14 = true)) ∧
    (c.string_filter ≠ 0 → sf ≠ 0 →
      (viapadlock_rng_enable m eng e (some { c with string_filter := sf })).eng =
        (viapadlock_rng_enable m eng e (some c)).eng ∧
      (viapadlock_rng_enable m eng e (some { c with string_filter := sf })).trace =
        (viapadlock_rng_enable m eng e (some c)).trace ∧
      (viapadlock_rng_enable m eng e (some { c with string_filter := sf })).ret =
        (viapadlock_rng_enable m eng e (some c)).ret ∧
      (viapadlock_rng_enable m eng e (some { c with string_filter := sf })).errno =
        (viapadlock_rng_enable m eng e (some c)).errno ∧
      (viapadlock_rng_enable m eng e (some c)).eng.viapadlock_state.MSR_LSW.testBit 14 = true) := by
  have hr := initialized_ready eng h
  have hd : eng.viapadlock_engines_detected ≠ 0 := Nat.pos_iff_ne_zero.mp hr.1
  have hm := detected_mask_lt _ hr.2
  have hst : (viapadlock_rng_enable m eng e (some c)).eng.viapadlock_state.MSR_LSW =
      pack_msr_lsw (clean_config c) eng.viapadlock_state.MSR_LSW_MASK := by
    rw [enable_some_eng m eng e c hd]
  have hlt : pack_msr_lsw (clean_config c) eng.viapadlock_state.MSR_LSW_MASK < 2 ^ 16 :=
    lt_of_le_of_lt (pack_msr_lsw_le _ _) hm.1
  refine ⟨?_, enable_some_trace_ne_nil m eng e c hr.1, ?_, ?_⟩
  · rw [hst]
    exact count_bits_zero _ hlt
  · intro ev hev
    obtain ⟨fd, hfd⟩ := enable_some_writes m eng e c hd ev hev
    rw [hst]
    refine ⟨fd, _, hfd, ?_, rfl, ?_⟩
    · split
      · exact count_bits_zero _ (lt_of_le_of_lt Nat.and_le_left hlt)
      · exact count_bits_zero _ hlt
    · intro hsf
      have hb := pack_msr_lsw_strfilt_bit c _ hm.2 hsf
      split
      · rw [disable_value_bits _ (lt_trans hlt (by decide)), hb]
        rfl
      · exact hb
  · intro h1 h2
    have hp := pack_msr_lsw_strfilt c sf _ hm.1 h1 h2
    have heq : ∀ x : Option viapadlock_rng_config_t,
        enable_apply m
          { eng with viapadlock_state :=
              { eng.viapadlock_state with
                MSR_LSW := pack_msr_lsw (clean_config { c with string_filter := sf })
                  eng.viapadlock_state.MSR_LSW_MASK,
                divisor := (clean_config { c with string_filter := sf }).divisor } } e x =
        enable_apply m
          { eng with viapadlock_state :=
              { eng.viapadlock_state with
                MSR_LSW := pack_msr_lsw (clean_config c) eng.viapadlock_state.MSR_LSW_MASK,
                divisor := (clean_config c).divisor } } e x := by
      intro x
      rw [hp.1, hp.2]
    rw [enable_some_apply m eng e _ hd, enable_some_apply m eng e c hd]
    refine ⟨?_, ?_, ?_, ?_, ?_⟩
    · rw [enable_apply_eng, enable_apply_eng, hp.1, hp.2]
    · exact congrArg (fun r => r.trace) (heq _)
    · exact congrArg (fun r => r.ret) (heq _)
    · exact congrArg (fun r => r.errno) (heq _)
    · rw [enable_apply_eng]
      exact pack_msr_lsw_strfilt_bit c _ hm.2 h1

/-- Witness of C23: string-filter lengths 20 and 63 on the simulated two-core
machine give the same stored value `0x4240` and the same two writes. -/
theorem C23_string_filter_count_never_written_witness :
    (viapadlock_rng_enable (sim_machine 2 0x698 0 0) sim_engine 1
        (some { sim_cfg_strfilt20 with string_filter := 63 })).eng =
      (viapadlock_rng_enable (sim_machine 2 0x698 0 0) sim_engine 1
        (some sim_cfg_strfilt20)).eng ∧
    (viapadlock_rng_enable (sim_machine 2 0x698 0 0) sim_engine 1
        (some { sim_cfg_strfilt20 with string_filter := 63 })).trace =
      (viapadlock_rng_enable (sim_machine 2 0x698 0 0) sim_engine 1
        (some sim_cfg_strfilt20)).trace ∧
    (viapadlock_rng_enable (sim_machine 2 0x698 0 0) sim_engine 1
        (some sim_cfg_strfilt20)).trace = [Event.wrmsr 3 0x4240 0, Event.wrmsr 4 0x4240 0] :=
  ⟨((C23_string_filter_count_never_written sim_engine
      ⟨sim_machine 2 0x698 0 0, Engine.zero, [], by decide, rfl⟩
      (sim_machine 2 0x698 0 0) 1 sim_cfg_strfilt20 63).2.2.2 (by decide) (by decide)).1,
   ((C23_string_filter_count_never_written sim_engine
      ⟨sim_machine 2 0x698 0 0, Engine.zero, [], by decide, rfl⟩
      (sim_machine 2 0x698 0 0) 1 sim_cfg_strfilt20 63).2.2.2 (by decide) (by decide)).2.1,
   by decide⟩

/-! ## Revision decoding -/

theorem and_shifted_mask (t msk k : Nat) :
    t &&& (msk <<< k) = ((t >>> k) &&& msk) <<< k := by
  apply Nat.eq_of_testBit_eq
  intro i
  simp only [Nat.testBit_and, Nat.testBit_shiftLeft, Nat.testBit_shiftRight]
  by_cases h : i ≥ k
  · have : k + (i - k) = i := by omega
    simp [h, this]
  · simp [h]

theorem and_low_mask (x : Nat) : x &&& 0xf = x % 16 :=
  Nat.and_pow_two_sub_one_eq_mod x 4

theorem and_byte_mask (x : Nat) : x &&& 0xff = x % 256 :=
  Nat.and_pow_two_sub_one_eq_mod x 8

theorem or_eq_add_of_lt (a b i : Nat) (hb : b < 2 ^ i) :
    (a * 2 ^ i) ||| b = a * 2 ^ i + b := by
  rw [Nat.mul_comm a (2 ^ i)]
  exact (Nat.mul_add_lt_is_or hb a).symm

theorem revision_bits (t : Nat) :
    (t >>> 8) &&& 0xf = t / 256 % 16 ∧ (t >>> 4) &&& 0xf = t / 16 % 16 ∧
    (t >>> 20) &&& 0xff = t / 1048576 % 256 ∧ t &&& 0xf = t % 16 ∧
    t &&& 0xf00 = (t / 256 % 16) * 2 ^ 8 ∧ (t >>> 12) &&& 0xf0 = (t / 65536 % 16) * 2 ^ 4 := by
  refine ⟨?_, ?_, ?_, ?_, ?_, ?_⟩
  · rw [and_low_mask, Nat.shiftRight_eq_div_pow]
  · rw [and_low_mask, Nat.shiftRight_eq_div_pow]
  · rw [and_byte_mask, Nat.shiftRight_eq_div_pow]
  · rw [and_low_mask]
  · have h := and_shifted_mask t 0xf 8
    rw [and_low_mask, Nat.shiftRight_eq_div_pow, Nat.shiftLeft_eq, Nat.shiftLeft_eq] at h
    exact h
  · have h := and_shifted_mask (t >>> 12) 0xf 4
    rw [and_low_mask, Nat.shiftRight_eq_div_pow, Nat.shiftRight_eq_div_pow, Nat.shiftLeft_eq,
      Nat.shiftLeft_eq] at h
    have h2 : t / 2 ^ 12 / 2 ^ 4 % 16 = t / 65536 % 16 := by omega
    rw [h2] at h
    rw [Nat.shiftRight_eq_div_pow]
    exact h

/-- Packing three fields that fit their places: no overlap, no overflow. -/
theorem pack_revision (F M S : Nat) (hF : F < 2 ^ 16) (hM : M < 2 ^ 8) (hS : S < 2 ^ 8) :
    ((F <<< 16) % 2 ^ 32) ||| ((M <<< 8) % 2 ^ 32) ||| S = F * 2 ^ 16 + M * 2 ^ 8 + S := by
  rw [Nat.shiftLeft_eq, Nat.shiftLeft_eq, Nat.mod_eq_of_lt (by omega), Nat.mod_eq_of_lt (by omega),
    or_eq_add_of_lt F (M * 2 ^ 8) 16 (by omega)]
  have h : F * 2 ^ 16 + M * 2 ^ 8 = (F * 2 ^ 8 + M) * 2 ^ 8 := by omega
  rw [h, or_eq_add_of_lt (F * 2 ^ 8 + M) S 8 hS]

theorem decode_family_eq (t : Nat) :
    (if t &&& 0xf00 = 0xf00 then (((t >>> 8) &&& 0xf) + ((t >>> 20) &&& 0xff)) % 2 ^ 32
      else (t >>> 8) &&& 0xf) = revision_family t := by
  obtain ⟨h1, _, h3, _, h5, _⟩ := revision_bits t
  rw [h1, h3, h5]
  unfold revision_family
  by_cases hx : t / 256 % 16 = 15
  · rw [if_pos (by omega), if_pos (by omega)]
    omega
  · rw [if_neg (by omega), if_neg (by omega)]
    omega

theorem decode_model_eq (t : Nat) :
    (if t &&& 0xf00 = 0xf00 then ((t >>> 4) &&& 0xf) ||| ((t >>> 12) &&& 0xf0)
      else (t >>> 4) &&& 0xf) = revision_model t := by
  obtain ⟨_, h2, _, _, h5, h6⟩ := revision_bits t
  rw [h2, h5, h6]
  unfold revision_model
  by_cases hx : t / 256 % 16 = 15
  · rw [if_pos (by omega), if_pos (by omega), Nat.or_comm,
      or_eq_add_of_lt (t / 65536 % 16) (t / 16 % 16) 4 (by omega)]
    omega
  · rw [if_neg (by omega), if_neg (by omega)]
    omega

theorem revision_bounds (t : Nat) :
    revision_family t < 2 ^ 16 ∧ revision_model t < 2 ^ 8 ∧ revision_stepping t < 2 ^ 4 := by
  unfold revision_family revision_model revision_stepping
  refine ⟨?_, ?_, ?_⟩
  · split <;> omega
  · split <;> omega
  · omega

theorem decode_cpu_revision_eq (t : Nat) :
    decode_cpu_revision t =
      revision_family t * 2 ^ 16 + revision_model t * 2 ^ 8 + revision_stepping t := by
  have hb := revision_bounds t
  have hs : t &&& 0xf = revision_stepping t := (revision_bits t).2.2.2.1
  show (((if t &&& 0xf00 = 0xf00 then (((t >>> 8) &&& 0xf) + ((t >>> 20) &&& 0xff)) % 2 ^ 32
        else (t >>> 8) &&& 0xf) <<< 16) % 2 ^ 32) |||
      (((if t &&& 0xf00 = 0xf00 then ((t >>> 4) &&& 0xf) ||| ((t >>> 12) &&& 0xf0)
        else (t >>> 4) &&& 0xf) <<< 8) % 2 ^ 32) ||| (t &&& 0xf) = _
  rw [decode_family_eq, decode_model_eq, hs]
  exact pack_revision _ _ _ hb.1 hb.2.1 (by omega)

/-- C24: for every identification word `t`, with family = bits 11:8 (plus
bits 27:20 when bits 11:8 are `0xF`), model = bits 7:4 (with bits 19:16 as its
high nibble when bits 11:8 are `0xF`) and stepping = bits 3:0,
`decode_cpu_revision t` is `(family << 16) | (model << 8) | stepping`; the
three fields do not overlap (the bitwise OR is the sum, with model below `2^8`
and stepping below `2^4`), nothing overflows 32 bits (family is at most 270,
the result is below `2^32`), and the results of two words compare as their
triples (family, model, stepping) compare lexicographically. -/
theorem C24_decode_cpu_revision_ordered (t1 t2 : Nat) :
    decode_cpu_revision t1 =
      (revision_family t1 <<< 16) ||| (revision_model t1 <<< 8) ||| revision_stepping t1 ∧
    decode_cpu_revision t1 =
      revision_family t1 * 2 ^ 16 + revision_model t1 * 2 ^ 8 + revision_stepping t1 ∧
    revision_family t1 ≤ 270 ∧ revision_model t1 < 2 ^ 8 ∧ revision_stepping t1 < 2 ^ 4 ∧
    decode_cpu_revision t1 < 2 ^ 32 ∧
    (decode_cpu_revision t1 < decode_cpu_revision t2 ↔
      revision_family t1 < revision_family t2 ∨
      (revision_family t1 = revision_family t2 ∧
        (revision_model t1 < revision_model t2 ∨
          (revision_model t1 = revision_model t2 ∧
            revision_stepping t1 < revision_stepping t2)))) ∧
    (decode_cpu_revision t1 = decode_cpu_revision t2 ↔
      revision_family t1 = revision_family t2 ∧ revision_model t1 = revision_model t2 ∧
        revision_stepping t1 = revision_stepping t2) := by
  have e1 := decode_cpu_revision_eq t1
  have e2 := decode_cpu_revision_eq t2
  have b1 := revision_bounds t1
  have b2 := revision_bounds t2
  have hf : revision_family t1 ≤ 270 := by
    unfold revision_family
    split <;> omega
  have hor : (revision_family t1 <<< 16) ||| (revision_model t1 <<< 8) ||| revision_stepping t1 =
      revision_family t1 * 2 ^ 16 + revision_model t1 * 2 ^ 8 + revision_stepping t1 := by
    have hp := pack_revision _ _ _ b1.1 b1.2.1 (show revision_stepping t1 < 2 ^ 8 by omega)
    rw [Nat.shiftLeft_eq, Nat.shiftLeft_eq] at hp ⊢
    rw [Nat.mod_eq_of_lt (by omega), Nat.mod_eq_of_lt (by omega)] at hp
    exact hp
  refine ⟨by rw [hor, e1], e1, hf, b1.2.1, b1.2.2, ?_, ?_, ?_⟩
  · rw [e1]; omega
  · rw [e1, e2]; omega
  · rw [e1, e2]; omega

end ViaPadlock
